import Mathlib

/-!
Verification of the draw.io diagram layout and serialization engine
(`src/drawio/xml-builder.ts` of the AI-architecture-generator repository).

The engine is embedded shallowly: the mutable builder state (`cellMap`,
`idCounter`, `usedResourceTypes`, `usedConnectionStyles`,
`containerAbsBounds`) becomes an explicit `St` record threaded through the
build functions, and each build method returns the updated state together
with the list of cells it emitted, in emission order.  All layout
quantities in the source are non-negative integers (JavaScript numbers
used only at integral values), so sizes and positions are `Nat`; the only
fractional arithmetic is the `/ 2` in connection-routing centre
computations, which is embedded in `ℚ`.
-/

namespace AzArch

/-! ## Data model

Modelled from the spec: `src/schema/types.ts` is not in the source tree.
Entity shapes follow spec §3 plus the fields the builder actually reads.
Spec §3 lists no explicit `id` field on any entity, so the source pattern
`x.id || this.nextId()` always takes the generated-id branch and is
embedded as a plain `nextId` call.  Optional fields are `Option`;
JavaScript string truthiness (empty string is falsy) is modelled
explicitly where the source tests a string with `if` or `||`. -/

structure Position where
  x : Nat
  y : Nat
deriving DecidableEq, Repr

structure Resource where
  type : String
  name : String
  properties : Option (List (String × Option String)) := none
deriving DecidableEq, Repr

structure AZGroup where
  zone : String
  resources : List Resource
deriving DecidableEq, Repr

structure Subnet where
  name : String
  /-- Models the source field `addressPrefix` (renamed here). -/
  addrPfx : Option String := none
  properties : Option (List (String × Option String)) := none
  availabilityZones : Option (List AZGroup) := none
  resources : Option (List Resource) := none
deriving DecidableEq, Repr

/-- An entry of `ResourceGroup.resources`: in the source this is the union
type `Resource | VNet`, where `VNet` extends `Resource` with `subnets` and
`addressSpace` and is recognised by `type ∈ {vnet, hubVnet}`. -/
structure RGResource where
  type : String
  name : String
  properties : Option (List (String × Option String)) := none
  addressSpace : Option String := none
  subnets : Option (List Subnet) := none
deriving DecidableEq, Repr

/-- Forget the VNet-only fields; used when a resource-group entry is laid
out as a plain resource (the source passes the same object, but
`buildResource` reads only these fields). -/
def RGResource.toResource (r : RGResource) : Resource :=
  ⟨r.type, r.name, r.properties⟩

structure ResourceGroup where
  name : String
  resources : List RGResource
deriving DecidableEq, Repr

structure Region where
  name : String
  isPrimary : Bool := false
  resourceGroups : Option (List ResourceGroup) := none
  resources : Option (List Resource) := none
deriving DecidableEq, Repr

structure Subscription where
  name : String
  regions : Option (List Region) := none
  resourceGroups : Option (List ResourceGroup) := none
deriving DecidableEq, Repr

structure OnPremises where
  name : String
  resources : Option (List Resource) := none
deriving DecidableEq, Repr

structure Connection where
  «from» : String
  «to» : String
  style : Option String := none
  label : Option String := none
deriving DecidableEq, Repr

structure DiagramPage where
  name : String
  description : Option String := none
  regions : Option (List Region) := none
  subscription : Option Subscription := none
  connections : Option (List Connection) := none
  globalResources : Option (List Resource) := none
  onPremises : Option (List OnPremises) := none
  resourceGroups : Option (List ResourceGroup) := none
deriving DecidableEq, Repr

structure Architecture where
  title : Option String := none
  description : Option String := none
  subscription : Option Subscription := none
  subscriptions : Option (List Subscription) := none
  regions : Option (List Region) := none
  connections : Option (List Connection) := none
  globalResources : Option (List Resource) := none
  onPremises : Option (List OnPremises) := none
  pages : Option (List DiagramPage) := none
deriving DecidableEq, Repr

/-! ## Resource catalog and container styles -/

structure ResourceDefinition where
  icon : String
  width : Nat
  height : Nat
  displayName : String
deriving DecidableEq, Repr

/-- Modelled from the spec: the static resource catalog `RESOURCES`
(`src/schema/resources.ts` is not in the source tree).  Spec §4.1/§6: one
lookup table keyed by resource type providing {icon, default width,
default height, display name}, leaf resources having a fixed default
footprint.  The footprint is modelled as 64×64, the default the router
itself assumes for icon cells (`getAbsoluteCenter` falls back to centre
offset 32 and `getAbsoluteRightEdge` to width 64). -/
def RESOURCES : List (String × ResourceDefinition) :=
  [ ("subscription", ⟨"img/azure/subscription.svg", 64, 64, "Subscription"⟩)
  , ("vnet", ⟨"img/azure/vnet.svg", 64, 64, "Virtual Network"⟩)
  , ("onPremises", ⟨"img/azure/onprem.svg", 64, 64, "On-Premises"⟩)
  , ("vm", ⟨"img/azure/vm.svg", 64, 64, "Virtual Machine"⟩)
  , ("vmss", ⟨"img/azure/vmss.svg", 64, 64, "VM Scale Set"⟩)
  , ("aks", ⟨"img/azure/aks.svg", 64, 64, "AKS Cluster"⟩)
  , ("storageAccount", ⟨"img/azure/storage.svg", 64, 64, "Storage Account"⟩)
  , ("cosmosDb", ⟨"img/azure/cosmos.svg", 64, 64, "Cosmos DB"⟩)
  , ("sqlServer", ⟨"img/azure/sql.svg", 64, 64, "SQL Server"⟩)
  , ("keyVault", ⟨"img/azure/keyvault.svg", 64, 64, "Key Vault"⟩)
  , ("appGateway", ⟨"img/azure/appgw.svg", 64, 64, "Application Gateway"⟩)
  , ("firewall", ⟨"img/azure/firewall.svg", 64, 64, "Azure Firewall"⟩)
  , ("bastion", ⟨"img/azure/bastion.svg", 64, 64, "Azure Bastion"⟩)
  , ("vpnGateway", ⟨"img/azure/vpngw.svg", 64, 64, "VPN Gateway"⟩)
  , ("privateEndpoint", ⟨"img/azure/pe.svg", 64, 64, "Private Endpoint"⟩)
  , ("containerRegistry", ⟨"img/azure/acr.svg", 64, 64, "Container Registry"⟩)
  , ("apiManagement", ⟨"img/azure/apim.svg", 64, 64, "API Management"⟩)
  , ("frontDoor", ⟨"img/azure/frontdoor.svg", 64, 64, "Front Door"⟩)
  , ("trafficManager", ⟨"img/azure/tm.svg", 64, 64, "Traffic Manager"⟩)
  , ("loadBalancer", ⟨"img/azure/lb.svg", 64, 64, "Load Balancer"⟩) ]

/-- Modelled from the spec: container style constants `CONTAINER_STYLES`
(`src/schema/resources.ts` is not in the source tree); opaque style
strings, one per container kind. -/
def CONTAINER_STYLES_region : String := "style-region;verticalAlign=top;"
def CONTAINER_STYLES_subscription : String := "style-subscription;verticalAlign=top;"
def CONTAINER_STYLES_resourceGroup : String := "style-resource-group;verticalAlign=top;"
def CONTAINER_STYLES_vnet : String := "style-vnet;verticalAlign=top;"
def CONTAINER_STYLES_vnetHub : String := "style-vnet-hub;verticalAlign=top;"
def CONTAINER_STYLES_subnet : String := "style-subnet;verticalAlign=top;"
def CONTAINER_STYLES_availabilityZone : String := "style-az;verticalAlign=top;"
def CONTAINER_STYLES_onPremises : String := "style-onprem;verticalAlign=top;"

/-! ## Generic helpers (JS semantics) -/

/-- First-match association lookup (JS `Map.get` on an insertion-ordered
key-unique list; also used for plain object property access). -/
def assocFind {κ α : Type} [DecidableEq κ] : List (κ × α) → κ → Option α
  | [], _ => none
  | (k', v) :: rest, k => if k' = k then some v else assocFind rest k

/-- JS `Map.set`: replace in place if the key is present (keeping the
original insertion position), otherwise append. -/
def mapSet {κ α : Type} [DecidableEq κ] : List (κ × α) → κ → α → List (κ × α)
  | [], k, v => [(k, v)]
  | (k', v') :: rest, k, v =>
      if k' = k then (k, v) :: rest else (k', v') :: mapSet rest k v

/-- JS `Set.add` on an insertion-ordered duplicate-free list. -/
def addUsed (l : List String) (t : String) : List String :=
  if t ∈ l then l else l ++ [t]

/-- JS string truthiness: `undefined`, `null` and `""` are falsy. -/
def strTruthy : Option String → Bool
  | none => false
  | some s => !(s = "")

/-- JS `a || b` for strings. -/
def strOr (a b : String) : String := if a = "" then b else a

/-- JS `opt || b` for an optional string. -/
def optOr (a : Option String) (b : String) : String :=
  match a with
  | none => b
  | some s => strOr s b

/-- Lowercasing, modelling JS `String.prototype.toLowerCase` on the
ASCII range (the only range exercised by names in this engine). -/
def lowerStr (s : String) : String := String.map Char.toLower s

/-- Substring containment on the underlying character lists, modelling JS
`String.prototype.includes`. -/
def strContains (s sub : String) : Bool :=
  (s.data.tails).any (fun t => sub.data.isPrefixOf t)

/-- Byte-wise lexicographic string comparison.  Models the comparator
`a.localeCompare(b) ≤ 0` used to sort the legend (an external runtime
function; modelled as codepoint order, which is deterministic and total,
all the spec requires of it). -/
def charListLe : List Char → List Char → Bool
  | [], _ => true
  | _ :: _, [] => false
  | a :: as, b :: bs =>
      if a.toNat < b.toNat then true
      else if b.toNat < a.toNat then false
      else charListLe as bs

def strLe (a b : String) : Bool := charListLe a.data b.data

/-- Insertion of one element into a list sorted by `le` (stable). -/
def insertBy {α : Type} (le : α → α → Bool) (a : α) : List α → List α
  | [] => [a]
  | b :: bs => if le a b then a :: b :: bs else b :: insertBy le a bs

/-- Stable insertion sort by `le`; models `Array.prototype.sort` with a
total comparator. -/
def sortBy {α : Type} (le : α → α → Bool) : List α → List α
  | [] => []
  | a :: as => insertBy le a (sortBy le as)

/-- Collapse every run of whitespace characters to a single underscore:
models `key.replace(/\s+/g, '_')`. -/
def sanitizeChars : List Char → Bool → List Char
  | [], _ => []
  | c :: cs, inWs =>
      if c.isWhitespace then
        if inWs then sanitizeChars cs true else '_' :: sanitizeChars cs true
      else c :: sanitizeChars cs false

def sanitizeKey (s : String) : String := ⟨sanitizeChars s.data false⟩

/-! ## Builder state -/

/-- Parent reference of a cell: the two required base cells `"0"` and
`"1"`, or a generated id `cell-<n>`. -/
inductive PId where
  | p0 : PId
  | p1 : PId
  | gen : Nat → PId
deriving DecidableEq, Repr

/-- Rendered form of a cell id, as it appears in the XML output. -/
def renderPId : PId → String
  | .p0 => "0"
  | .p1 => "1"
  | .gen n => "cell-" ++ toString n

structure CellInfo where
  id : Nat
  parentId : PId
  position : Position
deriving DecidableEq, Repr

structure ContainerBounds where
  x : Nat
  y : Nat
  width : Nat
  height : Nat
deriving DecidableEq, Repr

structure Geom where
  x : Nat
  y : Nat
  width : Nat
  height : Nat
deriving DecidableEq, Repr

/-- One emitted cell of a page, in emission order.  `vertex` covers
containers, resources (the `object` wrapper with its custom attributes),
icons, text and legend entries; `edge` covers connections and legend
sample lines; `baseCell` covers the two required root cells. -/
inductive XCell where
  | vertex (id : Nat) (parent : PId) (value style : String) (geom : Geom)
      (attrs : List (String × String))
  | edge (id : Nat) (parent : PId) (value style : String)
      (source target : Nat) (points : List (ℚ × ℚ))
  | baseCell (idStr : String) (parentStr : Option String)
deriving DecidableEq, Repr

/-- The builder's per-page mutable state. -/
structure St where
  cellMap : List (String × CellInfo)
  idCounter : Nat
  usedResourceTypes : List String
  usedConnectionStyles : List String
  containerAbsBounds : List (Nat × ContainerBounds)
deriving DecidableEq, Repr

def St.empty : St := ⟨[], 0, [], [], []⟩

/-- `nextId`: `cell-${++this.idCounter}`, returned here as the counter
value (rendered by `renderPId`/`renderCellId` at serialization). -/
def nextId (st : St) : Nat × St :=
  (st.idCounter + 1, { st with idCounter := st.idCounter + 1 })

def renderCellId (n : Nat) : String := "cell-" ++ toString n

/-- Bounds lookup for a parent reference (the base cells have none). -/
def lookupBoundsP (st : St) : PId → Option ContainerBounds
  | .gen n => assocFind st.containerAbsBounds n
  | _ => none

/-! ## Size calculators (bottom-up size estimator, §4.1) -/

def calculateAZSectionHeight (subnet : Subnet) : Nat :=
  match subnet.availabilityZones with
  | none => 0
  | some azs =>
      if azs.length = 0 then 0
      else azs.foldl
        (fun maxHeight azGroup =>
          let rows := (azGroup.resources.length + 1) / 2
          let azHeight := max 110 (rows * 110 + 50)
          max maxHeight azHeight) 0

def calculateSubnetWidth (subnet : Subnet) : Nat :=
  let resourceCount := (subnet.resources.getD []).length
  let basicCols := min resourceCount 2
  let basicWidth := max 150 (basicCols * 130 + 30)
  match subnet.availabilityZones with
  | some azs =>
      if azs.length > 0 then
        let azTotalWidth := azs.foldl
          (fun acc azGroup =>
            let azCols := min azGroup.resources.length 2
            acc + (max 150 (azCols * 130 + 30) + 15)) 15
        max basicWidth (azTotalWidth + 15)
      else basicWidth
  | none => basicWidth

def calculateSubnetHeight (subnet : Subnet) : Nat :=
  let resourceCount := (subnet.resources.getD []).length
  let rows := (max 1 resourceCount + 1) / 2
  let height := max 100 (rows * 110 + 50)
  match subnet.availabilityZones with
  | some azs =>
      if azs.length > 0 then
        let maxAZHeight := azs.foldl
          (fun acc azGroup =>
            let azRows := (azGroup.resources.length + 1) / 2
            max acc (max 110 (azRows * 110 + 50))) 0
        let nonAZRows := (resourceCount + 1) / 2
        let nonAZHeight := if resourceCount > 0 then nonAZRows * 110 + 20 else 0
        maxAZHeight + nonAZHeight + 60
      else height
  | none => height

def isVnetType (t : String) : Bool := t = "vnet" || t = "hubVnet"

def rgVnets (rg : ResourceGroup) : List RGResource :=
  rg.resources.filter (fun r => isVnetType r.type)

def rgOthers (rg : ResourceGroup) : List RGResource :=
  rg.resources.filter (fun r => !isVnetType r.type)

def calculateVNetWidth (vnet : RGResource) : Nat :=
  let isHub := vnet.type = "hubVnet"
  match vnet.subnets with
  | some subnets =>
      if isHub then
        max 400 (subnets.foldl (fun total s => total + (calculateSubnetWidth s + 20)) 40)
      else
        subnets.foldl (fun m s => max m (calculateSubnetWidth s + 40)) 300
  | none => 300

def calculateVNetHeight (vnet : RGResource) : Nat :=
  let isHub := vnet.type = "hubVnet"
  match vnet.subnets with
  | some subnets =>
      if isHub then
        (subnets.foldl (fun m s => max m (calculateSubnetHeight s)) 100) + 70
      else
        max 150 (subnets.foldl (fun total s => total + (calculateSubnetHeight s + 20)) 60)
  | none => max 150 60

def calculateRGWidth (rg : ResourceGroup) : Nat :=
  let vnets := rgVnets rg
  let otherCount := (rgOthers rg).length
  let vnetWidth := vnets.foldl (fun m v => max m (calculateVNetWidth v)) 0
  let otherWidth := if (otherCount + 3) / 4 > 0 then min otherCount 4 * 130 + 40 else 0
  max 300 (vnetWidth + otherWidth + 80)

def calculateRGHeight (rg : ResourceGroup) : Nat :=
  let vnets := rgVnets rg
  let otherCount := (rgOthers rg).length
  let vnetHeight := vnets.foldl (fun acc v => acc + (calculateVNetHeight v + 30)) 0
  let otherHeight := (otherCount + 3) / 4 * 110 + 50
  max 200 (max (vnetHeight + 60) (otherHeight + 40))

def calculateRegionWidth (region : Region) : Nat :=
  match region.resourceGroups with
  | none => 400
  | some rgs => rgs.foldl (fun m rg => max m (calculateRGWidth rg + 60)) 400

def calculateRegionHeight (region : Region) : Nat :=
  let total :=
    match region.resourceGroups with
    | none => 80
    | some rgs => rgs.foldl (fun t rg => t + (calculateRGHeight rg + 40)) 80
  max 400 total

def calculateSubscriptionWidth (sub : Subscription) : Nat :=
  let total :=
    match sub.regions with
    | some regions =>
        if regions.length > 0 then
          regions.foldl (fun t r => t + (calculateRegionWidth r + 60)) 100
        else
          match sub.resourceGroups with
          | some rgs => rgs.foldl (fun t rg => t + (calculateRGWidth rg + 40)) 100
          | none => 100
    | none =>
        match sub.resourceGroups with
        | some rgs => rgs.foldl (fun t rg => t + (calculateRGWidth rg + 40)) 100
        | none => 100
  max 400 total

def calculateSubscriptionHeight (sub : Subscription) : Nat :=
  match sub.regions with
  | some regions =>
      if regions.length > 0 then
        regions.foldl (fun m r => max m (calculateRegionHeight r + 100)) 200
      else
        match sub.resourceGroups with
        | some rgs => rgs.foldl (fun m rg => max m (calculateRGHeight rg + 100)) 200
        | none => 200
  | none =>
      match sub.resourceGroups with
      | some rgs => rgs.foldl (fun m rg => max m (calculateRGHeight rg + 100)) 200
      | none => 200

def estimatePageWidthNoRegions (arch : Architecture) : Nat :=
  match arch.subscription with
  | some sub => max 1500 (calculateSubscriptionWidth sub + 200)
  | none =>
      match arch.subscriptions with
      | some subs =>
          max 1500 (subs.foldl (fun t s => t + (calculateSubscriptionWidth s + 80)) 100)
      | none => 1500

def estimatePageWidth (arch : Architecture) : Nat :=
  match arch.regions with
  | some regions =>
      if regions.length > 0 then
        max 1500 (regions.foldl (fun t r => t + (calculateRegionWidth r + 80)) 100)
      else estimatePageWidthNoRegions arch
  | none => estimatePageWidthNoRegions arch

def estimatePageHeight (arch : Architecture) : Nat :=
  let m0 : Nat := 800
  let m1 :=
    match arch.regions with
    | some regions => regions.foldl (fun m r => max m (calculateRegionHeight r + 200)) m0
    | none => m0
  let m2 :=
    match arch.subscription with
    | some sub => max m1 (calculateSubscriptionHeight sub + 200)
    | none => m1
  let m3 :=
    match arch.subscriptions with
    | some subs => subs.foldl (fun m s => max m (calculateSubscriptionHeight s + 200)) m2
    | none => m2
  match arch.onPremises with
  | some ops =>
      if ops.length > 0 then
        let onPremHeight := ops.foldl
          (fun m op => max m (max 200 ((op.resources.getD []).length * 90 + 80))) 0
        m3 + (onPremHeight + 100)
      else m3
  | none => m3

/-- Wrapped-line estimate for the description text in the title block:
`Math.ceil(descLen / 100)` when the description is non-empty, else 0. -/
def descLines (description : Option String) : Nat :=
  let descLen := ((description.map String.length).getD 0)
  if descLen > 0 then (descLen + 99) / 100 else 0

/-- Height of the title block as computed inline in `generatePage`. -/
def titleBlockHeight (description : Option String) : Nat :=
  if descLines description > 0 then max 60 (30 + descLines description * 18) else 30

/-! ## Emission primitives -/

/-- JS `a || b` where `a` is an optional string whose truthiness gates it
(used for `subnet.addressPrefix || subnet.properties?.addressPrefix`). -/
def jsOrOpt (a b : Option String) : Option String :=
  match a with
  | some s => if s = "" then b else some s
  | none => b

/-- Property access `props?.[key]` collapsing `null`/`undefined` to
`none` (downstream code only tests truthiness and prints the value). -/
def propLookup (props : Option (List (String × Option String))) (k : String) :
    Option String :=
  match props with
  | none => none
  | some ps =>
      match assocFind ps k with
      | some (some v) => some v
      | _ => none

/-- Exact half: `half n = n / 2` in ℚ, used to emit centre coordinates.
Centre computations are carried out doubled (in exact half-units of the
source's pixel coordinates) so that all routing arithmetic stays in ℕ;
`half` converts back at the emission boundary. -/
def half (n : Nat) : ℚ := (n : ℚ) / 2

/-- The `addContainer` helper: emits the container's cell and records its
absolute bounds (parent's cached absolute origin plus the relative
position) in `containerAbsBounds`. -/
def addContainer (st : St) (id : Nat) (parentId : PId) (value style : String)
    (x y width height : Nat) : St × XCell :=
  let parentB := lookupBoundsP st parentId
  let absX := x + (match parentB with | some b => b.x | none => 0)
  let absY := y + (match parentB with | some b => b.y | none => 0)
  let bounds' := mapSet st.containerAbsBounds id ⟨absX, absY, width, height⟩
  ({ st with containerAbsBounds := bounds' },
   .vertex id parentId value style ⟨x, y, width, height⟩ [])

/-- The `addIcon` helper. -/
def addIcon (st : St) (parentId : PId) (icon : String) (x y width height : Nat)
    (label : String) : St × XCell :=
  let (id, st) := nextId st
  (st, .vertex id parentId label
    ("aspect=fixed;html=1;points=[];align=center;image;fontSize=12;image=" ++ icon ++ ";")
    ⟨x, y, width, height⟩ [])

def displayKeys : List (String × String) :=
  [ ("sku", "SKU"), ("tier", "Tier"), ("size", "Size"), ("vmSize", "Size")
  , ("addressSpace", "CIDR"), ("addressPrefix", "CIDR"), ("bandwidth", "BW")
  , ("capacity", "Cap"), ("replicaCount", "Replicas"), ("nodeCount", "Nodes")
  , ("version", "v"), ("kind", "Kind") ]

def getDisplayProperties (r : Resource) : List String :=
  match r.properties with
  | none => []
  | some props =>
      (displayKeys.filterMap (fun kv =>
        match assocFind props kv.1 with
        | some (some v) => some (kv.2 ++ ": " ++ v)
        | _ => none)).take 3

def resourceCellStyle (icon : String) : String :=
  "aspect=fixed;html=1;points=[];align=center;image;fontSize=11;imageAlign=center;verticalLabelPosition=bottom;verticalAlign=top;image=" ++ icon ++ ";"

/-- `buildResource`: skips (emitting nothing and leaving the state
untouched) when the type is not in the catalog; otherwise records the
type as used, allocates an id, emits the object-wrapped cell and
registers the name in the cell map. -/
def buildResource (st : St) (r : Resource) (parentId : PId) (pos : Position) :
    St × List XCell :=
  match assocFind RESOURCES r.type with
  | none => (st, [])
  | some rdef =>
      let st := { st with usedResourceTypes := addUsed st.usedResourceTypes r.type }
      let (id, st) := nextId st
      let displayProps := getDisplayProperties r
      let propLabel :=
        if displayProps.length > 0 then
          "<br><font style=\"font-size:9px;color:#666666\">" ++
            String.intercalate " | " displayProps ++ "</font>"
        else ""
      let attrs :=
        match r.properties with
        | none => []
        | some props => props.filterMap (fun kv =>
            match kv.2 with
            | some v => some (sanitizeKey kv.1, v)
            | none => none)
      let cell := XCell.vertex id parentId (r.name ++ propLabel)
        (resourceCellStyle rdef.icon) ⟨pos.x, pos.y, rdef.width, rdef.height⟩ attrs
      let st := { st with cellMap := mapSet st.cellMap r.name ⟨id, parentId, pos⟩ }
      (st, [cell])

/-- The wrap-at-`maxCols` resource grid common to resource groups,
availability zones, subnets and `buildResourceList`. -/
def buildGrid (st : St) (rs : List Resource) (parentId : PId) (baseX : Nat)
    (maxCols colW rowH : Nat) (col y : Nat) : St × List XCell :=
  match rs with
  | [] => (st, [])
  | r :: rest =>
      let a := buildResource st r parentId ⟨baseX + col * colW, y⟩
      if col + 1 ≥ maxCols then
        let b := buildGrid a.1 rest parentId baseX maxCols colW rowH 0 (y + rowH)
        (b.1, a.2 ++ b.2)
      else
        let b := buildGrid a.1 rest parentId baseX maxCols colW rowH (col + 1) y
        (b.1, a.2 ++ b.2)

def buildResourceList (st : St) (resources : List Resource) (parentId : PId)
    (pos : Position) : St × List XCell :=
  buildGrid st resources parentId pos.x 4 130 110 0 pos.y

/-! ## Subnet / AZ / VNet / RG / Region / Subscription / OnPrem builders -/

def buildAZGroups (st : St) (azs : List AZGroup) (subnetId : Nat)
    (subnetName : String) (azX : Nat) : St × List XCell :=
  match azs with
  | [] => (st, [])
  | azGroup :: rest =>
      let azY := 45
      let (azId, st) := nextId st
      let azResourceCount := azGroup.resources.length
      let azCols := min azResourceCount 2
      let azRows := (azResourceCount + 1) / 2
      let azWidth := max 150 (azCols * 130 + 30)
      let azHeight := max 110 (azRows * 110 + 50)
      let ac := addContainer st azId (.gen subnetId)
        ("Availability Zone " ++ azGroup.zone) CONTAINER_STYLES_availabilityZone
        azX azY azWidth azHeight
      let cm := mapSet ac.1.cellMap ("AZ-" ++ azGroup.zone ++ "-" ++ subnetName)
        ⟨azId, .gen subnetId, ⟨azX, azY⟩⟩
      let st := { ac.1 with cellMap := cm }
      let maxCols := max 2 ((azWidth - 30) / 130)
      let a := buildGrid st azGroup.resources (.gen azId) 15 maxCols 130 110 0 40
      let b := buildAZGroups a.1 rest subnetId subnetName (azX + azWidth + 15)
      (b.1, ac.2 :: a.2 ++ b.2)

def buildSubnet (st : St) (subnet : Subnet) (vnetId : Nat) (pos : Position) :
    St × List XCell :=
  let (id, st) := nextId st
  let width := calculateSubnetWidth subnet
  let height := calculateSubnetHeight subnet
  let addrPrefixVal := jsOrOpt subnet.addrPfx (propLookup subnet.properties "addressPrefix")
  let value := subnet.name ++
    (if strTruthy addrPrefixVal then "\n(" ++ addrPrefixVal.getD "" ++ ")" else "")
  let ac := addContainer st id (.gen vnetId) value CONTAINER_STYLES_subnet
      pos.x pos.y width height
  let st := { ac.1 with cellMap := mapSet ac.1.cellMap subnet.name ⟨id, .gen vnetId, pos⟩ }
  let a :=
    match subnet.availabilityZones with
    | some azs => if azs.length > 0 then buildAZGroups st azs id subnet.name 15 else (st, [])
    | none => (st, [])
  let b :=
    match subnet.resources with
    | some resources =>
        let resY :=
          match subnet.availabilityZones with
          | some azs => if azs.length > 0 then calculateAZSectionHeight subnet + 55 else 45
          | none => 45
        let maxCols := max 2 ((width - 30) / 130)
        buildGrid a.1 resources (.gen id) 15 maxCols 130 110 0 resY
    | none => (a.1, [])
  (b.1, ac.2 :: a.2 ++ b.2)

def buildSubnetsLoop (st : St) (subnets : List Subnet) (vnetId : Nat)
    (isHub : Bool) (subnetX subnetY : Nat) : St × List XCell :=
  match subnets with
  | [] => (st, [])
  | s :: rest =>
      let a := buildSubnet st s vnetId ⟨subnetX, subnetY⟩
      let b :=
        if isHub then
          buildSubnetsLoop a.1 rest vnetId isHub (subnetX + (calculateSubnetWidth s + 20)) subnetY
        else
          buildSubnetsLoop a.1 rest vnetId isHub subnetX (subnetY + (calculateSubnetHeight s + 20))
      (b.1, a.2 ++ b.2)

def buildVNet (st : St) (vnet : RGResource) (rgId : Nat) (pos : Position) :
    St × List XCell :=
  let (id, st) := nextId st
  let width := calculateVNetWidth vnet
  let height := calculateVNetHeight vnet
  let style := if vnet.type = "hubVnet" then CONTAINER_STYLES_vnetHub else CONTAINER_STYLES_vnet
  let addressSpace := jsOrOpt vnet.addressSpace (propLookup vnet.properties "addressSpace")
  let value := vnet.name ++
    (if strTruthy addressSpace then "\n(" ++ addressSpace.getD "" ++ ")" else "")
  let ac := addContainer st id (.gen rgId) value style pos.x pos.y width height
  let vnetIconDef := (assocFind RESOURCES "vnet").getD ⟨"", 0, 0, ""⟩
  let ai := addIcon ac.1 (.gen id) vnetIconDef.icon (width - 80) 5 67 40 ""
  let st := { ai.1 with cellMap := mapSet ai.1.cellMap vnet.name ⟨id, .gen rgId, pos⟩ }
  match vnet.subnets with
  | some subnets =>
      let a := buildSubnetsLoop st subnets id (vnet.type = "hubVnet") 20 50
      (a.1, ac.2 :: ai.2 :: a.2)
  | none => (st, [ac.2, ai.2])

def buildVNetsLoop (st : St) (vnets : List RGResource) (rgId : Nat) (vnetY : Nat) :
    St × List XCell :=
  match vnets with
  | [] => (st, [])
  | v :: rest =>
      let a := buildVNet st v rgId ⟨20, vnetY⟩
      let b := buildVNetsLoop a.1 rest rgId (vnetY + (calculateVNetHeight v + 30))
      (b.1, a.2 ++ b.2)

def buildResourceGroup (st : St) (rg : ResourceGroup) (containerId : PId)
    (pos : Position) : St × List XCell :=
  let (id, st) := nextId st
  let width := calculateRGWidth rg
  let height := calculateRGHeight rg
  let ac := addContainer st id containerId (strOr rg.name "Resource Group")
      CONTAINER_STYLES_resourceGroup pos.x pos.y width height
  let cm := mapSet ac.1.cellMap (strOr rg.name ("rg-" ++ renderCellId id)) ⟨id, containerId, pos⟩
  let st := { ac.1 with cellMap := cm }
  let vnets := rgVnets rg
  let otherResources := rgOthers rg
  let a := buildVNetsLoop st vnets id 40
  let gridStartX :=
    if vnets.length > 0 then
      (vnets.foldl (fun m v => max m (calculateVNetWidth v)) 0) + 50
    else 20
  let b := buildGrid a.1 (otherResources.map RGResource.toResource) (.gen id)
      gridStartX 4 130 110 0 50
  (b.1, ac.2 :: a.2 ++ b.2)

def buildRGStack (st : St) (rgs : List ResourceGroup) (regionId : Nat)
    (rgX rgY : Nat) : Nat × St × List XCell :=
  match rgs with
  | [] => (rgY, st, [])
  | rg :: rest =>
      let a := buildResourceGroup st rg (.gen regionId) ⟨rgX, rgY⟩
      let b := buildRGStack a.1 rest regionId rgX (rgY + (calculateRGHeight rg + 40))
      (b.1, b.2.1, a.2 ++ b.2.2)

def buildRegion (st : St) (region : Region) (pos : Position) (containerId : PId) :
    St × List XCell :=
  let (id, st) := nextId st
  let width := calculateRegionWidth region
  let height := calculateRegionHeight region
  let value := region.name ++ (if region.isPrimary then " (Primary)" else "")
  let ac := addContainer st id containerId value CONTAINER_STYLES_region
      pos.x pos.y width height
  let st := { ac.1 with cellMap := mapSet ac.1.cellMap region.name ⟨id, containerId, pos⟩ }
  let rgX := 30
  let a :=
    match region.resourceGroups with
    | some rgs => buildRGStack st rgs id rgX 50
    | none => (50, st, [])
  let b :=
    match region.resources with
    | some resources => buildResourceList a.2.1 resources (.gen id) ⟨rgX, a.1⟩
    | none => (a.2.1, [])
  (b.1, ac.2 :: a.2.2 ++ b.2)

def buildRegionsRow (st : St) (regions : List Region) (subId : Nat)
    (regionX rgY : Nat) : St × List XCell :=
  match regions with
  | [] => (st, [])
  | r :: rest =>
      let a := buildRegion st r ⟨regionX, rgY⟩ (.gen subId)
      let b := buildRegionsRow a.1 rest subId (regionX + (calculateRegionWidth r + 60)) rgY
      (b.1, a.2 ++ b.2)

def buildRGRow (st : St) (rgs : List ResourceGroup) (subId : Nat)
    (rgX rgY : Nat) : St × List XCell :=
  match rgs with
  | [] => (st, [])
  | rg :: rest =>
      let a := buildResourceGroup st rg (.gen subId) ⟨rgX, rgY⟩
      let b := buildRGRow a.1 rest subId (rgX + (calculateRGWidth rg + 40)) rgY
      (b.1, a.2 ++ b.2)

def buildSubscription (st : St) (sub : Subscription) (pos : Position) :
    St × List XCell :=
  let (id, st) := nextId st
  let width := calculateSubscriptionWidth sub
  let height := calculateSubscriptionHeight sub
  let ac := addContainer st id .p1 (strOr sub.name "Subscription")
      CONTAINER_STYLES_subscription pos.x pos.y width height
  let subIconDef := (assocFind RESOURCES "subscription").getD ⟨"", 0, 0, ""⟩
  let ai := addIcon ac.1 (.gen id) subIconDef.icon 10 30 44 71 ""
  let cm := mapSet ai.1.cellMap (strOr sub.name "subscription") ⟨id, .p1, pos⟩
  let st := { ai.1 with cellMap := cm }
  let rgX := 70
  let rgY := 50
  match sub.regions with
  | some regions =>
      if regions.length > 0 then
        let a := buildRegionsRow st regions id 70 rgY
        (a.1, ac.2 :: ai.2 :: a.2)
      else
        match sub.resourceGroups with
        | some rgs =>
            let a := buildRGRow st rgs id rgX rgY
            (a.1, ac.2 :: ai.2 :: a.2)
        | none => (st, [ac.2, ai.2])
  | none =>
      match sub.resourceGroups with
      | some rgs =>
          let a := buildRGRow st rgs id rgX rgY
          (a.1, ac.2 :: ai.2 :: a.2)
      | none => (st, [ac.2, ai.2])

def buildOnPremResources (st : St) (resources : List Resource) (opId : Nat)
    (resY : Nat) : St × List XCell :=
  match resources with
  | [] => (st, [])
  | r :: rest =>
      let a := buildResource st r (.gen opId) ⟨120, resY⟩
      let b := buildOnPremResources a.1 rest opId (resY + 85)
      (b.1, a.2 ++ b.2)

def buildOnPremises (st : St) (onPrem : OnPremises) (pos : Position) :
    St × List XCell :=
  let (id, st) := nextId st
  let width := 350
  let height := max 200 ((onPrem.resources.getD []).length * 90 + 80)
  let ac := addContainer st id .p1 (strOr onPrem.name "On-Premises")
      CONTAINER_STYLES_onPremises pos.x pos.y width height
  let opIconDef := (assocFind RESOURCES "onPremises").getD ⟨"", 0, 0, ""⟩
  let ai := addIcon ac.1 (.gen id) opIconDef.icon 20 40 80 138 ""
  let cm := mapSet ai.1.cellMap (strOr onPrem.name "On-Premises Datacenter") ⟨id, .p1, pos⟩
  let st := { ai.1 with cellMap := cm }
  match onPrem.resources with
  | some resources =>
      let a := buildOnPremResources st resources id 50
      (a.1, ac.2 :: ai.2 :: a.2)
  | none => (st, [ac.2, ai.2])

def buildGlobalResources (st : St) (resources : List Resource) (pos : Position) :
    St × List XCell :=
  match resources with
  | [] => (st, [])
  | r :: rest =>
      let a := buildResource st r .p1 pos
      let b := buildGlobalResources a.1 rest ⟨pos.x + 100, pos.y⟩
      (b.1, a.2 ++ b.2)

/-! ## Connection routing -/

/-- Three-tier endpoint resolution: exact, case-insensitive, bidirectional
substring containment; first match (in registry insertion order) wins. -/
def findCell (m : List (String × CellInfo)) (name : String) : Option CellInfo :=
  match assocFind m name with
  | some v => some v
  | none =>
      let lower := lowerStr name
      match m.find? (fun kv => lowerStr kv.1 = lower) with
      | some kv => some kv.2
      | none =>
          match m.find? (fun kv =>
              strContains (lowerStr kv.1) lower || strContains lower (lowerStr kv.1)) with
          | some kv => some kv.2
          | none => none

/-- The absolute centre of a cell, doubled: the source computes
`absX + width / 2` (an exact integer or half-integer); this embedding
returns twice that value so the routing arithmetic stays in ℕ.  The
source's `?? 64` icon default appears as the `2 * absX + 64` branch
(centre offset 32, doubled). -/
def getAbsoluteCenter2 (st : St) (cell : CellInfo) : Nat × Nat :=
  let pB := lookupBoundsP st cell.parentId
  let absX := cell.position.x + (match pB with | some b => b.x | none => 0)
  let absY := cell.position.y + (match pB with | some b => b.y | none => 0)
  match assocFind st.containerAbsBounds cell.id with
  | some own => (2 * absX + own.width, 2 * absY + own.height)
  | none => (2 * absX + 64, 2 * absY + 64)

def getAbsoluteRightEdge (st : St) (cell : CellInfo) : Nat :=
  let pB := lookupBoundsP st cell.parentId
  let absX := cell.position.x + (match pB with | some b => b.x | none => 0)
  absX + (match assocFind st.containerAbsBounds cell.id with
          | some own => own.width
          | none => 64)

def findByIdInCellMap (m : List (String × CellInfo)) (n : Nat) : Option CellInfo :=
  match m.find? (fun kv => kv.2.id = n) with
  | some kv => some kv.2
  | none => none

/-- The ancestor walk of `getAncestorIds`.  The source loops while the
parent reference is truthy and not `"0"`; on the (unreachable) cyclic
registries the source would diverge, so the walk is bounded by fuel one
more than the registry length, enough for every acyclic chain. -/
def ancestorLoop (m : List (String × CellInfo)) : Nat → PId → List PId → List PId
  | 0, _, acc => acc
  | _ + 1, .p0, acc => acc
  | fuel + 1, pid, acc =>
      let acc := acc ++ [pid]
      match pid with
      | .gen n =>
          match findByIdInCellMap m n with
          | some c => ancestorLoop m fuel c.parentId acc
          | none => acc
      | _ => acc

def getAncestorIds (st : St) (cell : CellInfo) : List PId :=
  ancestorLoop st.cellMap (st.cellMap.length + 1) cell.parentId [PId.gen cell.id]

def isInsideBounds (inner outer : ContainerBounds) : Bool :=
  decide (inner.x ≥ outer.x) && decide (inner.y ≥ outer.y) &&
  decide (inner.x + inner.width ≤ outer.x + outer.width) &&
  decide (inner.y + inner.height ≤ outer.y + outer.height)

/-- Obstruction scan, in doubled coordinates: the source's vertical
threshold 100 appears as 200, the horizontal margin 50 as 100, a
container's vertical midpoint `(cTop + cBot) / 2` as the exact integer
`2*y + height`, and its horizontal extent doubled.  The source computes
`leftX = min(centerX) - 50`, which can be negative in JavaScript; both
obstruction comparisons against it are then false, exactly as with the
truncating ℕ subtraction here (the compared values are non-negative). -/
def findObstructingContainers (st : St) (f t : CellInfo) : List ContainerBounds :=
  let fromCenter := getAbsoluteCenter2 st f
  let toCenter := getAbsoluteCenter2 st t
  let topY := min fromCenter.2 toCenter.2
  let botY := max fromCenter.2 toCenter.2
  if botY - topY < 200 then []
  else
    let skipIds := getAncestorIds st f ++ getAncestorIds st t
    let srcBounds := assocFind st.containerAbsBounds f.id
    let tgtBounds := assocFind st.containerAbsBounds t.id
    st.containerAbsBounds.filterMap (fun idb =>
      if PId.gen idb.1 ∈ skipIds then none
      else if (match srcBounds with | some sb => isInsideBounds idb.2 sb | none => false) then none
      else if (match tgtBounds with | some tb => isInsideBounds idb.2 tb | none => false) then none
      else
        let cMid2 := 2 * idb.2.y + idb.2.height
        if cMid2 ≤ topY ∨ cMid2 ≥ botY then none
        else
          let leftX := min fromCenter.1 toCenter.1 - 100
          let rightX := max fromCenter.1 toCenter.1 + 100
          if 2 * (idb.2.x + idb.2.width) < leftX ∨ 2 * idb.2.x > rightX then none
          else some idb.2)

def connBaseStyle : String :=
  "edgeStyle=orthogonalEdgeStyle;rounded=1;orthogonalLoop=1;jettySize=auto;html=1;endArrow=classic;endFill=1;fontSize=10;labelBackgroundColor=#FFFFFF;"

def connStyleSuffix : Option String → String
  | some "dashed" => "dashed=1;"
  | some "expressroute" => "strokeColor=#FF6600;strokeWidth=3;"
  | some "vpn" => "strokeColor=#0066CC;strokeWidth=2;dashed=1;"
  | some "peering" => "strokeColor=#009900;strokeWidth=2;endArrow=none;"
  | _ => ""

def exitEntryStyle : String :=
  "exitX=1;exitY=0.5;exitDx=0;exitDy=0;entryX=1;entryY=0.5;entryDx=0;entryDy=0;"

def buildConnection (st : St) (conn : Connection) : St × List XCell :=
  match findCell st.cellMap conn.«from», findCell st.cellMap conn.«to» with
  | some f, some t =>
      let st :=
        match conn.style with
        | some s => if s = "" then st
            else { st with usedConnectionStyles := addUsed st.usedConnectionStyles s }
        | none => st
      let style := connBaseStyle ++ connStyleSuffix conn.style
      let obstructions := findObstructingContainers st f t
      let (eid, st) := nextId st
      if obstructions.length > 0 then
        let fromRight := getAbsoluteRightEdge st f
        let toRight := getAbsoluteRightEdge st t
        let obstRight := obstructions.foldl (fun m b => max m (b.x + b.width)) 0
        let waypointX := max (max fromRight toRight) obstRight + 40
        let fromCenter := getAbsoluteCenter2 st f
        let toCenter := getAbsoluteCenter2 st t
        (st, [XCell.edge eid .p1 ((conn.label).getD "") (style ++ exitEntryStyle)
              f.id t.id [((waypointX : ℚ), half fromCenter.2), ((waypointX : ℚ), half toCenter.2)]])
      else
        (st, [XCell.edge eid .p1 ((conn.label).getD "") style f.id t.id []])
  | _, _ => (st, [])

def buildConnections (st : St) (conns : List Connection) : St × List XCell :=
  match conns with
  | [] => (st, [])
  | c :: rest =>
      let a := buildConnection st c
      let b := buildConnections a.1 rest
      (b.1, a.2 ++ b.2)

/-! ## Legend -/

/-- The item list of the legend: the used types resolved against the
catalog, sorted by catalog display name. -/
def legendItems (used : List String) : List (String × ResourceDefinition) :=
  sortBy (fun a b => strLe a.2.displayName b.2.displayName)
    (used.filterMap (fun t => (assocFind RESOURCES t).map (fun d => (t, d))))

def legendConnStyles (usedStyles : List String) : List (String × String × Bool) :=
  (if "expressroute" ∈ usedStyles then [("ExpressRoute", "#FF6600", false)] else []) ++
  (if "vpn" ∈ usedStyles then [("VPN", "#0066CC", true)] else []) ++
  (if "peering" ∈ usedStyles then [("VNet Peering", "#009900", false)] else []) ++
  (if "dashed" ∈ usedStyles then [("Dashed", "#666666", true)] else [])

def legendContainerStyle : String :=
  "rounded=1;whiteSpace=wrap;html=1;fillColor=#F5F5F5;strokeColor=#999999;dashed=1;verticalAlign=top;fontStyle=1;fontSize=12;container=1;collapsible=0;"

def legendEntryCells (st : St) (items : List (String × ResourceDefinition))
    (legendId : Nat) (entryY : Nat) : St × List XCell × Nat :=
  match items with
  | [] => (st, [], entryY)
  | item :: rest =>
      let (iconId, st) := nextId st
      let iconCell := XCell.vertex iconId (.gen legendId) ""
        ("aspect=fixed;html=1;points=[];align=center;image;fontSize=10;image=" ++ item.2.icon ++ ";")
        ⟨8, entryY, 20, 20⟩ []
      let (labelId, st) := nextId st
      let labelCell := XCell.vertex labelId (.gen legendId) item.2.displayName
        "text;html=1;align=left;verticalAlign=middle;whiteSpace=nowrap;overflow=hidden;fontSize=10;fontColor=#333333;"
        ⟨34, entryY, 170, 20⟩ []
      let a := legendEntryCells st rest legendId (entryY + 28)
      (a.1, iconCell :: labelCell :: a.2.1, a.2.2)

def legendConnCells (st : St) (cstyles : List (String × String × Bool))
    (legendId : Nat) (entryY : Nat) : St × List XCell :=
  match cstyles with
  | [] => (st, [])
  | c :: rest =>
      let (edgeId, st) := nextId st
      let edgeCell := XCell.edge edgeId (.gen legendId) ""
        ("endArrow=classic;html=1;strokeColor=" ++ c.2.1 ++ ";strokeWidth=2;" ++
          (if c.2.2 then "dashed=1;" else ""))
        0 0 [((8 : ℚ), (entryY + 10 : Nat)), ((30 : ℚ), (entryY + 10 : Nat))]
      let (labelId, st) := nextId st
      let labelCell := XCell.vertex labelId (.gen legendId) c.1
        "text;html=1;align=left;verticalAlign=middle;fontSize=10;fontColor=#333333;"
        ⟨34, entryY, 170, 20⟩ []
      let a := legendConnCells st rest legendId (entryY + 28)
      (a.1, edgeCell :: labelCell :: a.2)

def buildLegend (st : St) (x y : Nat) : St × List XCell :=
  let items := legendItems st.usedResourceTypes
  if items.length = 0 then (st, [])
  else
    let itemHeight := 28
    let legendWidth := 210
    let headerHeight := 30
    let connStyles := legendConnStyles st.usedConnectionStyles
    let totalHeight :=
      (headerHeight + items.length * itemHeight + 10) +
        (if connStyles.length > 0 then 20 + connStyles.length * itemHeight else 0)
    let (legendId, st) := nextId st
    let ac := addContainer st legendId .p1 "Legend" legendContainerStyle
        x y legendWidth totalHeight
    let a := legendEntryCells ac.1 items legendId headerHeight
    if connStyles.length > 0 then
      let entryY := a.2.2 + 5
      let (hdrId, st) := nextId a.1
      let hdr := XCell.vertex hdrId (.gen legendId) "<b>Connections</b>"
        "text;html=1;align=left;verticalAlign=middle;fontSize=10;fontColor=#333333;"
        ⟨8, entryY, 190, 15⟩ []
      let b := legendConnCells st connStyles legendId (entryY + 18)
      (b.1, ac.2 :: a.2.1 ++ hdr :: b.2)
    else (a.1, ac.2 :: a.2.1)

/-! ## Page and document assembly -/

structure PageOut where
  diagramId : String
  name : String
  pageWidth : Nat
  pageHeight : Nat
  cells : List XCell
deriving DecidableEq, Repr

structure MxDocument where
  modified : String
  pages : List PageOut
deriving DecidableEq, Repr

/-- Modelled from the spec: `generateCellId`/`resetCounter`
(`src/utils/id-generator.ts` is not in the source tree); a monotonically
increasing counter, reset when the builder is constructed (one builder
per generation call), rendered as `<kind>-<n>`. -/
def generateCellId (g : Nat) (kind : String) : String × Nat :=
  (kind ++ "-" ++ toString (g + 1), g + 1)

def titleTextStyle : String :=
  "text;html=1;align=left;verticalAlign=top;whiteSpace=wrap;overflow=hidden;fontSize=14;fontColor=#333333;"

/-- The HTML text of the title block. -/
def titleTextOf (arch : Architecture) : String :=
  "<b style=\"font-size:16px\">" ++ arch.title.getD "" ++ "</b>" ++
    (if strTruthy arch.description then
      "<br><span style=\"font-size:12px;color:#666666\">" ++ arch.description.getD "" ++ "</span>"
     else "")

/-- The title block of `generatePage` (emitted only for a truthy title),
together with the resulting `titleOffset`. -/
def titleCellOf (arch : Architecture) (st : St) : St × List XCell × Nat :=
  if strTruthy arch.title then
    let (titleId, st) := nextId st
    let titleHeight := titleBlockHeight arch.description
    (st, [XCell.vertex titleId .p1 (titleTextOf arch) titleTextStyle ⟨50, 10, 800, titleHeight⟩ []],
     titleHeight + 10)
  else (st, [], 0)

/-- Top-level multi-region loop of `generatePage`; returns the updated
`currentX`, `maxCloudHeight` and `totalCloudWidth` accumulators. -/
def buildRegionsTop (st : St) (regions : List Region) (currentX currentY : Nat)
    (maxH totalW : Nat) : St × List XCell × Nat × Nat × Nat :=
  match regions with
  | [] => (st, [], currentX, maxH, totalW)
  | r :: rest =>
      let maxH := max maxH (calculateRegionHeight r)
      let a := buildRegion st r ⟨currentX, currentY⟩ .p1
      let currentX := currentX + (calculateRegionWidth r + 80)
      let b := buildRegionsTop a.1 rest currentX currentY maxH currentX
      (b.1, a.2 ++ b.2.1, b.2.2)

/-- Top-level multi-subscription loop of `generatePage`. -/
def buildSubsTop (st : St) (subs : List Subscription) (currentX currentY : Nat)
    (maxH totalW : Nat) : St × List XCell × Nat × Nat × Nat :=
  match subs with
  | [] => (st, [], currentX, maxH, totalW)
  | s :: rest =>
      let maxH := max maxH (calculateSubscriptionHeight s)
      let a := buildSubscription st s ⟨currentX, currentY⟩
      let currentX := currentX + (calculateSubscriptionWidth s + 80)
      let b := buildSubsTop a.1 rest currentX currentY maxH currentX
      (b.1, a.2 ++ b.2.1, b.2.2)

def contentNoRegions (st : St) (arch : Architecture) (currentX currentY : Nat) :
    St × List XCell × Nat × Nat × Nat :=
  match arch.subscription with
  | some sub =>
      let maxH := calculateSubscriptionHeight sub
      let a := buildSubscription st sub ⟨currentX, currentY⟩
      (a.1, a.2, currentX, maxH, calculateSubscriptionWidth sub)
  | none =>
      match arch.subscriptions with
      | some subs => buildSubsTop st subs currentX currentY 0 0
      | none => (st, [], currentX, 0, 0)

def buildOnPremRow (st : St) (ops : List OnPremises) (onPremX onPremY : Nat) :
    St × List XCell :=
  match ops with
  | [] => (st, [])
  | op :: rest =>
      let a := buildOnPremises st op ⟨onPremX, onPremY⟩
      let b := buildOnPremRow a.1 rest (onPremX + 400) onPremY
      (b.1, a.2 ++ b.2)

/-- The regions-or-subscriptions dispatch in the middle of `generatePage`. -/
def pageContent (st : St) (arch : Architecture) (currentX currentY : Nat) :
    St × List XCell × Nat × Nat × Nat :=
  match arch.regions with
  | some regions =>
      if regions.length > 0 then buildRegionsTop st regions currentX currentY 0 0
      else contentNoRegions st arch currentX currentY
  | none => contentNoRegions st arch currentX currentY

/-- The on-premises row of `generatePage`.  Note on the centring: the
source computes `Math.max(50, Math.floor((totalCloudWidth -
totalOnPremWidth) / 2))`; when the difference is negative the floor is
negative and the `max` yields 50, exactly as the truncating `Nat`
subtraction does here. -/
def pageOnPrem (st : St) (arch : Architecture) (currentY maxCloudHeight totalCloudWidth : Nat) :
    St × List XCell :=
  match arch.onPremises with
  | some ops =>
      if ops.length > 0 then
        let onPremY := currentY + maxCloudHeight + 60
        let totalOnPremWidth := ops.length * 400
        let onPremX := max 50 ((totalCloudWidth - totalOnPremWidth) / 2)
        buildOnPremRow st ops onPremX onPremY
      else (st, [])
  | none => (st, [])

/-- The global-resources row of `generatePage`. -/
def pageGlobals (st : St) (arch : Architecture) : St × List XCell :=
  match arch.globalResources with
  | some gs => if gs.length > 0 then buildGlobalResources st gs ⟨50, 10⟩ else (st, [])
  | none => (st, [])

/-- The connection pass of `generatePage`. -/
def pageConnections (st : St) (arch : Architecture) : St × List XCell :=
  match arch.connections with
  | some conns => buildConnections st conns
  | none => (st, [])

/-- The legend pass of `generatePage`, emitted only when resource types
were used. -/
def pageLegend (st : St) (arch : Architecture) (totalCloudWidth titleOffset : Nat) :
    St × List XCell :=
  if st.usedResourceTypes.length > 0 then
    buildLegend st (max totalCloudWidth (estimatePageWidth arch) - 230) (50 + titleOffset)
  else (st, [])

/-- One page (diagram tab).  The per-page state is created fresh (the
source clears `cellMap`, the id counter, the used-type/style sets and the
bounds cache at the top of `generatePage`). -/
def generatePage (g : Nat) (pageName : String) (arch : Architecture) :
    Nat × St × PageOut :=
  let st := St.empty
  let (diagId, g) := generateCellId g "diagram"
  let pageWidth := estimatePageWidth arch
  let pageHeight := estimatePageHeight arch
  let baseCells := [XCell.baseCell "0" none, XCell.baseCell "1" (some "0")]
  let t := titleCellOf arch st
  let titleOffset := t.2.2
  let currentX := 50
  let currentY := 50 + titleOffset
  let c := pageContent t.1 arch currentX currentY
  let op := pageOnPrem c.1 arch currentY c.2.2.2.1 c.2.2.2.2
  let gl := pageGlobals op.1 arch
  let cn := pageConnections gl.1 arch
  let lg := pageLegend cn.1 arch c.2.2.2.2 titleOffset
  (g, lg.1, ⟨diagId, pageName, pageWidth, pageHeight,
    baseCells ++ t.2.1 ++ c.2.1 ++ op.2 ++ gl.2 ++ cn.2 ++ lg.2⟩)

/-- The per-page `Architecture` value assembled in multi-page mode. -/
def pageArchOf (page : DiagramPage) : Architecture :=
  let base : Architecture :=
    { title := some page.name, description := page.description,
      regions := page.regions, subscription := page.subscription,
      connections := page.connections, globalResources := page.globalResources,
      onPremises := page.onPremises }
  match page.resourceGroups with
  | some rgs => { base with subscription := some ⟨"Azure Subscription", none, some rgs⟩ }
  | none => base

def generatePages (g : Nat) (pages : List DiagramPage) : Nat × List PageOut :=
  match pages with
  | [] => (g, [])
  | p :: rest =>
      let a := generatePage g p.name (pageArchOf p)
      let b := generatePages a.1 rest
      (b.1, a.2.2 :: b.2)

/-- The single public entry point `generate`.  The source stamps the
`mxfile` element with `modified: new Date().toISOString()`; that clock
reading is the `now` parameter here — the only effectful input. -/
def generate (now : String) (arch : Architecture) : MxDocument :=
  match arch.pages with
  | some pages =>
      if pages.length > 0 then ⟨now, (generatePages 0 pages).2⟩
      else ⟨now, [(generatePage 0 (optOr arch.title "Azure Architecture") arch).2.2]⟩
  | none => ⟨now, [(generatePage 0 (optOr arch.title "Azure Architecture") arch).2.2]⟩

/-! ## Document serialization

Modelled from the spec: the textual rendering is performed by the
external `xmlbuilder2` library (`doc.end({ prettyPrint: true })`), which
is not in the source tree; §4.5/§6 require only that the document tree be
emitted as one output text, so the rendering below is a plain injective
XML printer over the tree. -/

def ratStr (q : ℚ) : String :=
  if q.den = 1 then toString q.num else toString q.num ++ "/" ++ toString q.den

def attrsStr (l : List (String × String)) : String :=
  l.foldl (fun acc kv => acc ++ " " ++ kv.1 ++ "=\"" ++ kv.2 ++ "\"") ""

def pointsStr (pts : List (ℚ × ℚ)) : String :=
  pts.foldl (fun acc p =>
    acc ++ "<mxPoint x=\"" ++ ratStr p.1 ++ "\" y=\"" ++ ratStr p.2 ++ "\" />") ""

def serializeCell : XCell → String
  | .baseCell idStr parentStr =>
      "<mxCell id=\"" ++ idStr ++ "\"" ++
        (match parentStr with | some p => " parent=\"" ++ p ++ "\"" | none => "") ++ " />"
  | .vertex id parent value style geom attrs =>
      "<mxCell id=\"" ++ renderCellId id ++ "\" value=\"" ++ value ++ "\" style=\"" ++
        style ++ "\" vertex=\"1\" parent=\"" ++ renderPId parent ++ "\"" ++ attrsStr attrs ++
        "><mxGeometry x=\"" ++ toString geom.x ++ "\" y=\"" ++ toString geom.y ++
        "\" width=\"" ++ toString geom.width ++ "\" height=\"" ++ toString geom.height ++
        "\" as=\"geometry\" /></mxCell>"
  | .edge id parent value style src tgt points =>
      "<mxCell id=\"" ++ renderCellId id ++ "\" value=\"" ++ value ++ "\" style=\"" ++
        style ++ "\" edge=\"1\" parent=\"" ++ renderPId parent ++ "\" source=\"cell-" ++
        toString src ++ "\" target=\"cell-" ++ toString tgt ++
        "\"><mxGeometry relative=\"1\" as=\"geometry\">" ++ pointsStr points ++
        "</mxGeometry></mxCell>"

def serializePage (p : PageOut) : String :=
  "<diagram id=\"" ++ p.diagramId ++ "\" name=\"" ++ p.name ++
  "\"><mxGraphModel pageWidth=\"" ++ toString p.pageWidth ++ "\" pageHeight=\"" ++
  toString p.pageHeight ++ "\"><root>" ++
  String.join (p.cells.map serializeCell) ++ "</root></mxGraphModel></diagram>"

def serializeDocument (doc : MxDocument) : String :=
  "<mxfile host=\"app.diagrams.net\" modified=\"" ++ doc.modified ++
  "\" agent=\"az-arch-gen\" version=\"1.0.0\" type=\"device\">" ++
  String.join (doc.pages.map serializePage) ++ "</mxfile>"

/-! ## Specification-side predicates -/

/-- A node's absolute bounds (its parent's cached absolute origin plus the
node's parent-relative position, extended by the node's width and height)
lie fully within its parent container's absolute bounds.  Cells whose
parent is a base cell have no containing container and are unconstrained,
as are edges. -/
def absoluteBoundsWithinParent (st : St) : XCell → Prop
  | .vertex _ parent _ _ g _ =>
      ∀ b, lookupBoundsP st parent = some b →
        b.x ≤ b.x + g.x ∧ b.y ≤ b.y + g.y ∧
        (b.x + g.x) + g.width ≤ b.x + b.width ∧
        (b.y + g.y) + g.height ≤ b.y + b.height
  | _ => True

/-- Executable mirror of `absoluteBoundsWithinParent` over a cell list. -/
def vertexWithinB (st : St) : XCell → Bool
  | .vertex _ parent _ _ g _ =>
      match lookupBoundsP st parent with
      | some b =>
          decide ((b.x + g.x) + g.width ≤ b.x + b.width) &&
          decide ((b.y + g.y) + g.height ≤ b.y + b.height)
      | none => true
  | _ => true

def pageContainedB (st : St) (cells : List XCell) : Bool :=
  cells.all (vertexWithinB st)

/-- Internal strengthening used through the build induction: each vertex
whose parent is a generated id has a registered parent bounds entry and
fits it (positions are parent-relative, so fitting is a width/height
inequality). -/
def vertexGood (m : List (Nat × ContainerBounds)) : XCell → Prop
  | .vertex _ (.gen n) _ _ g _ =>
      ∃ b, assocFind m n = some b ∧ g.x + g.width ≤ b.width ∧ g.y + g.height ≤ b.height
  | _ => True

def cellsGood (m : List (Nat × ContainerBounds)) (cs : List XCell) : Prop :=
  ∀ c ∈ cs, vertexGood m c

def boundsExtends (m m' : List (Nat × ContainerBounds)) : Prop :=
  ∀ k b, assocFind m k = some b → assocFind m' k = some b

def boundsKeysLE (st : St) : Prop :=
  ∀ kb ∈ st.containerAbsBounds, kb.1 ≤ st.idCounter

/-- The caller-provided fitting fact for a node placed at `(x, y)` with
size `w × h` under parent `parentId`. -/
def parentFits (st : St) (parentId : PId) (x y w h : Nat) : Prop :=
  match parentId with
  | .gen n => ∃ b, assocFind st.containerAbsBounds n = some b ∧
      x + w ≤ b.width ∧ y + h ≤ b.height
  | _ => True

/-- Identifiers issued to the emitted cells, in emission order. -/
def idsOf : List XCell → List Nat
  | [] => []
  | .vertex id _ _ _ _ _ :: rest => id :: idsOf rest
  | .edge id _ _ _ _ _ _ :: rest => id :: idsOf rest
  | .baseCell _ _ :: rest => idsOf rest

/-- Ids strictly increasing in emission order and confined to the id
counter interval of the call. -/
def idsSpec (lo hi : Nat) (cs : List XCell) : Prop :=
  List.Chain' (· < ·) (idsOf cs) ∧ ∀ i ∈ idsOf cs, lo < i ∧ i ≤ hi

/-- State-evolution and emission bundle proved for every build function:
counter monotone, used-type set characterised by the syntactic leaf types
`T` of the input, nodup preservation, id discipline, and bounds-map
freshness/extension. -/
def BOut (st : St) (out : St × List XCell) (T : List String) : Prop :=
  st.idCounter ≤ out.1.idCounter ∧
  (∀ t, t ∈ out.1.usedResourceTypes ↔
     t ∈ st.usedResourceTypes ∨ ((assocFind RESOURCES t).isSome ∧ t ∈ T)) ∧
  (st.usedResourceTypes.Nodup → out.1.usedResourceTypes.Nodup) ∧
  idsSpec st.idCounter out.1.idCounter out.2 ∧
  (boundsKeysLE st →
    boundsKeysLE out.1 ∧ boundsExtends st.containerAbsBounds out.1.containerAbsBounds)

/-! ## Syntactic leaf-resource types (the resources the layout walks) -/

def leafTypesSubnet (s : Subnet) : List String :=
  (s.availabilityZones.getD []).flatMap (fun az => az.resources.map (·.type)) ++
  (s.resources.getD []).map (·.type)

def leafTypesVNet (v : RGResource) : List String :=
  (v.subnets.getD []).flatMap leafTypesSubnet

def leafTypesRG (rg : ResourceGroup) : List String :=
  (rgVnets rg).flatMap leafTypesVNet ++ (rgOthers rg).map (·.type)

def leafTypesRegion (r : Region) : List String :=
  (r.resourceGroups.getD []).flatMap leafTypesRG ++
  (r.resources.getD []).map (·.type)

def leafTypesSub (s : Subscription) : List String :=
  match s.regions with
  | some rs =>
      if rs.length > 0 then rs.flatMap leafTypesRegion
      else (s.resourceGroups.getD []).flatMap leafTypesRG
  | none => (s.resourceGroups.getD []).flatMap leafTypesRG

def leafTypesContentNoRegions (arch : Architecture) : List String :=
  match arch.subscription with
  | some s => leafTypesSub s
  | none =>
      match arch.subscriptions with
      | some subs => subs.flatMap leafTypesSub
      | none => []

def leafTypesContent (arch : Architecture) : List String :=
  match arch.regions with
  | some rs =>
      if rs.length > 0 then rs.flatMap leafTypesRegion
      else leafTypesContentNoRegions arch
  | none => leafTypesContentNoRegions arch

/-- Resource types the page layout attempts to place, in traversal
order.  Resources of unknown type still appear here; the legend relation
filters them through the catalog. -/
def placedLeafTypes (arch : Architecture) : List String :=
  leafTypesContent arch ++
  (arch.onPremises.getD []).flatMap (fun op => (op.resources.getD []).map (·.type)) ++
  (arch.globalResources.getD []).map (·.type)

/-! ## Region-direct-resource restriction (spec §3 data model) -/

def subRegions (s : Subscription) : List Region := s.regions.getD []

def archRegionsOf (arch : Architecture) : List Region :=
  arch.regions.getD [] ++
  (match arch.subscription with | some s => subRegions s | none => []) ++
  (arch.subscriptions.getD []).flatMap subRegions

/-- Spec §3 gives a region name, primary flag and resource groups only;
this predicate says no region of the architecture carries the extra
direct-resource list the source also accepts. -/
def archNoDirectRegionResources (arch : Architecture) : Prop :=
  ∀ r ∈ archRegionsOf arch, r.resources.getD [] = []

/-! ## Association-map key discipline (for the registry claims) -/

def nodupKeys {κ α : Type} (m : List (κ × α)) : Prop :=
  (m.map Prod.fst).Nodup

/-! ## Concrete inputs used by witnesses and counterexamples -/

def vms4 : List Resource :=
  [⟨"vm", "vm1", none⟩, ⟨"vm", "vm2", none⟩, ⟨"vm", "vm3", none⟩, ⟨"vm", "vm4", none⟩]

def regionDirect : Region := { name := "R", resources := some vms4 }

/-- A region with four direct resources: the source places them in a grid
the region's size calculators never account for. -/
def archDirect : Architecture := { regions := some [regionDirect] }

def subnetW : Subnet :=
  { name := "subnet-web", addrPfx := some "10.0.1.0/24",
    resources := some [⟨"appGateway", "agw-web", none⟩, ⟨"vmss", "vmss-web", none⟩] }

def vnetW : RGResource :=
  { type := "vnet", name := "vnet-main", addressSpace := some "10.0.0.0/16",
    subnets := some [subnetW] }

def rgW : ResourceGroup :=
  { name := "rg-production",
    resources := [vnetW, ⟨"storageAccount", "stproddata01", none, none, none⟩,
      ⟨"keyVault", "kv-prod", none, none, none⟩] }

def subW : Subscription := { name := "Production", resourceGroups := some [rgW] }

/-- A well-formed nested architecture (no region-direct resources). -/
def archNested : Architecture :=
  { title := some "Three-Tier", description := some "A small test architecture.",
    subscription := some subW,
    connections := some [⟨"agw-web", "vmss-web", some "peering", some "lnk"⟩] }

def pageA : DiagramPage := { name := "Page A", subscription := some subW }
def pageB : DiagramPage := { name := "Page B", subscription := some subW }

/-- Two pages with identical sub-architectures. -/
def archTwoPages : Architecture := { pages := some [pageA, pageB] }

/-- A routing registry with three stacked containers A (top), B (middle),
C (bottom). -/
def stObs : St :=
  { cellMap := [("A", ⟨2, .p1, ⟨50, 50⟩⟩), ("B", ⟨3, .p1, ⟨50, 220⟩⟩),
      ("C", ⟨4, .p1, ⟨50, 400⟩⟩)]
  , idCounter := 4, usedResourceTypes := [], usedConnectionStyles := []
  , containerAbsBounds := [(2, ⟨50, 50, 200, 100⟩), (3, ⟨50, 220, 200, 100⟩),
      (4, ⟨50, 400, 200, 100⟩)] }

/-! # Theorems -/

/-! ## Association list and set helpers -/

theorem assocFind_mem {κ α : Type} [DecidableEq κ] {m : List (κ × α)} {k : κ} {v : α}
    (h : assocFind m k = some v) : (k, v) ∈ m := by
  induction m with
  | nil => simp [assocFind] at h
  | cons p rest ih =>
    rw [assocFind] at h
    by_cases hk : p.1 = k
    · simp [hk] at h
      have : p = (k, v) := by
        cases p
        simp_all
      rw [← this]
      exact List.mem_cons_self _ _
    · simp [hk] at h
      exact List.mem_cons_of_mem _ (ih h)

theorem assocFind_mapSet_self {κ α : Type} [DecidableEq κ] (m : List (κ × α)) (k : κ) (v : α) :
    assocFind (mapSet m k v) k = some v := by
  induction m with
  | nil => simp [mapSet, assocFind]
  | cons p rest ih =>
    rw [mapSet]
    by_cases hk : p.1 = k
    · simp [hk, assocFind]
    · simp [hk, assocFind, ih]

theorem assocFind_mapSet_ne {κ α : Type} [DecidableEq κ] (m : List (κ × α)) {k k' : κ} (v : α)
    (h : k ≠ k') : assocFind (mapSet m k v) k' = assocFind m k' := by
  induction m with
  | nil => simp [mapSet, assocFind, h]
  | cons p rest ih =>
    rw [mapSet]
    by_cases hk : p.1 = k
    · simp [hk, assocFind, h]
    · simp [hk, assocFind, ih]

theorem mem_mapSet {κ α : Type} [DecidableEq κ] {m : List (κ × α)} {k : κ} {v : α} {p : κ × α}
    (hp : p ∈ mapSet m k v) : p = (k, v) ∨ p ∈ m := by
  induction m with
  | nil => simpa [mapSet] using hp
  | cons q rest ih =>
    rw [mapSet] at hp
    by_cases hk : q.1 = k
    · simp [hk] at hp
      rcases hp with h | h
      · exact Or.inl h
      · exact Or.inr (List.mem_cons_of_mem _ h)
    · simp [hk] at hp
      rcases hp with h | h
      · exact Or.inr (List.mem_cons.mpr (Or.inl h))
      · rcases ih h with h' | h'
        · exact Or.inl h'
        · exact Or.inr (List.mem_cons_of_mem _ h')

theorem mapSet_nodupKeys {κ α : Type} [DecidableEq κ] {m : List (κ × α)}
    (h : nodupKeys m) (k : κ) (v : α) : nodupKeys (mapSet m k v) := by
  induction m with
  | nil => simp [mapSet, nodupKeys]
  | cons p rest ih =>
    rw [nodupKeys, List.map_cons, List.nodup_cons] at h
    rw [mapSet]
    by_cases hk : p.1 = k
    · simp only [hk, if_true]
      rw [nodupKeys, List.map_cons, List.nodup_cons]
      exact ⟨by simpa [hk] using h.1, h.2⟩
    · simp only [hk, if_false]
      rw [nodupKeys, List.map_cons, List.nodup_cons]
      constructor
      · intro hmem
        rcases List.mem_map.mp hmem with ⟨q, hq, hq1⟩
        rcases mem_mapSet hq with h' | h'
        · exact hk (by rw [← hq1, h'])
        · exact h.1 (List.mem_map.mpr ⟨q, h', hq1⟩)
      · exact ih h.2

theorem mem_keys_mapSet {κ α : Type} [DecidableEq κ] {m : List (κ × α)} {k : κ} {v : α} {q : κ × α}
    (hq : q ∈ mapSet m k v) : q.1 = k ∨ q ∈ m := by
  rcases mem_mapSet hq with h | h
  · left; rw [h]
  · right; exact h

/-- On a duplicate-free map, `mapSet` leaves no entry with the written
key other than the new value. -/
theorem mapSet_unique_value {κ α : Type} [DecidableEq κ] {m : List (κ × α)}
    (hm : nodupKeys m) (k : κ) (v w : α) (hw : (k, w) ∈ mapSet m k v) : w = v := by
  induction m with
  | nil => simpa [mapSet] using hw
  | cons p rest ih =>
    rw [nodupKeys, List.map_cons, List.nodup_cons] at hm
    rw [mapSet] at hw
    by_cases hk : p.1 = k
    · simp only [hk, if_true] at hw
      rcases List.mem_cons.mp hw with h | h
      · exact (Prod.mk.injEq _ _ _ _ ▸ h).2
      · exact absurd (List.mem_map.mpr ⟨(k, w), h, rfl⟩) (hk ▸ hm.1)
    · simp only [hk, if_false] at hw
      rcases List.mem_cons.mp hw with h | h
      · exact absurd (congrArg Prod.fst h).symm hk
      · exact ih hm.2 h

theorem mem_addUsed {l : List String} {t x : String} :
    x ∈ addUsed l t ↔ x ∈ l ∨ x = t := by
  by_cases h : t ∈ l
  · simp only [addUsed, h, if_true]
    constructor
    · exact Or.inl
    · rintro (hx | rfl)
      · exact hx
      · exact h
  · simp [addUsed, h]

theorem addUsed_nodup {l : List String} (h : l.Nodup) (t : String) :
    (addUsed l t).Nodup := by
  by_cases ht : t ∈ l
  · simpa [addUsed, ht] using h
  · simp only [addUsed, ht, if_false]
    exact List.Nodup.append h (List.nodup_singleton t) (by simpa using ht)

/-! ## Fold helpers -/

theorem le_foldl_max {α : Type} (f : α → Nat) (l : List α) (a : Nat) :
    a ≤ l.foldl (fun m x => max m (f x)) a := by
  induction l generalizing a with
  | nil => simp
  | cons x xs ih =>
    rw [List.foldl_cons]
    exact le_trans (Nat.le_max_left _ _) (ih _)

theorem mem_le_foldl_max {α : Type} (f : α → Nat) {l : List α} {x : α} (hx : x ∈ l) (a : Nat) :
    f x ≤ l.foldl (fun m y => max m (f y)) a := by
  induction l generalizing a with
  | nil => cases hx
  | cons y ys ih =>
    rw [List.foldl_cons]
    rcases List.mem_cons.mp hx with h | h
    · subst h
      exact le_trans (Nat.le_max_right _ _) (le_foldl_max f ys _)
    · exact ih h _

theorem foldl_add_eq_sum {α : Type} (f : α → Nat) (l : List α) (a : Nat) :
    l.foldl (fun t x => t + f x) a = a + (l.map f).sum := by
  induction l generalizing a with
  | nil => simp
  | cons x xs ih =>
    rw [List.foldl_cons, ih, List.map_cons, List.sum_cons]
    omega

/-! ## Cell/id discipline helpers -/

theorem idsOf_append (cs cs' : List XCell) :
    idsOf (cs ++ cs') = idsOf cs ++ idsOf cs' := by
  induction cs with
  | nil => simp [idsOf]
  | cons c rest ih =>
    cases c <;> simp [idsOf, ih]

theorem idsSpec_nil (lo hi : Nat) : idsSpec lo hi [] := by
  constructor
  · simp [idsOf]
  · simp [idsOf]

theorem idsSpec_of_ids_nil {lo hi : Nat} {cs : List XCell} (h : idsOf cs = []) :
    idsSpec lo hi cs := by
  constructor
  · rw [h]; exact List.chain'_nil
  · rw [h]; simp

theorem idsSpec_mono {lo lo' hi hi' : Nat} {cs : List XCell} (h : idsSpec lo hi cs)
    (h1 : lo' ≤ lo) (h2 : hi ≤ hi') : idsSpec lo' hi' cs := by
  refine ⟨h.1, fun i hi_mem => ?_⟩
  rcases h.2 i hi_mem with ⟨ha, hb⟩
  omega

theorem idsSpec_append {lo mid hi : Nat} {cs cs' : List XCell}
    (h1 : idsSpec lo mid cs) (h2 : idsSpec mid hi cs')
    (hlm : lo ≤ mid) (hmh : mid ≤ hi) : idsSpec lo hi (cs ++ cs') := by
  constructor
  · rw [idsOf_append]
    rw [List.chain'_append]
    refine ⟨h1.1, h2.1, fun x hx y hy => ?_⟩
    have hxm : x ∈ idsOf cs := by
      rcases List.mem_getLast?_eq_getLast hx with ⟨hne, heq⟩
      rw [heq]
      exact List.getLast_mem hne
    have hym : y ∈ idsOf cs' := by
      rw [List.eq_cons_of_mem_head? hy]
      exact List.mem_cons_self _ _
    rcases h1.2 x hxm with ⟨_, hx2⟩
    rcases h2.2 y hym with ⟨hy1, _⟩
    omega
  · intro i hi_mem
    rw [idsOf_append, List.mem_append] at hi_mem
    rcases hi_mem with h | h
    · rcases h1.2 i h with ⟨ha, hb⟩
      omega
    · rcases h2.2 i h with ⟨ha, hb⟩
      omega

/-- A single vertex or edge whose id lies in the window. -/
theorem idsSpec_single {lo hi : Nat} {cs : List XCell} {id : Nat}
    (hids : idsOf cs = [id]) (h1 : lo < id) (h2 : id ≤ hi) : idsSpec lo hi cs := by
  constructor
  · rw [hids]
    exact List.chain'_singleton id
  · intro i hi_mem
    rw [hids] at hi_mem
    rcases List.mem_singleton.mp hi_mem with rfl
    exact ⟨h1, h2⟩

theorem cellsGood_nil (m : List (Nat × ContainerBounds)) : cellsGood m [] := by
  intro c hc
  cases hc

theorem cellsGood_append {m : List (Nat × ContainerBounds)} {cs cs' : List XCell}
    (h1 : cellsGood m cs) (h2 : cellsGood m cs') : cellsGood m (cs ++ cs') := by
  intro c hc
  rcases List.mem_append.mp hc with h | h
  · exact h1 c h
  · exact h2 c h

theorem vertexGood_mono {m m' : List (Nat × ContainerBounds)} {c : XCell}
    (hext : boundsExtends m m') (h : vertexGood m c) : vertexGood m' c := by
  cases c with
  | vertex id parent value style g attrs =>
    cases parent with
    | gen n =>
      rcases h with ⟨b, hb, hw, hh⟩
      exact ⟨b, hext n b hb, hw, hh⟩
    | p0 => trivial
    | p1 => trivial
  | edge id parent value style s t pts => trivial
  | baseCell i p => trivial

theorem cellsGood_mono {m m' : List (Nat × ContainerBounds)} {cs : List XCell}
    (hext : boundsExtends m m') (h : cellsGood m cs) : cellsGood m' cs :=
  fun c hc => vertexGood_mono hext (h c hc)

theorem boundsExtends_refl (m : List (Nat × ContainerBounds)) : boundsExtends m m :=
  fun _ _ h => h

theorem boundsExtends_trans {m₁ m₂ m₃ : List (Nat × ContainerBounds)}
    (h1 : boundsExtends m₁ m₂) (h2 : boundsExtends m₂ m₃) : boundsExtends m₁ m₃ :=
  fun k b h => h2 k b (h1 k b h)

/-- Writing a fresh bounds entry (id above every present key) preserves
previous lookups and the key bound at the new counter value. -/
theorem boundsExtends_mapSet_fresh {st : St} {id : Nat}
    (hkeys : boundsKeysLE st) (hid : st.idCounter < id) (b : ContainerBounds) :
    boundsExtends st.containerAbsBounds (mapSet st.containerAbsBounds id b) := by
  intro k v hk
  have hkne : id ≠ k := by
    intro h
    subst h
    have := hkeys _ (assocFind_mem hk)
    omega
  rw [assocFind_mapSet_ne _ _ hkne]
  exact hk

theorem boundsKeysLE_mapSet {st : St} {id ctr : Nat}
    (hkeys : boundsKeysLE st) (hctr : st.idCounter ≤ ctr) (hid : id ≤ ctr) (b : ContainerBounds) :
    ∀ kb ∈ mapSet st.containerAbsBounds id b, kb.1 ≤ ctr := by
  intro kb hkb
  rcases mem_mapSet hkb with h | h
  · rw [h]; exact hid
  · exact le_trans (hkeys _ h) hctr

/-! ## BOut sequencing -/

theorem BOut_sub {st : St} {out : St × List XCell} {T T' : List String}
    (h : BOut st out T) (hT : ∀ t, t ∈ T ↔ t ∈ T') : BOut st out T' := by
  refine ⟨h.1, fun t => ?_, h.2.2.1, h.2.2.2.1, h.2.2.2.2⟩
  rw [h.2.1 t]
  constructor
  · rintro (hl | ⟨hk, ht⟩)
    · exact Or.inl hl
    · exact Or.inr ⟨hk, (hT t).mp ht⟩
  · rintro (hl | ⟨hk, ht⟩)
    · exact Or.inl hl
    · exact Or.inr ⟨hk, (hT t).mpr ht⟩

theorem BOut_refl (st : St) : BOut st (st, []) [] := by
  refine ⟨Nat.le_refl _, fun t => ?_, id, idsSpec_nil _ _, fun hk => ⟨hk, boundsExtends_refl _⟩⟩
  simp

/-! ## Size floors and catalog facts -/

theorem RESOURCES_dims {t : String} {d : ResourceDefinition}
    (h : assocFind RESOURCES t = some d) : d.width = 64 ∧ d.height = 64 := by
  have hall : ∀ p ∈ RESOURCES, p.2.width = 64 ∧ p.2.height = 64 := by decide
  exact hall _ (assocFind_mem h)

theorem calculateSubnetWidth_ge (s : Subnet) : 150 ≤ calculateSubnetWidth s := by
  rcases h : s.availabilityZones with _ | azs <;>
    simp only [calculateSubnetWidth, h] <;> first | omega | (split <;> omega)

theorem calculateSubnetWidth_ge_of_two (s : Subnet)
    (h : 2 ≤ (s.resources.getD []).length) : 290 ≤ calculateSubnetWidth s := by
  rcases ha : s.availabilityZones with _ | azs <;>
    simp only [calculateSubnetWidth, ha] <;> first | omega | (split <;> omega)

theorem calculateSubnetHeight_ge (s : Subnet) : 100 ≤ calculateSubnetHeight s := by
  rcases ha : s.availabilityZones with _ | azs
  · simp only [calculateSubnetHeight, ha]
    omega
  · simp only [calculateSubnetHeight, ha]
    split
    · rename_i hlen
      rcases azs with _ | ⟨az, rest⟩
      · simp at hlen
      · have h110 : (110 : Nat) ≤ (az :: rest).foldl
            (fun acc azGroup => max acc (max 110 ((azGroup.resources.length + 1) / 2 * 110 + 50))) 0 := by
          rw [List.foldl_cons]
          exact le_trans (by omega : (110 : Nat) ≤ max 0 (max 110 ((az.resources.length + 1) / 2 * 110 + 50)))
            (le_foldl_max _ rest _)
        omega
    · omega

theorem calculateVNetWidth_ge (v : RGResource) : 300 ≤ calculateVNetWidth v := by
  rcases hs : v.subnets with _ | subnets
  · simp only [calculateVNetWidth, hs]
    omega
  · simp only [calculateVNetWidth, hs]
    split
    · omega
    · exact le_foldl_max _ subnets 300

theorem calculateVNetHeight_ge (v : RGResource) : 150 ≤ calculateVNetHeight v := by
  rcases hs : v.subnets with _ | subnets
  · simp only [calculateVNetHeight, hs]
    omega
  · simp only [calculateVNetHeight, hs]
    split
    · have := le_foldl_max (fun s => calculateSubnetHeight s) subnets 100
      omega
    · omega

theorem calculateRGWidth_ge (rg : ResourceGroup) : 300 ≤ calculateRGWidth rg := by
  simp only [calculateRGWidth]
  omega

theorem calculateRGHeight_ge (rg : ResourceGroup) : 200 ≤ calculateRGHeight rg := by
  simp only [calculateRGHeight]
  omega

theorem calculateRegionWidth_ge (r : Region) : 400 ≤ calculateRegionWidth r := by
  rcases hr : r.resourceGroups with _ | rgs
  · simp only [calculateRegionWidth, hr]
    omega
  · simp only [calculateRegionWidth, hr]
    exact le_foldl_max _ rgs 400

theorem calculateRegionHeight_ge (r : Region) : 400 ≤ calculateRegionHeight r := by
  rcases hr : r.resourceGroups with _ | rgs <;> simp only [calculateRegionHeight, hr] <;> omega

theorem calculateSubscriptionWidth_ge (s : Subscription) : 400 ≤ calculateSubscriptionWidth s := by
  rcases hr : s.regions with _ | regions <;>
    rcases hg : s.resourceGroups with _ | rgs <;>
    simp only [calculateSubscriptionWidth, hr, hg] <;>
    first | omega | (split <;> omega)

theorem calculateSubscriptionHeight_ge (s : Subscription) : 200 ≤ calculateSubscriptionHeight s := by
  rcases hr : s.regions with _ | regions
  · rcases hg : s.resourceGroups with _ | rgs
    · simp only [calculateSubscriptionHeight, hr, hg]
      omega
    · simp only [calculateSubscriptionHeight, hr, hg]
      exact le_foldl_max _ rgs 200
  · simp only [calculateSubscriptionHeight, hr]
    split
    · exact le_foldl_max _ regions 200
    · rcases hg : s.resourceGroups with _ | rgs
      · simp only [hg]
        omega
      · simp only [hg]
        exact le_foldl_max _ rgs 200

/-- The per-AZ-container resource grid always wraps at two columns. -/
theorem azMaxCols_eq_two (n : Nat) :
    max 2 ((max 150 (min n 2 * 130 + 30) - 30) / 130) = 2 := by
  rcases Nat.lt_or_ge n 2 with h | h
  · interval_cases n <;> rfl
  · have : min n 2 = 2 := by omega
    rw [this]
    rfl

/-- Sequencing two build steps concatenates their emissions and their
syntactic leaf-type lists. -/
theorem BOut_seq {st st₁ st₂ : St} {cs₁ cs₂ : List XCell} {T₁ T₂ : List String}
    (h1 : BOut st (st₁, cs₁) T₁) (h2 : BOut st₁ (st₂, cs₂) T₂) :
    BOut st (st₂, cs₁ ++ cs₂) (T₁ ++ T₂) := by
  obtain ⟨hc1, hu1, hn1, hi1, hb1⟩ := h1
  obtain ⟨hc2, hu2, hn2, hi2, hb2⟩ := h2
  refine ⟨le_trans hc1 hc2, ?_, fun hn => hn2 (hn1 hn), ?_, ?_⟩
  · intro t
    rw [hu2 t, hu1 t, List.mem_append]
    tauto
  · exact idsSpec_append hi1 hi2 hc1 hc2
  · intro hk
    rcases hb1 hk with ⟨hk1, he1⟩
    rcases hb2 hk1 with ⟨hk2, he2⟩
    exact ⟨hk2, boundsExtends_trans he1 he2⟩

/-! ## findCell tier lemmas -/

theorem findCell_exact {m : List (String × CellInfo)} {name : String} {v : CellInfo}
    (h : assocFind m name = some v) : findCell m name = some v := by
  rw [findCell, h]

theorem findCell_mem {m : List (String × CellInfo)} {name : String} {v : CellInfo}
    (h : findCell m name = some v) : ∃ k, (k, v) ∈ m := by
  rw [findCell] at h
  rcases h1 : assocFind m name with _ | v1
  · simp only [h1] at h
    rcases h2 : m.find? (fun kv => lowerStr kv.1 = lowerStr name) with _ | kv2
    · simp only [h2] at h
      rcases h3 : m.find? (fun kv =>
          strContains (lowerStr kv.1) (lowerStr name) ||
          strContains (lowerStr name) (lowerStr kv.1)) with _ | kv3
      · simp only [h3] at h
        cases h
      · simp only [h3] at h
        injection h with h
        exact ⟨kv3.1, h ▸ (Prod.mk.eta ▸ List.mem_of_find?_eq_some h3)⟩
    · simp only [h2] at h
      injection h with h
      exact ⟨kv2.1, h ▸ (Prod.mk.eta ▸ List.mem_of_find?_eq_some h2)⟩
  · simp only [h1] at h
    injection h with h
    exact ⟨name, h ▸ assocFind_mem h1⟩

/-! ## Claim C9 — title block height -/

/-- C9 (counterexample): no fixed (minimum, base, line-height) constants
make the title-block height equal `max minimum (base + lines * lineHeight)`
for every description: the code yields 30 with no description but 60 at one
line and 66 at two lines, which no such formula matches. -/
theorem azC9_counterexample :
    ¬ ∃ m b lh : Nat, ∀ d : Option String,
        titleBlockHeight d = max m (b + descLines d * lh) := by
  rintro ⟨m, b, lh, hf⟩
  have h0 := hf none
  have h1 := hf (some (String.mk (List.replicate 100 'a')))
  have h2 := hf (some (String.mk (List.replicate 200 'a')))
  have e0 : titleBlockHeight none = 30 := by decide
  have e0l : descLines none = 0 := by decide
  have e1 : titleBlockHeight (some (String.mk (List.replicate 100 'a'))) = 60 := by decide
  have e1l : descLines (some (String.mk (List.replicate 100 'a'))) = 1 := by decide
  have e2 : titleBlockHeight (some (String.mk (List.replicate 200 'a'))) = 66 := by decide
  have e2l : descLines (some (String.mk (List.replicate 200 'a'))) = 2 := by decide
  rw [e0, e0l] at h0
  rw [e1, e1l] at h1
  rw [e2, e2l] at h2
  omega

/-- C9 (amended): for a truthy title the emitted title cell's geometry
height is `titleBlockHeight`, which is 30 when the wrapped line estimate
(`ceil(len/100)`, missing description counting as length 0) is zero and
`max 60 (30 + lines*18)` otherwise. -/
theorem azC9_title_height (g : Nat) (pageName : String) (arch : Architecture)
    (h : strTruthy arch.title = true) :
    ((generatePage g pageName arch).2.2.cells)[2]? =
      some (XCell.vertex 1 .p1 (titleTextOf arch) titleTextStyle
        ⟨50, 10, 800, titleBlockHeight arch.description⟩ []) ∧
    (descLines arch.description = 0 → titleBlockHeight arch.description = 30) ∧
    (0 < descLines arch.description →
      titleBlockHeight arch.description = max 60 (30 + descLines arch.description * 18)) := by
  refine ⟨?_, ?_, ?_⟩
  · simp only [generatePage, titleCellOf, h, if_true, St.empty, nextId]
    simp
  · intro h0
    simp [titleBlockHeight, h0]
  · intro h0
    have : descLines arch.description > 0 := h0
    simp [titleBlockHeight, this]

/-- C9 witness instantiation. -/
theorem azC9_title_height_witness :
    strTruthy (Architecture.title { title := some "T" }) = true ∧
    (((generatePage 0 "p" { title := some "T" }).2.2.cells)[2]? =
      some (XCell.vertex 1 .p1 (titleTextOf { title := some "T" }) titleTextStyle
        ⟨50, 10, 800, titleBlockHeight (Architecture.description { title := some "T" })⟩ []) ∧
     (descLines (Architecture.description { title := some "T" }) = 0 →
        titleBlockHeight (Architecture.description { title := some "T" }) = 30) ∧
     (0 < descLines (Architecture.description { title := some "T" }) →
        titleBlockHeight (Architecture.description { title := some "T" }) =
          max 60 (30 + descLines (Architecture.description { title := some "T" }) * 18))) :=
  ⟨by decide, azC9_title_height 0 "p" { title := some "T" } (by decide)⟩

/-! ## Claim C2 — determinism -/

/-- C2 (counterexample): the emitted file embeds the clock reading in the
`modified` attribute, so two calls on the same (empty) architecture at
different times return different document text. -/
theorem azC2_counterexample :
    serializeDocument (generate "2024-01-01T00:00:00.000Z" {}) ≠
    serializeDocument (generate "2025-06-15T12:34:56.789Z" {}) := by
  decide

/-- C2 (amended): everything except the `modified` timestamp attribute is
identical across calls on identical input — the page list of the document
does not depend on the clock reading, so output is byte-identical once
the timestamp is fixed. -/
theorem azC2_deterministic_pages (t₁ t₂ : String) (arch : Architecture) :
    (generate t₁ arch).pages = (generate t₂ arch).pages := by
  rcases hp : arch.pages with _ | pages
  · simp only [generate, hp]
  · simp only [generate, hp]
    split <;> rfl

/-! ## Claim C6 — size monotonicity -/

/-- C6: appending a resource to a resource group never decreases the
group's computed width or height. -/
theorem azC6_size_monotonicity (rg : ResourceGroup) (r : RGResource) :
    calculateRGWidth rg ≤ calculateRGWidth ⟨rg.name, rg.resources ++ [r]⟩ ∧
    calculateRGHeight rg ≤ calculateRGHeight ⟨rg.name, rg.resources ++ [r]⟩ := by
  have hv : rgVnets ⟨rg.name, rg.resources ++ [r]⟩ =
      rgVnets rg ++ List.filter (fun x => isVnetType x.type) [r] := by
    simp [rgVnets, List.filter_append]
  have ho : rgOthers ⟨rg.name, rg.resources ++ [r]⟩ =
      rgOthers rg ++ List.filter (fun x => !isVnetType x.type) [r] := by
    simp [rgOthers, List.filter_append]
  by_cases hr : isVnetType r.type = true
  · have hv' : rgVnets ⟨rg.name, rg.resources ++ [r]⟩ = rgVnets rg ++ [r] := by
      rw [hv]; simp [List.filter, hr]
    have ho' : rgOthers ⟨rg.name, rg.resources ++ [r]⟩ = rgOthers rg := by
      rw [ho]; simp [List.filter, hr]
    constructor
    · simp only [calculateRGWidth, hv', ho', List.foldl_append, List.foldl_cons, List.foldl_nil]
      have : (rgVnets rg).foldl (fun m v => max m (calculateVNetWidth v)) 0 ≤
          max ((rgVnets rg).foldl (fun m v => max m (calculateVNetWidth v)) 0)
            (calculateVNetWidth r) := Nat.le_max_left _ _
      omega
    · simp only [calculateRGHeight, hv', ho', List.foldl_append, List.foldl_cons, List.foldl_nil]
      omega
  · have hv' : rgVnets ⟨rg.name, rg.resources ++ [r]⟩ = rgVnets rg := by
      rw [hv]; simp [List.filter, hr]
    have ho' : rgOthers ⟨rg.name, rg.resources ++ [r]⟩ = rgOthers rg ++ [r] := by
      rw [ho]; simp [List.filter, hr]
    constructor
    · simp only [calculateRGWidth, hv', ho', List.length_append, List.length_singleton]
      split_ifs <;> omega
    · simp only [calculateRGHeight, hv', ho', List.length_append, List.length_singleton]
      omega

/-! ## Claim C10 — same-name registration keeps the last cell -/

/-- C10: placing two resources under the same name leaves only the cell of
the most recently placed one in the registry: endpoint resolution for that
name returns the second cell, and the first cell survives only if it was
also registered under some other name. -/
theorem azC10_registry_last_wins (st : St) (r₁ r₂ : Resource) (p₁ p₂ : PId)
    (q₁ q₂ : Position) (hname : r₁.name = r₂.name)
    (hk₁ : (assocFind RESOURCES r₁.type).isSome = true)
    (hk₂ : (assocFind RESOURCES r₂.type).isSome = true)
    (hnd : nodupKeys st.cellMap) :
    findCell (buildResource (buildResource st r₁ p₁ q₁).1 r₂ p₂ q₂).1.cellMap r₂.name =
      some ⟨st.idCounter + 2, p₂, q₂⟩ ∧
    (∀ v, (r₂.name, v) ∈ (buildResource (buildResource st r₁ p₁ q₁).1 r₂ p₂ q₂).1.cellMap →
      v = ⟨st.idCounter + 2, p₂, q₂⟩) := by
  rcases hd₁ : assocFind RESOURCES r₁.type with _ | d₁
  · rw [hd₁] at hk₁; simp at hk₁
  rcases hd₂ : assocFind RESOURCES r₂.type with _ | d₂
  · rw [hd₂] at hk₂; simp at hk₂
  have hmap : (buildResource (buildResource st r₁ p₁ q₁).1 r₂ p₂ q₂).1.cellMap =
      mapSet (mapSet st.cellMap r₁.name ⟨st.idCounter + 1, p₁, q₁⟩) r₂.name
        ⟨st.idCounter + 2, p₂, q₂⟩ := by
    simp only [buildResource, hd₁, nextId]
    simp only [hd₂]
  rw [hmap]
  constructor
  · exact findCell_exact (assocFind_mapSet_self _ _ _)
  · intro v hv
    exact mapSet_unique_value (mapSet_nodupKeys hnd _ _) _ _ _ hv

/-! ## Sorting helpers -/

theorem insertBy_perm {α : Type} (le : α → α → Bool) (a : α) (l : List α) :
    List.Perm (insertBy le a l) (a :: l) := by
  induction l with
  | nil => simp [insertBy]
  | cons b bs ih =>
    rw [insertBy]
    split
    · exact List.Perm.refl _
    · exact List.Perm.trans (List.Perm.cons b ih) (List.Perm.swap a b bs)

theorem sortBy_perm {α : Type} (le : α → α → Bool) (l : List α) :
    List.Perm (sortBy le l) l := by
  induction l with
  | nil => exact List.Perm.refl _
  | cons a as ih =>
    rw [sortBy]
    exact List.Perm.trans (insertBy_perm le a (sortBy le as)) (List.Perm.cons a ih)

theorem mem_sortBy {α : Type} {le : α → α → Bool} {l : List α} {x : α} :
    x ∈ sortBy le l ↔ x ∈ l :=
  (sortBy_perm le l).mem_iff

theorem insertBy_sorted {α : Type} (le : α → α → Bool)
    (htot : ∀ a b, le a b || le b a)
    (htrans : ∀ a b c, le a b = true → le b c = true → le a c = true) (a : α) {l : List α}
    (hl : List.Pairwise (fun x y => le x y = true) l) :
    List.Pairwise (fun x y => le x y = true) (insertBy le a l) := by
  induction l with
  | nil => simp [insertBy]
  | cons b bs ih =>
    rw [insertBy]
    rcases List.pairwise_cons.mp hl with ⟨hb, hbs⟩
    split
    · rename_i hab
      refine List.pairwise_cons.mpr ⟨?_, hl⟩
      intro y hy
      rcases List.mem_cons.mp hy with rfl | hy
      · exact hab
      · exact htrans a b y hab (hb y hy)
    · rename_i hab
      have hba : le b a = true := by
        have := htot a b
        rcases Bool.or_eq_true_iff.mp this with h | h
        · exact absurd h hab
        · exact h
      refine List.pairwise_cons.mpr ⟨?_, ih hbs⟩
      intro y hy
      have : y ∈ a :: bs := (insertBy_perm le a bs).mem_iff.mp hy
      rcases List.mem_cons.mp this with rfl | hy'
      · exact hba
      · exact hb y hy'

theorem sortBy_sorted {α : Type} (le : α → α → Bool)
    (htot : ∀ a b, le a b || le b a)
    (htrans : ∀ a b c, le a b = true → le b c = true → le a c = true) (l : List α) :
    List.Pairwise (fun x y => le x y = true) (sortBy le l) := by
  induction l with
  | nil => simp [sortBy]
  | cons a as ih =>
    rw [sortBy]
    exact insertBy_sorted le htot htrans a ih

theorem charListLe_total (a b : List Char) : charListLe a b || charListLe b a := by
  induction a generalizing b with
  | nil => simp [charListLe]
  | cons x xs ih =>
    cases b with
    | nil => simp [charListLe]
    | cons y ys =>
      by_cases h1 : x.toNat < y.toNat
      · rw [charListLe]
        simp [h1]
      · by_cases h2 : y.toNat < x.toNat
        · rw [charListLe, charListLe]
          simp [h1, h2]
        · rw [charListLe, charListLe]
          simp only [if_neg h1, if_neg h2]
          exact ih ys

theorem charListLe_trans (a b c : List Char) (h1 : charListLe a b = true)
    (h2 : charListLe b c = true) : charListLe a c = true := by
  induction a generalizing b c with
  | nil => simp [charListLe]
  | cons x xs ih =>
    cases b with
    | nil => simp [charListLe] at h1
    | cons y ys =>
      cases c with
      | nil => simp [charListLe] at h2
      | cons z zs =>
        by_cases hxy : x.toNat < y.toNat
        · by_cases hyz : y.toNat < z.toNat
          · rw [charListLe]
            simp [show x.toNat < z.toNat by omega]
          · by_cases hzy : z.toNat < y.toNat
            · rw [charListLe] at h2
              simp [hyz, hzy] at h2
            · rw [charListLe]
              simp [show x.toNat < z.toNat by omega]
        · by_cases hyx : y.toNat < x.toNat
          · rw [charListLe] at h1
            simp [hxy, hyx] at h1
          · rw [charListLe] at h1
            simp [hxy, hyx] at h1
            by_cases hyz : y.toNat < z.toNat
            · rw [charListLe]
              simp [show x.toNat < z.toNat by omega]
            · by_cases hzy : z.toNat < y.toNat
              · rw [charListLe] at h2
                simp [hyz, hzy] at h2
              · rw [charListLe] at h2
                simp [hyz, hzy] at h2
                rw [charListLe]
                simp only [if_neg (show ¬ x.toNat < z.toNat by omega),
                  if_neg (show ¬ z.toNat < x.toNat by omega)]
                exact ih ys zs h1 h2

theorem strLe_total (a b : String) : strLe a b || strLe b a := charListLe_total _ _

theorem strLe_trans (a b c : String) (h1 : strLe a b = true) (h2 : strLe b c = true) :
    strLe a c = true := charListLe_trans _ _ _ h1 h2

/-- C10 witness instantiation. -/
theorem azC10_registry_last_wins_witness :
    ("dup" : String) = "dup" ∧
    (assocFind RESOURCES "vm").isSome = true ∧
    (assocFind RESOURCES "aks").isSome = true ∧
    nodupKeys (St.empty).cellMap ∧
    (findCell (buildResource (buildResource St.empty ⟨"vm", "dup", none⟩ .p1 ⟨1, 2⟩).1
        ⟨"aks", "dup", none⟩ .p1 ⟨3, 4⟩).1.cellMap "dup" = some ⟨2, .p1, ⟨3, 4⟩⟩ ∧
     ∀ v, ("dup", v) ∈ (buildResource (buildResource St.empty ⟨"vm", "dup", none⟩ .p1 ⟨1, 2⟩).1
        ⟨"aks", "dup", none⟩ .p1 ⟨3, 4⟩).1.cellMap → v = ⟨2, .p1, ⟨3, 4⟩⟩) :=
  ⟨rfl, by decide, by decide, by simp [nodupKeys, St.empty],
   azC10_registry_last_wins St.empty ⟨"vm", "dup", none⟩ ⟨"aks", "dup", none⟩ .p1 .p1
     ⟨1, 2⟩ ⟨3, 4⟩ rfl (by decide) (by decide) (by simp [nodupKeys, St.empty])⟩

/-! ## Claim C5 — three-tier endpoint resolution -/

theorem assocFind_eq_none {κ α : Type} [DecidableEq κ] {m : List (κ × α)} {k : κ}
    (h : ∀ kv ∈ m, kv.1 ≠ k) : assocFind m k = none := by
  induction m with
  | nil => rfl
  | cons p rest ih =>
    rw [assocFind, if_neg (h p (List.mem_cons_self _ _))]
    exact ih fun kv hkv => h kv (List.mem_cons_of_mem _ hkv)

/-- C5: endpoint resolution proceeds in three tiers with the first match
winning — exact key, case-insensitive key, bidirectional substring
containment — and a connection with an unresolvable endpoint is skipped
(no edge emitted, state unchanged) while the remaining connections are
still processed. -/
theorem azC5_resolution_tiers (m : List (String × CellInfo)) (name : String) :
    (∀ v, assocFind m name = some v → findCell m name = some v) ∧
    (assocFind m name = none →
      ∀ kv₀ ∈ m, lowerStr kv₀.1 = lowerStr name →
        ∃ k v, findCell m name = some v ∧ (k, v) ∈ m ∧ lowerStr k = lowerStr name) ∧
    (assocFind m name = none →
      (∀ kv ∈ m, ¬ lowerStr kv.1 = lowerStr name) →
      ∀ kv₀ ∈ m, (strContains (lowerStr kv₀.1) (lowerStr name) ||
          strContains (lowerStr name) (lowerStr kv₀.1)) = true →
        ∃ k v, findCell m name = some v ∧ (k, v) ∈ m ∧
          (strContains (lowerStr k) (lowerStr name) ||
            strContains (lowerStr name) (lowerStr k)) = true) ∧
    ((∀ kv ∈ m, kv.1 ≠ name) →
      (∀ kv ∈ m, ¬ lowerStr kv.1 = lowerStr name) →
      (∀ kv ∈ m, ¬ (strContains (lowerStr kv.1) (lowerStr name) ||
          strContains (lowerStr name) (lowerStr kv.1)) = true) →
      findCell m name = none) ∧
    (∀ (st : St) (c : Connection) (rest : List Connection),
      (findCell st.cellMap c.«from» = none ∨ findCell st.cellMap c.«to» = none) →
      buildConnections st (c :: rest) = buildConnections st rest) := by
  refine ⟨?_, ?_, ?_, ?_, ?_⟩
  · intro v h
    exact findCell_exact h
  · intro h1 kv₀ hkv₀ hlow
    rcases hf : m.find? (fun kv => lowerStr kv.1 = lowerStr name) with _ | kv
    · exfalso
      have := List.find?_eq_none.mp hf kv₀ hkv₀
      simp [hlow] at this
    · refine ⟨kv.1, kv.2, ?_, ?_, ?_⟩
      · rw [findCell, h1]
        simp only [hf]
      · exact Prod.mk.eta ▸ List.mem_of_find?_eq_some hf
      · have := List.find?_some hf
        simpa using this
  · intro h1 h2 kv₀ hkv₀ hsub
    have hf2 : m.find? (fun kv => lowerStr kv.1 = lowerStr name) = none := by
      rw [List.find?_eq_none]
      intro kv hkv
      simp [h2 kv hkv]
    rcases hf : m.find? (fun kv => strContains (lowerStr kv.1) (lowerStr name) ||
        strContains (lowerStr name) (lowerStr kv.1)) with _ | kv
    · exfalso
      have := List.find?_eq_none.mp hf kv₀ hkv₀
      exact this hsub
    · refine ⟨kv.1, kv.2, ?_, ?_, ?_⟩
      · rw [findCell, h1]
        simp only [hf2, hf]
      · exact Prod.mk.eta ▸ List.mem_of_find?_eq_some hf
      · have := List.find?_some hf
        simpa using this
  · intro h1 h2 h3
    have ha : assocFind m name = none := assocFind_eq_none h1
    have hf2 : m.find? (fun kv => lowerStr kv.1 = lowerStr name) = none := by
      rw [List.find?_eq_none]
      intro kv hkv
      simp [h2 kv hkv]
    have hf3 : m.find? (fun kv => strContains (lowerStr kv.1) (lowerStr name) ||
        strContains (lowerStr name) (lowerStr kv.1)) = none := by
      rw [List.find?_eq_none]
      intro kv hkv
      simp only [h3 kv hkv]
      simp
    rw [findCell, ha]
    simp only [hf2, hf3]
  · intro st c rest h
    have hskip : buildConnection st c = (st, []) := by
      rcases h with h | h
      · rcases hto : findCell st.cellMap c.«to» with _ | tv <;>
          simp only [buildConnection, h, hto]
      · rcases hfrom : findCell st.cellMap c.«from» with _ | fv <;>
          simp only [buildConnection, h, hfrom]
    rw [buildConnections, hskip]
    simp

/-- C5 witness instantiation: in the registry `m0` below, `"VNET-HUB"`
resolves by the case-insensitive tier and a never-registered name yields
`none`. -/
theorem azC5_resolution_tiers_witness :
    (assocFind stObs.cellMap "A" = some ⟨2, .p1, ⟨50, 50⟩⟩ →
      findCell stObs.cellMap "A" = some ⟨2, .p1, ⟨50, 50⟩⟩) ∧
    findCell stObs.cellMap "A" = some ⟨2, .p1, ⟨50, 50⟩⟩ :=
  ⟨(azC5_resolution_tiers stObs.cellMap "A").1 ⟨2, .p1, ⟨50, 50⟩⟩,
   (azC5_resolution_tiers stObs.cellMap "A").1 ⟨2, .p1, ⟨50, 50⟩⟩ (by decide)⟩

/-! ## Claim C8 — unknown resource type -/

theorem generatePage_base_mem (g : Nat) (pageName : String) (arch : Architecture) :
    XCell.baseCell "0" none ∈ (generatePage g pageName arch).2.2.cells ∧
    XCell.baseCell "1" (some "0") ∈ (generatePage g pageName arch).2.2.cells := by
  simp only [generatePage]
  constructor <;> simp

theorem generatePages_length (g : Nat) (ps : List DiagramPage) :
    (generatePages g ps).2.length = ps.length := by
  induction ps generalizing g with
  | nil => rfl
  | cons p rest ih =>
    simp only [generatePages]
    simp [ih]

theorem generatePages_mem {g : Nat} {ps : List DiagramPage} {p : PageOut}
    (h : p ∈ (generatePages g ps).2) :
    ∃ g' q, q ∈ ps ∧ p = (generatePage g' q.name (pageArchOf q)).2.2 := by
  induction ps generalizing g with
  | nil => simp [generatePages] at h
  | cons q rest ih =>
    simp only [generatePages] at h
    rcases List.mem_cons.mp h with rfl | h
    · exact ⟨g, q, List.mem_cons_self _ _, rfl⟩
    · rcases ih h with ⟨g', q', hq', hp⟩
      exact ⟨g', q', List.mem_cons_of_mem _ hq', hp⟩

theorem generate_pages_shape (now : String) (arch : Architecture) :
    (generate now arch).pages ≠ [] ∧
    ∀ p ∈ (generate now arch).pages,
      XCell.baseCell "0" none ∈ p.cells ∧ XCell.baseCell "1" (some "0") ∈ p.cells := by
  rcases hp : arch.pages with _ | pages
  · simp only [generate, hp]
    refine ⟨by simp, ?_⟩
    intro p hmem
    rcases List.mem_singleton.mp hmem with rfl
    exact generatePage_base_mem _ _ _
  · simp only [generate, hp]
    split
    · rename_i hlen
      refine ⟨?_, ?_⟩
      · show (generatePages 0 pages).2 ≠ []
        intro hnil
        have := generatePages_length 0 pages
        rw [hnil] at this
        simp at this
        omega
      · intro p hmem
        rcases generatePages_mem (show p ∈ (generatePages 0 pages).2 from hmem) with
          ⟨g', q, _, rfl⟩
        exact generatePage_base_mem _ _ _
    · refine ⟨by simp, ?_⟩
      intro p hmem
      rcases List.mem_singleton.mp hmem with rfl
      exact generatePage_base_mem _ _ _

/-- C8: a resource whose type is not in the catalog is skipped — it emits
no cell and leaves the builder state (including the used-type set feeding
the legend) untouched; no legend item ever carries a non-catalog type;
and generation always returns a non-empty page list whose every page
still holds the required base cells. -/
theorem azC8_unknown_type_skipped (st : St) (r : Resource) (parentId : PId) (pos : Position)
    (h : assocFind RESOURCES r.type = none) :
    buildResource st r parentId pos = (st, []) ∧
    (∀ used, r.type ∉ (legendItems used).map Prod.fst) ∧
    (∀ now arch, (generate now arch).pages ≠ [] ∧
      ∀ p ∈ (generate now arch).pages,
        XCell.baseCell "0" none ∈ p.cells ∧ XCell.baseCell "1" (some "0") ∈ p.cells) := by
  refine ⟨?_, ?_, ?_⟩
  · simp only [buildResource, h]
  · intro used hmem
    rcases List.mem_map.mp hmem with ⟨td, hd, ht⟩
    rcases List.mem_filterMap.mp (mem_sortBy.mp hd) with ⟨t', ht', hfm⟩
    rcases ho : assocFind RESOURCES t' with _ | d'
    · rw [ho] at hfm
      cases hfm
    · rw [ho] at hfm
      simp only [Option.map_some'] at hfm
      injection hfm with hfm
      subst hfm
      simp only at ht
      rw [ht] at ho
      rw [h] at ho
      cases ho
  · intro now arch
    exact generate_pages_shape now arch

/-- C8 witness instantiation at a concrete unknown type. -/
theorem azC8_unknown_type_skipped_witness :
    assocFind RESOURCES "fluxCapacitor" = none ∧
    buildResource St.empty ⟨"fluxCapacitor", "fc1", none⟩ .p1 ⟨0, 0⟩ = (St.empty, []) :=
  ⟨by decide,
   (azC8_unknown_type_skipped St.empty ⟨"fluxCapacitor", "fc1", none⟩ .p1 ⟨0, 0⟩ (by decide)).1⟩

/-! ## Claim C4 — obstruction-aware edge routing -/

/-- Membership characterization of the obstruction scan (coordinates
doubled as in `getAbsoluteCenter2`: threshold 200, margin 100). -/
theorem findObstructing_mem (st : St) (f t : CellInfo) (b : ContainerBounds) :
    b ∈ findObstructingContainers st f t ↔
      (200 ≤ max (getAbsoluteCenter2 st f).2 (getAbsoluteCenter2 st t).2 -
          min (getAbsoluteCenter2 st f).2 (getAbsoluteCenter2 st t).2 ∧
       ∃ id, (id, b) ∈ st.containerAbsBounds ∧
         PId.gen id ∉ getAncestorIds st f ++ getAncestorIds st t ∧
         (∀ sb, assocFind st.containerAbsBounds f.id = some sb → isInsideBounds b sb = false) ∧
         (∀ tb, assocFind st.containerAbsBounds t.id = some tb → isInsideBounds b tb = false) ∧
         min (getAbsoluteCenter2 st f).2 (getAbsoluteCenter2 st t).2 < 2 * b.y + b.height ∧
         2 * b.y + b.height < max (getAbsoluteCenter2 st f).2 (getAbsoluteCenter2 st t).2 ∧
         min (getAbsoluteCenter2 st f).1 (getAbsoluteCenter2 st t).1 - 100 ≤
           2 * (b.x + b.width) ∧
         2 * b.x ≤ max (getAbsoluteCenter2 st f).1 (getAbsoluteCenter2 st t).1 + 100) := by
  rw [findObstructingContainers]
  by_cases hsep : max (getAbsoluteCenter2 st f).2 (getAbsoluteCenter2 st t).2 -
      min (getAbsoluteCenter2 st f).2 (getAbsoluteCenter2 st t).2 < 200
  · simp only [hsep, if_true]
    simp only [List.not_mem_nil, false_iff]
    intro hcon
    exact absurd hsep (not_lt.mpr hcon.1)
  · simp only [hsep, if_false]
    rw [List.mem_filterMap]
    constructor
    · rintro ⟨idb, hmem, hfn⟩
      refine ⟨not_lt.mp hsep, idb.1, ?_⟩
      by_cases hskip : PId.gen idb.1 ∈ getAncestorIds st f ++ getAncestorIds st t
      · rw [if_pos hskip] at hfn
        cases hfn
      rw [if_neg hskip] at hfn
      by_cases hsrc : (match assocFind st.containerAbsBounds f.id with
          | some sb => isInsideBounds idb.2 sb
          | none => false) = true
      · rw [if_pos hsrc] at hfn
        cases hfn
      rw [if_neg hsrc] at hfn
      by_cases htgt : (match assocFind st.containerAbsBounds t.id with
          | some tb => isInsideBounds idb.2 tb
          | none => false) = true
      · rw [if_pos htgt] at hfn
        cases hfn
      rw [if_neg htgt] at hfn
      by_cases hmid : 2 * idb.2.y + idb.2.height ≤
            min (getAbsoluteCenter2 st f).2 (getAbsoluteCenter2 st t).2 ∨
          2 * idb.2.y + idb.2.height ≥
            max (getAbsoluteCenter2 st f).2 (getAbsoluteCenter2 st t).2
      · rw [if_pos hmid] at hfn
        cases hfn
      rw [if_neg hmid] at hfn
      by_cases hx : 2 * (idb.2.x + idb.2.width) <
            min (getAbsoluteCenter2 st f).1 (getAbsoluteCenter2 st t).1 - 100 ∨
          2 * idb.2.x > max (getAbsoluteCenter2 st f).1 (getAbsoluteCenter2 st t).1 + 100
      · rw [if_pos hx] at hfn
        cases hfn
      rw [if_neg hx] at hfn
      injection hfn with hfn
      push_neg at hmid hx
      subst hfn
      refine ⟨Prod.mk.eta ▸ hmem, hskip, ?_, ?_, hmid.1, hmid.2, hx.1, hx.2⟩
      · intro sb hsb
        rw [hsb] at hsrc
        simpa using hsrc
      · intro tb htb
        rw [htb] at htgt
        simpa using htgt
    · rintro ⟨hge, id, hmem, hskip, hsrc, htgt, hmid1, hmid2, hx1, hx2⟩
      refine ⟨(id, b), hmem, ?_⟩
      rw [if_neg hskip]
      have hsrc' : (match assocFind st.containerAbsBounds f.id with
          | some sb => isInsideBounds b sb
          | none => false) = false := by
        rcases hs : assocFind st.containerAbsBounds f.id with _ | sb
        · rfl
        · exact hsrc sb hs
      have htgt' : (match assocFind st.containerAbsBounds t.id with
          | some tb => isInsideBounds b tb
          | none => false) = false := by
        rcases hs : assocFind st.containerAbsBounds t.id with _ | tb
        · rfl
        · exact htgt tb hs
      rw [if_neg (by simp [hsrc'])]
      rw [if_neg (by simp [htgt'])]
      rw [if_neg (by push_neg; exact ⟨hmid1, hmid2⟩)]
      rw [if_neg (by push_neg; exact ⟨hx1, hx2⟩)]

/-- C4: for a resolved connection, a vertical separation of the endpoint
centres below the fixed threshold (100 pixels; 200 in the doubled
coordinates of `getAbsoluteCenter2`) yields an edge with no waypoints;
when at least one registered container obstructs, the edge leaves and
enters at the right edges (`exitX=1 … entryX=1 …`) and carries exactly
two waypoints sharing the X coordinate `max(source right edge, target
right edge, max obstruction right edge) + 40`, each at its endpoint's
absolute Y-centre; and a container obstructs exactly when it is not an
ancestor of either endpoint, is not geometrically inside either
endpoint's bounds, has its vertical midpoint strictly between the
endpoint centres, and horizontally overlaps the endpoints' X-range
widened by the fixed margin (50 pixels; 100 doubled). -/
theorem azC4_obstruction_routing (st : St) (conn : Connection) (f t : CellInfo)
    (hf : findCell st.cellMap conn.«from» = some f)
    (ht : findCell st.cellMap conn.«to» = some t) :
    (max (getAbsoluteCenter2 st f).2 (getAbsoluteCenter2 st t).2 -
        min (getAbsoluteCenter2 st f).2 (getAbsoluteCenter2 st t).2 < 200 →
      ∃ eid, (buildConnection st conn).2 =
        [XCell.edge eid .p1 ((conn.label).getD "")
          (connBaseStyle ++ connStyleSuffix conn.style) f.id t.id []]) ∧
    (findObstructingContainers st f t ≠ [] →
      ∃ eid, (buildConnection st conn).2 =
        [XCell.edge eid .p1 ((conn.label).getD "")
          (connBaseStyle ++ connStyleSuffix conn.style ++ exitEntryStyle) f.id t.id
          [(((max (max (getAbsoluteRightEdge st f) (getAbsoluteRightEdge st t))
               ((findObstructingContainers st f t).foldl (fun m b => max m (b.x + b.width)) 0) +
               40 : Nat) : ℚ), half (getAbsoluteCenter2 st f).2),
           (((max (max (getAbsoluteRightEdge st f) (getAbsoluteRightEdge st t))
               ((findObstructingContainers st f t).foldl (fun m b => max m (b.x + b.width)) 0) +
               40 : Nat) : ℚ), half (getAbsoluteCenter2 st t).2)]]) ∧
    (∀ b, b ∈ findObstructingContainers st f t ↔
      (200 ≤ max (getAbsoluteCenter2 st f).2 (getAbsoluteCenter2 st t).2 -
          min (getAbsoluteCenter2 st f).2 (getAbsoluteCenter2 st t).2 ∧
       ∃ id, (id, b) ∈ st.containerAbsBounds ∧
         PId.gen id ∉ getAncestorIds st f ++ getAncestorIds st t ∧
         (∀ sb, assocFind st.containerAbsBounds f.id = some sb → isInsideBounds b sb = false) ∧
         (∀ tb, assocFind st.containerAbsBounds t.id = some tb → isInsideBounds b tb = false) ∧
         min (getAbsoluteCenter2 st f).2 (getAbsoluteCenter2 st t).2 < 2 * b.y + b.height ∧
         2 * b.y + b.height < max (getAbsoluteCenter2 st f).2 (getAbsoluteCenter2 st t).2 ∧
         min (getAbsoluteCenter2 st f).1 (getAbsoluteCenter2 st t).1 - 100 ≤
           2 * (b.x + b.width) ∧
         2 * b.x ≤ max (getAbsoluteCenter2 st f).1 (getAbsoluteCenter2 st t).1 + 100)) := by
  refine ⟨?_, ?_, fun b => findObstructing_mem st f t b⟩
  · intro hsep
    have hobs : findObstructingContainers st f t = [] := by
      rw [findObstructingContainers, if_pos hsep]
    refine ⟨st.idCounter + 1, ?_⟩
    rcases hstyle : conn.style with _ | s
    · simp only [buildConnection, hf, ht, hstyle, hobs, nextId]
      simp
    · by_cases hs : s = ""
      · simp only [buildConnection, hf, ht, hstyle, if_pos hs]
        simp only [hobs, nextId]
        simp
      · simp only [buildConnection, hf, ht, hstyle, if_neg hs]
        rw [show findObstructingContainers
            { st with usedConnectionStyles := addUsed st.usedConnectionStyles s } f t =
            findObstructingContainers st f t from rfl]
        simp only [hobs, nextId]
        simp
  · intro hobs
    have hlen : 0 < (findObstructingContainers st f t).length := List.length_pos.mpr hobs
    refine ⟨st.idCounter + 1, ?_⟩
    rcases hstyle : conn.style with _ | s
    · simp only [buildConnection, hf, ht, hstyle, nextId]
      simp only [if_pos hlen]
      rfl
    · by_cases hs : s = ""
      · simp only [buildConnection, hf, ht, hstyle, if_pos hs, nextId]
        simp only [if_pos hlen]
        rfl
      · simp only [buildConnection, hf, ht, hstyle, if_neg hs]
        rw [show findObstructingContainers
            { st with usedConnectionStyles := addUsed st.usedConnectionStyles s } f t =
            findObstructingContainers st f t from rfl]
        simp only [nextId, if_pos hlen]
        rfl

/-- C4 witness: three stacked containers A/B/C; the A→C connection is
obstructed by B alone and routed with exactly two right-side waypoints at
x = 290 (right edges 250, clearance 40), at the endpoint Y-centres 100
and 450. -/
theorem azC4_obstruction_routing_witness :
    findCell stObs.cellMap "A" = some ⟨2, .p1, ⟨50, 50⟩⟩ ∧
    findCell stObs.cellMap "C" = some ⟨4, .p1, ⟨50, 400⟩⟩ ∧
    findObstructingContainers stObs ⟨2, .p1, ⟨50, 50⟩⟩ ⟨4, .p1, ⟨50, 400⟩⟩ =
      [⟨50, 220, 200, 100⟩] ∧
    (∃ eid, (buildConnection stObs ⟨"A", "C", none, none⟩).2 =
      [XCell.edge eid .p1 "" (connBaseStyle ++ connStyleSuffix none ++ exitEntryStyle) 2 4
        [(((290 : Nat) : ℚ), half 200), (((290 : Nat) : ℚ), half 900)]]) := by
  refine ⟨by decide, by decide, by decide, ?_⟩
  have h := (azC4_obstruction_routing stObs ⟨"A", "C", none, none⟩
      ⟨2, .p1, ⟨50, 50⟩⟩ ⟨4, .p1, ⟨50, 400⟩⟩ (by decide) (by decide)).2.1 (by decide)
  rcases h with ⟨eid, he⟩
  refine ⟨eid, ?_⟩
  rw [he]
  rfl

/-! ## BOut lemmas: state evolution of every build function -/

theorem buildResource_bout (st : St) (r : Resource) (pid : PId) (pos : Position) :
    BOut st (buildResource st r pid pos) [r.type] := by
  rcases hd : assocFind RESOURCES r.type with _ | rdef
  · simp only [buildResource, hd]
    refine ⟨Nat.le_refl _, ?_, id, idsSpec_nil _ _, fun hk => ⟨hk, boundsExtends_refl _⟩⟩
    intro t
    constructor
    · exact Or.inl
    · rintro (h | ⟨hk, ht⟩)
      · exact h
      · rcases List.mem_singleton.mp ht with rfl
        rw [hd] at hk
        cases hk
  · simp only [buildResource, hd, nextId, BOut]
    refine ⟨by omega, ?_, ?_, ?_, ?_⟩
    · intro t
      rw [mem_addUsed]
      constructor
      · rintro (h | rfl)
        · exact Or.inl h
        · exact Or.inr ⟨by rw [hd]; rfl, List.mem_singleton_self _⟩
      · rintro (h | ⟨hk, ht⟩)
        · exact Or.inl h
        · rcases List.mem_singleton.mp ht with rfl
          exact Or.inr rfl
    · exact fun hn => addUsed_nodup hn _
    · exact idsSpec_single rfl (by omega) (by omega)
    · intro hk
      refine ⟨fun kb hkb => le_trans (hk kb hkb) (Nat.le_succ _), boundsExtends_refl _⟩

theorem buildGrid_bout (rs : List Resource) (st : St) (pid : PId) (baseX : Nat)
    (maxCols colW rowH col y : Nat) :
    BOut st (buildGrid st rs pid baseX maxCols colW rowH col y) (rs.map (·.type)) := by
  induction rs generalizing st col y with
  | nil =>
    simp only [buildGrid, List.map_nil]
    exact BOut_refl st
  | cons r rest ih =>
    rw [buildGrid]
    by_cases hcol : col + 1 ≥ maxCols
    · simp only [hcol, if_true, List.map_cons]
      exact BOut_seq (buildResource_bout st r pid ⟨baseX + col * colW, y⟩) (ih _ _ _)
    · simp only [hcol, if_false, List.map_cons]
      exact BOut_seq (buildResource_bout st r pid ⟨baseX + col * colW, y⟩) (ih _ _ _)

theorem buildResourceList_bout (st : St) (resources : List Resource) (pid : PId)
    (pos : Position) :
    BOut st (buildResourceList st resources pid pos) (resources.map (·.type)) :=
  buildGrid_bout resources st pid pos.x 4 130 110 0 pos.y

/-- Two ids in the window, in order. -/
theorem idsSpec_pair {lo hi : Nat} {cs : List XCell} {i j : Nat}
    (hids : idsOf cs = [i, j]) (hij : i < j) (h1 : lo < i) (h2 : j ≤ hi) :
    idsSpec lo hi cs := by
  constructor
  · rw [hids]
    exact List.chain'_cons.mpr ⟨hij, List.chain'_singleton j⟩
  · intro k hk
    rw [hids] at hk
    rcases List.mem_cons.mp hk with rfl | hk
    · exact ⟨h1, by omega⟩
    · rcases List.mem_singleton.mp hk with rfl
      exact ⟨by omega, h2⟩

/-- State and emission of the shared container prelude of the builders:
one fresh id, one vertex cell, one fresh bounds entry, and an arbitrary
cell-map update. -/
theorem BOut_containerStep (st : St) (cm : List (String × CellInfo)) (ucs : List String)
    (bnd : ContainerBounds) (pid : PId) (v s : String) (g : Geom) :
    BOut st
      (⟨cm, st.idCounter + 1, st.usedResourceTypes, ucs,
        mapSet st.containerAbsBounds (st.idCounter + 1) bnd⟩,
       [XCell.vertex (st.idCounter + 1) pid v s g []]) [] := by
  refine ⟨Nat.le_succ _, fun t => by simp, id,
    idsSpec_single rfl (Nat.lt_succ_self _) (Nat.le_refl _),
    fun hk => ⟨boundsKeysLE_mapSet hk (Nat.le_succ _) (Nat.le_refl _) bnd,
      boundsExtends_mapSet_fresh hk (Nat.lt_succ_self _) bnd⟩⟩

/-- Container prelude followed by the decorative icon cell (`buildVNet`,
`buildSubscription`, `buildOnPremises`). -/
theorem BOut_containerIconStep (st : St) (cm : List (String × CellInfo)) (ucs : List String)
    (bnd : ContainerBounds) (pid pid2 : PId) (v s v2 s2 : String) (g g2 : Geom) :
    BOut st
      (⟨cm, st.idCounter + 1 + 1, st.usedResourceTypes, ucs,
        mapSet st.containerAbsBounds (st.idCounter + 1) bnd⟩,
       [XCell.vertex (st.idCounter + 1) pid v s g [],
        XCell.vertex (st.idCounter + 1 + 1) pid2 v2 s2 g2 []]) [] := by
  refine ⟨le_trans (Nat.le_succ _) (Nat.le_succ _), fun t => by simp, id,
    idsSpec_pair rfl (Nat.lt_succ_self _) (Nat.lt_succ_self _) (Nat.le_refl _),
    fun hk => ⟨boundsKeysLE_mapSet hk (le_trans (Nat.le_succ _) (Nat.le_succ _))
        (Nat.le_succ _) bnd,
      boundsExtends_mapSet_fresh hk (Nat.lt_succ_self _) bnd⟩⟩

/-- A single fresh vertex with no bounds registration (title block, legend
header). -/
theorem BOut_vertexStep (st : St) (pid : PId) (v s : String) (g : Geom) :
    BOut st
      (⟨st.cellMap, st.idCounter + 1, st.usedResourceTypes, st.usedConnectionStyles,
        st.containerAbsBounds⟩,
       [XCell.vertex (st.idCounter + 1) pid v s g []]) [] := by
  refine ⟨Nat.le_succ _, fun t => by simp, id,
    idsSpec_single rfl (Nat.lt_succ_self _) (Nat.le_refl _),
    fun hk => ⟨fun kb hkb => le_trans (hk kb hkb) (Nat.le_succ _), boundsExtends_refl _⟩⟩

/-- Two fresh vertices with no bounds registration (legend icon/label
pairs). -/
theorem BOut_vertexPairStep (st : St) (pid pid2 : PId) (v s v2 s2 : String) (g g2 : Geom) :
    BOut st
      (⟨st.cellMap, st.idCounter + 1 + 1, st.usedResourceTypes, st.usedConnectionStyles,
        st.containerAbsBounds⟩,
       [XCell.vertex (st.idCounter + 1) pid v s g [],
        XCell.vertex (st.idCounter + 1 + 1) pid2 v2 s2 g2 []]) [] := by
  refine ⟨le_trans (Nat.le_succ _) (Nat.le_succ _), fun t => by simp, id,
    idsSpec_pair rfl (Nat.lt_succ_self _) (Nat.lt_succ_self _) (Nat.le_refl _),
    fun hk => ⟨fun kb hkb => le_trans (hk kb hkb) (le_trans (Nat.le_succ _) (Nat.le_succ _)),
      boundsExtends_refl _⟩⟩

/-- A single fresh edge, with an arbitrary connection-style set update
(`buildConnection`). -/
theorem BOut_edgeStep (st : St) (ucs : List String) (pid : PId) (v s : String)
    (src tgt : Nat) (pts : List (ℚ × ℚ)) :
    BOut st
      (⟨st.cellMap, st.idCounter + 1, st.usedResourceTypes, ucs, st.containerAbsBounds⟩,
       [XCell.edge (st.idCounter + 1) pid v s src tgt pts]) [] := by
  refine ⟨Nat.le_succ _, fun t => by simp, id,
    idsSpec_single rfl (Nat.lt_succ_self _) (Nat.le_refl _),
    fun hk => ⟨fun kb hkb => le_trans (hk kb hkb) (Nat.le_succ _), boundsExtends_refl _⟩⟩

/-- A fresh edge followed by a fresh vertex (legend connection rows). -/
theorem BOut_edgeVertexPairStep (st : St) (pid pid2 : PId) (v s v2 s2 : String)
    (src tgt : Nat) (pts : List (ℚ × ℚ)) (g2 : Geom) :
    BOut st
      (⟨st.cellMap, st.idCounter + 1 + 1, st.usedResourceTypes, st.usedConnectionStyles,
        st.containerAbsBounds⟩,
       [XCell.edge (st.idCounter + 1) pid v s src tgt pts,
        XCell.vertex (st.idCounter + 1 + 1) pid2 v2 s2 g2 []]) [] := by
  refine ⟨le_trans (Nat.le_succ _) (Nat.le_succ _), fun t => by simp, id,
    idsSpec_pair rfl (Nat.lt_succ_self _) (Nat.lt_succ_self _) (Nat.le_refl _),
    fun hk => ⟨fun kb hkb => le_trans (hk kb hkb) (le_trans (Nat.le_succ _) (Nat.le_succ _)),
      boundsExtends_refl _⟩⟩

/-- The two structural base cells emit no numeric ids and change nothing. -/
theorem BOut_baseCells (st : St) :
    BOut st (st, [XCell.baseCell "0" none, XCell.baseCell "1" (some "0")]) [] :=
  ⟨Nat.le_refl _, fun t => by simp, id, idsSpec_of_ids_nil rfl,
   fun hk => ⟨hk, boundsExtends_refl _⟩⟩

/-- Composition shaped like a builder that emits one prelude cell and one
body. -/
theorem BOut_cons1 {st₀ st₁ : St} {c : XCell} {T : List String}
    (p : St × List XCell)
    (h1 : BOut st₀ (st₁, [c]) []) (h2 : BOut st₁ p T) :
    BOut st₀ (p.1, c :: p.2) T :=
  BOut_seq h1 h2

/-- Composition shaped like a builder that emits one prelude cell and two
sequential bodies. -/
theorem BOut_cons2 {st₀ st₁ : St} {c : XCell} {T₁ T₂ : List String}
    (p q : St × List XCell)
    (h1 : BOut st₀ (st₁, [c]) []) (h2 : BOut st₁ p T₁) (h3 : BOut p.1 q T₂) :
    BOut st₀ (q.1, c :: p.2 ++ q.2) (T₁ ++ T₂) :=
  BOut_seq (BOut_seq h1 h2) h3

/-- Composition shaped like a builder that emits a container-and-icon
prelude and one body. -/
theorem BOut_icon1 {st₀ st₁ : St} {c d : XCell} {T : List String}
    (p : St × List XCell)
    (h1 : BOut st₀ (st₁, [c, d]) []) (h2 : BOut st₁ p T) :
    BOut st₀ (p.1, c :: d :: p.2) T :=
  BOut_seq h1 h2

theorem buildAZGroups_bout (azs : List AZGroup) (st : St) (subnetId : Nat)
    (nm : String) (azX : Nat) :
    BOut st (buildAZGroups st azs subnetId nm azX)
      (azs.flatMap (fun az => az.resources.map (·.type))) := by
  induction azs generalizing st azX with
  | nil => exact BOut_refl st
  | cons az rest ih =>
    simp only [buildAZGroups, nextId, addContainer, List.flatMap_cons]
    exact BOut_cons2 _ _ (BOut_containerStep ..) (buildGrid_bout ..) (ih ..)

theorem buildSubnet_bout (st : St) (subnet : Subnet) (vnetId : Nat) (pos : Position) :
    BOut st (buildSubnet st subnet vnetId pos) (leafTypesSubnet subnet) := by
  rcases ha : subnet.availabilityZones with _ | azs
  · simp only [buildSubnet, nextId, addContainer, ha, leafTypesSubnet, Option.getD_none,
      List.flatMap_nil]
    rcases hr : subnet.resources with _ | res
    · simp only [hr]
      exact BOut_cons2 _ _ (BOut_containerStep ..) (BOut_refl _) (BOut_refl _)
    · simp only [hr, Option.getD_some]
      exact BOut_cons2 _ _ (BOut_containerStep ..) (BOut_refl _) (buildGrid_bout ..)
  · by_cases hlen : azs.length > 0
    · simp only [buildSubnet, nextId, addContainer, ha, leafTypesSubnet, Option.getD_some,
        if_pos hlen]
      rcases hr : subnet.resources with _ | res
      · simp only [hr]
        exact BOut_cons2 _ _ (BOut_containerStep ..) (buildAZGroups_bout ..) (BOut_refl _)
      · simp only [hr]
        exact BOut_cons2 _ _ (BOut_containerStep ..) (buildAZGroups_bout ..)
          (buildGrid_bout ..)
    · have haz : azs = [] := List.length_eq_zero.mp (by omega)
      subst haz
      simp only [buildSubnet, nextId, addContainer, ha, leafTypesSubnet, Option.getD_some,
        List.flatMap_nil]
      rcases hr : subnet.resources with _ | res
      · simp only [hr]
        exact BOut_cons2 _ _ (BOut_containerStep ..) (BOut_refl _) (BOut_refl _)
      · simp only [hr]
        exact BOut_cons2 _ _ (BOut_containerStep ..) (BOut_refl _) (buildGrid_bout ..)

theorem buildSubnetsLoop_bout (subnets : List Subnet) (st : St) (vnetId : Nat)
    (isHub : Bool) (sx sy : Nat) :
    BOut st (buildSubnetsLoop st subnets vnetId isHub sx sy)
      (subnets.flatMap leafTypesSubnet) := by
  induction subnets generalizing st sx sy with
  | nil => exact BOut_refl st
  | cons s rest ih =>
    cases isHub <;>
      simp only [buildSubnetsLoop, List.flatMap_cons, Bool.false_eq_true, if_false,
        if_true] <;>
      exact BOut_seq (buildSubnet_bout ..) (ih ..)

theorem buildVNet_bout (st : St) (v : RGResource) (rgId : Nat) (pos : Position) :
    BOut st (buildVNet st v rgId pos) (leafTypesVNet v) := by
  rcases hs : v.subnets with _ | subnets
  · simp only [buildVNet, nextId, addContainer, addIcon, hs, leafTypesVNet,
      Option.getD_none, List.flatMap_nil]
    exact BOut_containerIconStep ..
  · simp only [buildVNet, nextId, addContainer, addIcon, hs, leafTypesVNet,
      Option.getD_some]
    exact BOut_icon1 _ (BOut_containerIconStep ..) (buildSubnetsLoop_bout ..)

theorem buildVNetsLoop_bout (vnets : List RGResource) (st : St) (rgId vnetY : Nat) :
    BOut st (buildVNetsLoop st vnets rgId vnetY) (vnets.flatMap leafTypesVNet) := by
  induction vnets generalizing st vnetY with
  | nil => exact BOut_refl st
  | cons v rest ih =>
    simp only [buildVNetsLoop, List.flatMap_cons]
    exact BOut_seq (buildVNet_bout ..) (ih ..)

theorem buildResourceGroup_bout (st : St) (rg : ResourceGroup) (cid : PId) (pos : Position) :
    BOut st (buildResourceGroup st rg cid pos) (leafTypesRG rg) := by
  simp only [buildResourceGroup, nextId, addContainer]
  refine BOut_sub (BOut_cons2 _ _ (BOut_containerStep ..) (buildVNetsLoop_bout ..)
    (buildGrid_bout ..)) ?_
  intro t
  simp [leafTypesRG, List.map_map, Function.comp, RGResource.toResource]

/-- Sequencing against a stack step that also returns the running `y`
offset (`buildRGStack`). -/
theorem BOut_seqT {st₀ : St} {T₁ T₂ : List String}
    (p : St × List XCell) (q : Nat × St × List XCell)
    (h1 : BOut st₀ p T₁) (h2 : BOut p.1 q.2 T₂) :
    BOut st₀ (q.2.1, p.2 ++ q.2.2) (T₁ ++ T₂) :=
  BOut_seq h1 h2

theorem buildRGStack_bout (rgs : List ResourceGroup) (st : St) (regionId rgX rgY : Nat) :
    BOut st (buildRGStack st rgs regionId rgX rgY).2 (rgs.flatMap leafTypesRG) := by
  induction rgs generalizing st rgY with
  | nil => exact BOut_refl st
  | cons rg rest ih =>
    simp only [buildRGStack, List.flatMap_cons]
    exact BOut_seqT _ _ (buildResourceGroup_bout ..) (ih ..)

/-- Container prelude, a stack body carrying a `y` offset, and a trailing
body (`buildRegion`). -/
theorem BOut_cons2R {st₀ st₁ : St} {c : XCell} {T₁ T₂ : List String}
    (p : Nat × St × List XCell) (q : St × List XCell)
    (h1 : BOut st₀ (st₁, [c]) []) (h2 : BOut st₁ p.2 T₁) (h3 : BOut p.2.1 q T₂) :
    BOut st₀ (q.1, c :: p.2.2 ++ q.2) (T₁ ++ T₂) :=
  BOut_seq (BOut_seq h1 h2) h3

theorem buildRegion_bout (st : St) (region : Region) (pos : Position) (cid : PId) :
    BOut st (buildRegion st region pos cid) (leafTypesRegion region) := by
  rcases hrg : region.resourceGroups with _ | rgs <;>
    rcases hres : region.resources with _ | res <;>
    simp only [buildRegion, nextId, addContainer, hrg, hres, leafTypesRegion,
      Option.getD_none, Option.getD_some, List.flatMap_nil, List.map_nil]
  · exact BOut_cons2 _ _ (BOut_containerStep ..) (BOut_refl _) (BOut_refl _)
  · exact BOut_cons2 _ _ (BOut_containerStep ..) (BOut_refl _) (buildResourceList_bout ..)
  · exact BOut_cons2R _ _ (BOut_containerStep ..) (buildRGStack_bout ..) (BOut_refl _)
  · exact BOut_cons2R _ _ (BOut_containerStep ..) (buildRGStack_bout ..)
      (buildResourceList_bout ..)

theorem buildRegionsRow_bout (regions : List Region) (st : St) (subId rx ry : Nat) :
    BOut st (buildRegionsRow st regions subId rx ry) (regions.flatMap leafTypesRegion) := by
  induction regions generalizing st rx with
  | nil => exact BOut_refl st
  | cons r rest ih =>
    simp only [buildRegionsRow, List.flatMap_cons]
    exact BOut_seq (buildRegion_bout ..) (ih ..)

theorem buildRGRow_bout (rgs : List ResourceGroup) (st : St) (subId rx ry : Nat) :
    BOut st (buildRGRow st rgs subId rx ry) (rgs.flatMap leafTypesRG) := by
  induction rgs generalizing st rx with
  | nil => exact BOut_refl st
  | cons rg rest ih =>
    simp only [buildRGRow, List.flatMap_cons]
    exact BOut_seq (buildResourceGroup_bout ..) (ih ..)

theorem buildSubscription_bout (st : St) (sub : Subscription) (pos : Position) :
    BOut st (buildSubscription st sub pos) (leafTypesSub sub) := by
  rcases hr : sub.regions with _ | regions
  · rcases hg : sub.resourceGroups with _ | rgs <;>
      simp only [buildSubscription, nextId, addContainer, addIcon, hr, hg, leafTypesSub,
        Option.getD_none, Option.getD_some, List.flatMap_nil]
    · exact BOut_containerIconStep ..
    · exact BOut_icon1 _ (BOut_containerIconStep ..) (buildRGRow_bout ..)
  · by_cases hlen : regions.length > 0
    · simp only [buildSubscription, nextId, addContainer, addIcon, hr, leafTypesSub,
        if_pos hlen]
      exact BOut_icon1 _ (BOut_containerIconStep ..) (buildRegionsRow_bout ..)
    · rcases hg : sub.resourceGroups with _ | rgs <;>
        simp only [buildSubscription, nextId, addContainer, addIcon, hr, hg, leafTypesSub,
          if_neg hlen, Option.getD_none, Option.getD_some, List.flatMap_nil]
      · exact BOut_containerIconStep ..
      · exact BOut_icon1 _ (BOut_containerIconStep ..) (buildRGRow_bout ..)

theorem buildOnPremResources_bout (resources : List Resource) (st : St) (opId resY : Nat) :
    BOut st (buildOnPremResources st resources opId resY) (resources.map (·.type)) := by
  induction resources generalizing st resY with
  | nil => exact BOut_refl st
  | cons r rest ih =>
    simp only [buildOnPremResources, List.map_cons]
    exact BOut_seq (buildResource_bout ..) (ih ..)

theorem buildOnPremises_bout (st : St) (op : OnPremises) (pos : Position) :
    BOut st (buildOnPremises st op pos) ((op.resources.getD []).map (·.type)) := by
  rcases hr : op.resources with _ | res
  · simp only [buildOnPremises, nextId, addContainer, addIcon, hr, Option.getD_none,
      List.map_nil]
    exact BOut_containerIconStep ..
  · simp only [buildOnPremises, nextId, addContainer, addIcon, hr, Option.getD_some]
    exact BOut_icon1 _ (BOut_containerIconStep ..) (buildOnPremResources_bout ..)

theorem buildOnPremRow_bout (ops : List OnPremises) (st : St) (ox oy : Nat) :
    BOut st (buildOnPremRow st ops ox oy)
      (ops.flatMap (fun op => (op.resources.getD []).map (·.type))) := by
  induction ops generalizing st ox with
  | nil => exact BOut_refl st
  | cons op rest ih =>
    simp only [buildOnPremRow, List.flatMap_cons]
    exact BOut_seq (buildOnPremises_bout ..) (ih ..)

theorem buildGlobalResources_bout (resources : List Resource) (st : St) (pos : Position) :
    BOut st (buildGlobalResources st resources pos) (resources.map (·.type)) := by
  induction resources generalizing st pos with
  | nil => exact BOut_refl st
  | cons r rest ih =>
    simp only [buildGlobalResources, List.map_cons]
    exact BOut_seq (buildResource_bout ..) (ih ..)

theorem buildConnection_bout (st : St) (conn : Connection) :
    BOut st (buildConnection st conn) [] := by
  rcases hf : findCell st.cellMap conn.«from» with _ | f
  · simp only [buildConnection, hf]
    exact BOut_refl st
  · rcases ht : findCell st.cellMap conn.«to» with _ | t
    · simp only [buildConnection, hf, ht]
      exact BOut_refl st
    · rcases hstyle : conn.style with _ | s
      · simp only [buildConnection, hf, ht, hstyle, nextId]
        split
        · exact BOut_edgeStep ..
        · exact BOut_edgeStep ..
      · by_cases hs : s = ""
        · simp only [buildConnection, hf, ht, hstyle, if_pos hs, nextId]
          split
          · exact BOut_edgeStep ..
          · exact BOut_edgeStep ..
        · simp only [buildConnection, hf, ht, hstyle, if_neg hs, nextId]
          split
          · exact BOut_edgeStep ..
          · exact BOut_edgeStep ..

theorem buildConnections_bout (conns : List Connection) (st : St) :
    BOut st (buildConnections st conns) [] := by
  induction conns generalizing st with
  | nil => exact BOut_refl st
  | cons c rest ih =>
    simp only [buildConnections]
    exact BOut_seq (buildConnection_bout ..) (ih ..)

theorem legendEntryCells_bout (items : List (String × ResourceDefinition)) (st : St)
    (legendId entryY : Nat) :
    BOut st ((legendEntryCells st items legendId entryY).1,
      (legendEntryCells st items legendId entryY).2.1) [] := by
  induction items generalizing st entryY with
  | nil => exact BOut_refl st
  | cons item rest ih =>
    simp only [legendEntryCells, nextId]
    exact BOut_icon1 _ (BOut_vertexPairStep ..) (ih ..)

theorem legendConnCells_bout (cstyles : List (String × String × Bool)) (st : St)
    (legendId entryY : Nat) :
    BOut st (legendConnCells st cstyles legendId entryY) [] := by
  induction cstyles generalizing st entryY with
  | nil => exact BOut_refl st
  | cons c rest ih =>
    simp only [legendConnCells, nextId]
    exact BOut_icon1 _ (BOut_edgeVertexPairStep ..) (ih ..)

/-- Composition shaped like the legend: prelude cell, entry body, header
cell, connection body. -/
theorem BOut_legend4 {st₀ st₁ st₂ : St} {c d : XCell}
    (p : St × List XCell × Nat) (q : St × List XCell)
    (h1 : BOut st₀ (st₁, [c]) [])
    (h2 : BOut st₁ (p.1, p.2.1) [])
    (h3 : BOut p.1 (st₂, [d]) [])
    (h4 : BOut st₂ q []) :
    BOut st₀ (q.1, c :: p.2.1 ++ d :: q.2) [] := by
  have h := BOut_seq h1 (BOut_seq h2 (BOut_seq h3 h4))
  refine ⟨h.1, h.2.1, h.2.2.1, ?_, h.2.2.2.2⟩
  have hi := h.2.2.2.1
  rw [show [c] ++ (p.2.1 ++ ([d] ++ q.2)) = (c :: p.2.1) ++ (d :: q.2) by simp] at hi
  exact hi

theorem buildLegend_bout (st : St) (x y : Nat) :
    BOut st (buildLegend st x y) [] := by
  simp only [buildLegend, nextId, addContainer]
  split
  · exact BOut_refl st
  · split
    · exact BOut_legend4 _ _ (BOut_containerStep ..) (legendEntryCells_bout ..)
        (BOut_vertexStep ..) (legendConnCells_bout ..)
    · exact BOut_cons1 _ (BOut_containerStep ..) (legendEntryCells_bout ..)

theorem titleCellOf_bout (arch : Architecture) (st : St) :
    BOut st ((titleCellOf arch st).1, (titleCellOf arch st).2.1) [] := by
  simp only [titleCellOf, nextId]
  split
  · exact BOut_vertexStep ..
  · exact BOut_refl st

/-- Sequencing against a loop step that also returns layout accumulators
(`buildRegionsTop`, `buildSubsTop`). -/
theorem BOut_seq5 {st₀ : St} {T₁ T₂ : List String}
    (p : St × List XCell) (q : St × List XCell × Nat × Nat × Nat)
    (h1 : BOut st₀ p T₁) (h2 : BOut p.1 (q.1, q.2.1) T₂) :
    BOut st₀ (q.1, p.2 ++ q.2.1) (T₁ ++ T₂) :=
  BOut_seq h1 h2

theorem buildRegionsTop_bout (regions : List Region) (st : St) (cx cy mh tw : Nat) :
    BOut st ((buildRegionsTop st regions cx cy mh tw).1,
      (buildRegionsTop st regions cx cy mh tw).2.1) (regions.flatMap leafTypesRegion) := by
  induction regions generalizing st cx mh tw with
  | nil => exact BOut_refl st
  | cons r rest ih =>
    simp only [buildRegionsTop, List.flatMap_cons]
    exact BOut_seq5 _ _ (buildRegion_bout ..) (ih ..)

theorem buildSubsTop_bout (subs : List Subscription) (st : St) (cx cy mh tw : Nat) :
    BOut st ((buildSubsTop st subs cx cy mh tw).1,
      (buildSubsTop st subs cx cy mh tw).2.1) (subs.flatMap leafTypesSub) := by
  induction subs generalizing st cx mh tw with
  | nil => exact BOut_refl st
  | cons s rest ih =>
    simp only [buildSubsTop, List.flatMap_cons]
    exact BOut_seq5 _ _ (buildSubscription_bout ..) (ih ..)

theorem contentNoRegions_bout (st : St) (arch : Architecture) (cx cy : Nat) :
    BOut st ((contentNoRegions st arch cx cy).1, (contentNoRegions st arch cx cy).2.1)
      (leafTypesContentNoRegions arch) := by
  rcases hs : arch.subscription with _ | sub
  · rcases hss : arch.subscriptions with _ | subs <;>
      simp only [contentNoRegions, hs, hss, leafTypesContentNoRegions]
    · exact BOut_refl st
    · exact buildSubsTop_bout ..
  · simp only [contentNoRegions, hs, leafTypesContentNoRegions]
    exact buildSubscription_bout ..

theorem pageContent_bout (st : St) (arch : Architecture) (cx cy : Nat) :
    BOut st ((pageContent st arch cx cy).1, (pageContent st arch cx cy).2.1)
      (leafTypesContent arch) := by
  rcases hr : arch.regions with _ | regions
  · simp only [pageContent, leafTypesContent, hr]
    exact contentNoRegions_bout ..
  · by_cases hlen : regions.length > 0
    · simp only [pageContent, leafTypesContent, hr, if_pos hlen]
      exact buildRegionsTop_bout ..
    · simp only [pageContent, leafTypesContent, hr, if_neg hlen]
      exact contentNoRegions_bout ..

theorem pageOnPrem_bout (st : St) (arch : Architecture) (cy mh tw : Nat) :
    BOut st (pageOnPrem st arch cy mh tw)
      ((arch.onPremises.getD []).flatMap
        (fun op => (op.resources.getD []).map (·.type))) := by
  rcases ho : arch.onPremises with _ | ops
  · simp only [pageOnPrem, ho, Option.getD_none, List.flatMap_nil]
    exact BOut_refl st
  · by_cases hlen : ops.length > 0
    · simp only [pageOnPrem, ho, Option.getD_some, if_pos hlen]
      exact buildOnPremRow_bout ..
    · have hnil : ops = [] := List.length_eq_zero.mp (by omega)
      subst hnil
      simp only [pageOnPrem, ho, Option.getD_some, List.flatMap_nil]
      exact BOut_refl st

theorem pageGlobals_bout (st : St) (arch : Architecture) :
    BOut st (pageGlobals st arch) ((arch.globalResources.getD []).map (·.type)) := by
  rcases hg : arch.globalResources with _ | gs
  · simp only [pageGlobals, hg, Option.getD_none, List.map_nil]
    exact BOut_refl st
  · by_cases hlen : gs.length > 0
    · simp only [pageGlobals, hg, Option.getD_some, if_pos hlen]
      exact buildGlobalResources_bout ..
    · have hnil : gs = [] := List.length_eq_zero.mp (by omega)
      subst hnil
      simp only [pageGlobals, hg, Option.getD_some, List.map_nil]
      exact BOut_refl st

theorem pageConnections_bout (st : St) (arch : Architecture) :
    BOut st (pageConnections st arch) [] := by
  rcases hc : arch.connections with _ | conns <;> simp only [pageConnections, hc]
  · exact BOut_refl st
  · exact buildConnections_bout ..

theorem pageLegend_bout (st : St) (arch : Architecture) (tw toff : Nat) :
    BOut st (pageLegend st arch tw toff) [] := by
  simp only [pageLegend]
  split
  · exact buildLegend_bout ..
  · exact BOut_refl st

theorem generatePage_bout (g : Nat) (nm : String) (arch : Architecture) :
    BOut St.empty ((generatePage g nm arch).2.1, (generatePage g nm arch).2.2.cells)
      (placedLeafTypes arch) := by
  simp only [generatePage, generateCellId]
  refine BOut_sub (BOut_seq (BOut_seq (BOut_seq (BOut_seq (BOut_seq (BOut_seq
    (BOut_baseCells _) (titleCellOf_bout ..)) (pageContent_bout ..))
    (pageOnPrem_bout ..)) (pageGlobals_bout ..)) (pageConnections_bout ..))
    (pageLegend_bout ..)) ?_
  intro t
  simp [placedLeafTypes]

/-! ## Claim C3 — identifier discipline -/

/-- C3 (counterexample): the id counter is reset at the top of every page,
so the two pages of `archTwoPages` — identical sub-architectures — both
issue the identifier 1: identifiers are not unique across the whole
document, and page 2 reuses exactly the identifiers produced for page 1. -/
theorem azC3_counterexample :
    (generate "t" archTwoPages).pages.length = 2 ∧
    ∀ p ∈ (generate "t" archTwoPages).pages, 1 ∈ idsOf p.cells := by
  constructor
  · decide
  · decide

/-- C3 (amended): within a single page, issued cell identifiers are
strictly increasing in emission order — hence unique — positive, and
bounded by the page's final id counter. -/
theorem azC3_page_ids (g : Nat) (nm : String) (arch : Architecture) :
    List.Chain' (· < ·) (idsOf (generatePage g nm arch).2.2.cells) ∧
    ∀ i ∈ idsOf (generatePage g nm arch).2.2.cells,
      0 < i ∧ i ≤ (generatePage g nm arch).2.1.idCounter := by
  have h := (generatePage_bout g nm arch).2.2.2.1
  exact ⟨h.1, h.2⟩

/-! ## Claim C7 — legend completeness -/

theorem filterMapLegend_keys (used : List String) :
    (used.filterMap (fun t => (assocFind RESOURCES t).map (fun d => (t, d)))).map Prod.fst =
      used.filter (fun t => (assocFind RESOURCES t).isSome) := by
  induction used with
  | nil => rfl
  | cons u rest ih =>
    rcases h : assocFind RESOURCES u with _ | d <;>
      simp [List.filterMap_cons, List.filter_cons, h, ih]

/-- C7: the legend item list computed from a generated page's final state
contains exactly one entry per distinct catalogued type placed during that
page's layout — an entry `(t, d)` is listed iff the catalog maps `t` to
`d` and the layout walked a resource of type `t` — with no duplicate types
and entries sorted by catalog display name. -/
theorem azC7_legend_completeness (g : Nat) (nm : String) (arch : Architecture) :
    (∀ t d, (t, d) ∈ legendItems (generatePage g nm arch).2.1.usedResourceTypes ↔
       (assocFind RESOURCES t = some d ∧ t ∈ placedLeafTypes arch)) ∧
    ((legendItems (generatePage g nm arch).2.1.usedResourceTypes).map Prod.fst).Nodup ∧
    List.Pairwise (fun a b => strLe a.2.displayName b.2.displayName = true)
      (legendItems (generatePage g nm arch).2.1.usedResourceTypes) := by
  have hb := generatePage_bout g nm arch
  have hused : ∀ t, t ∈ (generatePage g nm arch).2.1.usedResourceTypes ↔
      ((assocFind RESOURCES t).isSome ∧ t ∈ placedLeafTypes arch) := by
    intro t
    rw [hb.2.1 t]
    simp [St.empty]
  have hnodup : (generatePage g nm arch).2.1.usedResourceTypes.Nodup :=
    hb.2.2.1 (by simp [St.empty])
  refine ⟨?_, ?_, ?_⟩
  · intro t d
    rw [legendItems, mem_sortBy, List.mem_filterMap]
    constructor
    · rintro ⟨u, hu, hf⟩
      rcases Option.map_eq_some'.mp hf with ⟨d', hd', heq⟩
      have heq' : (u, d') = (t, d) := heq
      injection heq' with h1 h2
      subst h1
      subst h2
      exact ⟨hd', ((hused u).mp hu).2⟩
    · rintro ⟨hd, hp⟩
      refine ⟨t, (hused t).mpr ⟨by rw [hd]; rfl, hp⟩, ?_⟩
      rw [hd]
      rfl
  · have hperm :
        List.Perm
          ((legendItems (generatePage g nm arch).2.1.usedResourceTypes).map Prod.fst)
          (((generatePage g nm arch).2.1.usedResourceTypes.filterMap
            (fun t => (assocFind RESOURCES t).map (fun d => (t, d)))).map Prod.fst) :=
      (sortBy_perm _ _).map _
    rw [List.Perm.nodup_iff hperm, filterMapLegend_keys]
    exact hnodup.filter _
  · exact sortBy_sorted
      (fun a b : String × ResourceDefinition => strLe a.2.displayName b.2.displayName)
      (fun a b => strLe_total _ _) (fun a b c h1 h2 => strLe_trans _ _ _ h1 h2) _

/-! ## Claim C1 — containment: leaf and grid fitting lemmas -/

theorem buildResource_bounds (st : St) (r : Resource) (pid : PId) (pos : Position) :
    (buildResource st r pid pos).1.containerAbsBounds = st.containerAbsBounds := by
  rcases hd : assocFind RESOURCES r.type with _ | rdef <;>
    simp [buildResource, hd, nextId]

theorem buildGrid_bounds (rs : List Resource) (st : St) (pid : PId)
    (baseX maxCols colW rowH col y : Nat) :
    (buildGrid st rs pid baseX maxCols colW rowH col y).1.containerAbsBounds =
      st.containerAbsBounds := by
  induction rs generalizing st col y with
  | nil => rfl
  | cons r rest ih =>
    simp only [buildGrid]
    split <;> rw [ih, buildResource_bounds]

theorem buildResource_good (st : St) (r : Resource) (n : Nat) (pos : Position)
    (b : ContainerBounds) (hb : assocFind st.containerAbsBounds n = some b)
    (hx : pos.x + 64 ≤ b.width) (hy : pos.y + 64 ≤ b.height) :
    cellsGood st.containerAbsBounds (buildResource st r (.gen n) pos).2 := by
  rcases hd : assocFind RESOURCES r.type with _ | rdef
  · intro c hc
    simp only [buildResource, hd] at hc
    cases hc
  · intro c hc
    simp only [buildResource, hd, nextId] at hc
    rcases List.mem_singleton.mp hc with rfl
    rcases RESOURCES_dims hd with ⟨hw, hh⟩
    exact ⟨b, hb, by rw [hw]; exact hx, by rw [hh]; exact hy⟩

/-- Every cell of a wrap-at-`maxCols` grid fits the parent whose registered
bounds admit every reachable column and the last reachable row. -/
theorem buildGrid_good (rs : List Resource) (st : St) (n : Nat)
    (baseX maxCols colW rowH col y : Nat) (b : ContainerBounds)
    (hb : assocFind st.containerAbsBounds n = some b)
    (hcol : col < maxCols)
    (hx : ∀ j, j < maxCols → j < col + rs.length → baseX + j * colW + 64 ≤ b.width)
    (hy : y + ((col + rs.length - 1) / maxCols) * rowH + 64 ≤ b.height) :
    cellsGood st.containerAbsBounds
      (buildGrid st rs (.gen n) baseX maxCols colW rowH col y).2 := by
  induction rs generalizing st col y with
  | nil => exact cellsGood_nil _
  | cons r rest ih =>
    simp only [buildGrid]
    split
    · rename_i hge
      have hxhead : baseX + col * colW + 64 ≤ b.width :=
        hx col hcol (by simp only [List.length_cons]; omega)
      have hyhead : y + 64 ≤ b.height := by omega
      refine cellsGood_append ?_ ?_
      · exact buildResource_good st r n _ b hb hxhead hyhead
      · cases rest with
        | nil => exact cellsGood_nil _
        | cons r2 rest2 =>
          have hb' : assocFind
              (buildResource st r (.gen n) ⟨baseX + col * colW, y⟩).1.containerAbsBounds n =
              some b := by rw [buildResource_bounds]; exact hb
          have heq : col + (r :: r2 :: rest2 : List Resource).length - 1 =
              (r2 :: rest2 : List Resource).length - 1 + maxCols := by
            simp only [List.length_cons]
            omega
          have h2 := hy
          rw [heq, Nat.add_div_right _ (by omega : 0 < maxCols), Nat.succ_mul] at h2
          have h := ih _ 0 (y + rowH) hb' (by omega)
            (fun j hj hjr => hx j hj (by omega))
            (by
              have h3 : 0 + (r2 :: rest2 : List Resource).length - 1 =
                  (r2 :: rest2 : List Resource).length - 1 := by omega
              rw [h3]
              omega)
          rw [buildResource_bounds] at h
          exact h
    · rename_i hlt
      have hxhead : baseX + col * colW + 64 ≤ b.width :=
        hx col hcol (by simp only [List.length_cons]; omega)
      have hyhead : y + 64 ≤ b.height := by omega
      refine cellsGood_append ?_ ?_
      · exact buildResource_good st r n _ b hb hxhead hyhead
      · have hb' : assocFind
            (buildResource st r (.gen n) ⟨baseX + col * colW, y⟩).1.containerAbsBounds n =
            some b := by rw [buildResource_bounds]; exact hb
        have h := ih _ (col + 1) y hb' (by omega)
          (fun j hj hjr => hx j hj (by simp only [List.length_cons] at hjr ⊢; omega))
          (by
            have heq2 : col + 1 + rest.length - 1 =
                col + (r :: rest : List Resource).length - 1 := by
              simp only [List.length_cons]
              omega
            rw [heq2]
            exact hy)
        rw [buildResource_bounds] at h
        exact h

/-- A container cell emitted under a fitting parent satisfies `vertexGood`
in any extension of the bounds registry. -/
theorem vertexGood_of_parentFits {st : St} {m : List (Nat × ContainerBounds)}
    {pid : PId} {x y w h : Nat} (id : Nat) (v s : String)
    (attrs : List (String × String))
    (hfit : parentFits st pid x y w h)
    (hext : boundsExtends st.containerAbsBounds m) :
    vertexGood m (XCell.vertex id pid v s ⟨x, y, w, h⟩ attrs) := by
  cases pid with
  | gen n =>
    rcases hfit with ⟨b, hb, hw, hh⟩
    exact ⟨b, hext n b hb, hw, hh⟩
  | p0 => trivial
  | p1 => trivial

/-! ## Claim C1 — bridges between `cellsGood` and the claim property -/

theorem cellsGood_to_contained {st : St} {cs : List XCell}
    (h : cellsGood st.containerAbsBounds cs) :
    ∀ c ∈ cs, absoluteBoundsWithinParent st c := by
  intro c hc
  have hv := h c hc
  cases c with
  | vertex id parent v s g attrs =>
    cases parent with
    | gen n =>
      rcases hv with ⟨b, hb, h1, h2⟩
      intro b' hb'
      rw [lookupBoundsP] at hb'
      rw [hb] at hb'
      injection hb' with hb'
      subst hb'
      refine ⟨by omega, by omega, by omega, by omega⟩
    | p0 =>
      intro b' hb'
      simp [lookupBoundsP] at hb'
    | p1 =>
      intro b' hb'
      simp [lookupBoundsP] at hb'
  | edge id parent v s src tgt pts => trivial
  | baseCell i p => trivial

theorem vertexWithinB_false {st : St} {c : XCell} (h : vertexWithinB st c = false) :
    ¬ absoluteBoundsWithinParent st c := by
  intro hp
  cases c with
  | vertex id parent v s g attrs =>
    rcases hb : lookupBoundsP st parent with _ | b
    · rw [vertexWithinB, hb] at h
      cases h
    · rcases hp b hb with ⟨h1, h2, h3, h4⟩
      rw [vertexWithinB, hb] at h
      simp only [Bool.and_eq_false_iff, decide_eq_false_iff_not] at h
      rcases h with h | h <;> omega
  | edge id parent v s src tgt pts =>
    simp [vertexWithinB] at h
  | baseCell i p =>
    simp [vertexWithinB] at h

/-! ## Claim C1 — container shells -/

/-- A bounds entry survives any build step. -/
theorem assocFind_after_bout {st : St} {out : St × List XCell} {T : List String}
    (h : BOut st out T) (hk : boundsKeysLE st) {k : Nat} {b : ContainerBounds}
    (hb : assocFind st.containerAbsBounds k = some b) :
    assocFind out.1.containerAbsBounds k = some b :=
  (h.2.2.2.2 hk).2 k b hb

theorem boundsKeysLE_pre {st stPre : St} {id : Nat} {bnd : ContainerBounds}
    (hpre : stPre.containerAbsBounds = mapSet st.containerAbsBounds id bnd)
    (hkeys : boundsKeysLE st) (hid : st.idCounter < id)
    (hctr : id ≤ stPre.idCounter) : boundsKeysLE stPre := by
  intro kb hkb
  rw [hpre] at hkb
  rcases mem_mapSet hkb with h | h
  · rw [h]
    exact hctr
  · exact le_trans (hkeys _ h) (le_trans (Nat.le_of_lt hid) hctr)

/-- Containment skeleton for a builder that emits one container cell (with
a fresh bounds entry), then two sequential bodies. -/
theorem cellsGood_shell2 {st stPre : St} {id : Nat} {pid : PId} {v s : String}
    {x y w h : Nat} {TA TB : List String} (A B : St × List XCell)
    (bnd : ContainerBounds)
    (hpre : stPre.containerAbsBounds = mapSet st.containerAbsBounds id bnd)
    (hkeys : boundsKeysLE st)
    (hid : st.idCounter < id)
    (hctr : id ≤ stPre.idCounter)
    (hfit : parentFits st pid x y w h)
    (hA : BOut stPre A TA) (hB : BOut A.1 B TB)
    (hgA : boundsKeysLE stPre → cellsGood A.1.containerAbsBounds A.2)
    (hgB : boundsKeysLE A.1 → cellsGood B.1.containerAbsBounds B.2) :
    cellsGood B.1.containerAbsBounds
      ((XCell.vertex id pid v s ⟨x, y, w, h⟩ [] :: A.2) ++ B.2) := by
  have hkeysPre := boundsKeysLE_pre hpre hkeys hid hctr
  have hextA := hA.2.2.2.2 hkeysPre
  have hextB := hB.2.2.2.2 hextA.1
  have hext0 : boundsExtends st.containerAbsBounds stPre.containerAbsBounds := by
    rw [hpre]
    exact boundsExtends_mapSet_fresh hkeys hid bnd
  refine cellsGood_append ?_ (hgB hextA.1)
  intro c hc
  rcases List.mem_cons.mp hc with rfl | hc
  · exact vertexGood_of_parentFits id v s _ hfit
      (boundsExtends_trans hext0 (boundsExtends_trans hextA.2 hextB.2))
  · exact vertexGood_mono hextB.2 (hgA hkeysPre c hc)

/-- Containment skeleton for a builder whose middle body carries a `y`
accumulator (`buildRegion` over `buildRGStack`). -/
theorem cellsGood_shell2R {st stPre : St} {id : Nat} {pid : PId} {v s : String}
    {x y w h : Nat} {TA TB : List String} (A : Nat × St × List XCell) (B : St × List XCell)
    (bnd : ContainerBounds)
    (hpre : stPre.containerAbsBounds = mapSet st.containerAbsBounds id bnd)
    (hkeys : boundsKeysLE st)
    (hid : st.idCounter < id)
    (hctr : id ≤ stPre.idCounter)
    (hfit : parentFits st pid x y w h)
    (hA : BOut stPre A.2 TA) (hB : BOut A.2.1 B TB)
    (hgA : boundsKeysLE stPre → cellsGood A.2.1.containerAbsBounds A.2.2)
    (hgB : boundsKeysLE A.2.1 → cellsGood B.1.containerAbsBounds B.2) :
    cellsGood B.1.containerAbsBounds
      ((XCell.vertex id pid v s ⟨x, y, w, h⟩ [] :: A.2.2) ++ B.2) := by
  have hkeysPre := boundsKeysLE_pre hpre hkeys hid hctr
  have hextA := hA.2.2.2.2 hkeysPre
  have hextB := hB.2.2.2.2 hextA.1
  have hext0 : boundsExtends st.containerAbsBounds stPre.containerAbsBounds := by
    rw [hpre]
    exact boundsExtends_mapSet_fresh hkeys hid bnd
  refine cellsGood_append ?_ (hgB hextA.1)
  intro c hc
  rcases List.mem_cons.mp hc with rfl | hc
  · exact vertexGood_of_parentFits id v s _ hfit
      (boundsExtends_trans hext0 (boundsExtends_trans hextA.2 hextB.2))
  · exact vertexGood_mono hextB.2 (hgA hkeysPre c hc)

/-- Containment skeleton for a builder that emits a container cell, a
decorative icon inside it, then one body. -/
theorem cellsGood_shell_icon {st stPre : St} {id id2 : Nat} {pid : PId}
    {v s v2 s2 : String} {x y w h : Nat} {g2 : Geom} {TA : List String}
    (A : St × List XCell)
    (bnd : ContainerBounds)
    (hpre : stPre.containerAbsBounds = mapSet st.containerAbsBounds id bnd)
    (hkeys : boundsKeysLE st)
    (hid : st.idCounter < id)
    (hctr : id ≤ stPre.idCounter)
    (hfit : parentFits st pid x y w h)
    (hiconx : g2.x + g2.width ≤ bnd.width)
    (hicony : g2.y + g2.height ≤ bnd.height)
    (hA : BOut stPre A TA)
    (hgA : boundsKeysLE stPre → cellsGood A.1.containerAbsBounds A.2) :
    cellsGood A.1.containerAbsBounds
      (XCell.vertex id pid v s ⟨x, y, w, h⟩ [] ::
        XCell.vertex id2 (.gen id) v2 s2 g2 [] :: A.2) := by
  have hkeysPre := boundsKeysLE_pre hpre hkeys hid hctr
  have hextA := hA.2.2.2.2 hkeysPre
  have hext0 : boundsExtends st.containerAbsBounds stPre.containerAbsBounds := by
    rw [hpre]
    exact boundsExtends_mapSet_fresh hkeys hid bnd
  intro c hc
  rcases List.mem_cons.mp hc with rfl | hc
  · exact vertexGood_of_parentFits id v s _ hfit
      (boundsExtends_trans hext0 hextA.2)
  rcases List.mem_cons.mp hc with rfl | hc
  · refine ⟨bnd, hextA.2 id bnd ?_, hiconx, hicony⟩
    rw [hpre]
    exact assocFind_mapSet_self _ _ _
  · exact hgA hkeysPre c hc

/-- Containment skeleton: container cell with the first body empty. -/
theorem cellsGood_shellB {st stPre : St} {id : Nat} {pid : PId} {v s : String}
    {x y w h : Nat} {TB : List String} (B : St × List XCell)
    (bnd : ContainerBounds)
    (hpre : stPre.containerAbsBounds = mapSet st.containerAbsBounds id bnd)
    (hkeys : boundsKeysLE st)
    (hid : st.idCounter < id)
    (hctr : id ≤ stPre.idCounter)
    (hfit : parentFits st pid x y w h)
    (hB : BOut stPre B TB)
    (hgB : boundsKeysLE stPre → cellsGood B.1.containerAbsBounds B.2) :
    cellsGood B.1.containerAbsBounds
      ((XCell.vertex id pid v s ⟨x, y, w, h⟩ [] :: ([] : List XCell)) ++ B.2) := by
  have hkeysPre := boundsKeysLE_pre hpre hkeys hid hctr
  have hextB := hB.2.2.2.2 hkeysPre
  have hext0 : boundsExtends st.containerAbsBounds stPre.containerAbsBounds := by
    rw [hpre]
    exact boundsExtends_mapSet_fresh hkeys hid bnd
  refine cellsGood_append ?_ (hgB hkeysPre)
  intro c hc
  rcases List.mem_singleton.mp hc with rfl
  exact vertexGood_of_parentFits id v s _ hfit (boundsExtends_trans hext0 hextB.2)

/-- Containment skeleton: container cell with the second body empty. -/
theorem cellsGood_shell1 {st stPre : St} {id : Nat} {pid : PId} {v s : String}
    {x y w h : Nat} {TA : List String} (A : St × List XCell)
    (bnd : ContainerBounds)
    (hpre : stPre.containerAbsBounds = mapSet st.containerAbsBounds id bnd)
    (hkeys : boundsKeysLE st)
    (hid : st.idCounter < id)
    (hctr : id ≤ stPre.idCounter)
    (hfit : parentFits st pid x y w h)
    (hA : BOut stPre A TA)
    (hgA : boundsKeysLE stPre → cellsGood A.1.containerAbsBounds A.2) :
    cellsGood A.1.containerAbsBounds
      ((XCell.vertex id pid v s ⟨x, y, w, h⟩ [] :: A.2) ++ []) := by
  have hkeysPre := boundsKeysLE_pre hpre hkeys hid hctr
  have hextA := hA.2.2.2.2 hkeysPre
  have hext0 : boundsExtends st.containerAbsBounds stPre.containerAbsBounds := by
    rw [hpre]
    exact boundsExtends_mapSet_fresh hkeys hid bnd
  refine cellsGood_append ?_ (cellsGood_nil _)
  intro c hc
  rcases List.mem_cons.mp hc with rfl | hc
  · exact vertexGood_of_parentFits id v s _ hfit (boundsExtends_trans hext0 hextA.2)
  · exact hgA hkeysPre c hc

/-- Containment skeleton: container cell whose second body carries a `y`
accumulator and whose trailing body is empty. -/
theorem cellsGood_shell1R {st stPre : St} {id : Nat} {pid : PId} {v s : String}
    {x y w h : Nat} {TA : List String} (A : Nat × St × List XCell)
    (bnd : ContainerBounds)
    (hpre : stPre.containerAbsBounds = mapSet st.containerAbsBounds id bnd)
    (hkeys : boundsKeysLE st)
    (hid : st.idCounter < id)
    (hctr : id ≤ stPre.idCounter)
    (hfit : parentFits st pid x y w h)
    (hA : BOut stPre A.2 TA)
    (hgA : boundsKeysLE stPre → cellsGood A.2.1.containerAbsBounds A.2.2) :
    cellsGood A.2.1.containerAbsBounds
      ((XCell.vertex id pid v s ⟨x, y, w, h⟩ [] :: A.2.2) ++ []) := by
  have hkeysPre := boundsKeysLE_pre hpre hkeys hid hctr
  have hextA := hA.2.2.2.2 hkeysPre
  have hext0 : boundsExtends st.containerAbsBounds stPre.containerAbsBounds := by
    rw [hpre]
    exact boundsExtends_mapSet_fresh hkeys hid bnd
  refine cellsGood_append ?_ (cellsGood_nil _)
  intro c hc
  rcases List.mem_cons.mp hc with rfl | hc
  · exact vertexGood_of_parentFits id v s _ hfit (boundsExtends_trans hext0 hextA.2)
  · exact hgA hkeysPre c hc

/-- Containment of a lone container cell. -/
theorem cellsGood_container1 {st : St} {id : Nat} {pid : PId} {v s : String}
    {x y w h : Nat} (bnd : ContainerBounds) (m : List (Nat × ContainerBounds))
    (hm : m = mapSet st.containerAbsBounds id bnd)
    (hkeys : boundsKeysLE st)
    (hid : st.idCounter < id)
    (hfit : parentFits st pid x y w h) :
    cellsGood m [XCell.vertex id pid v s ⟨x, y, w, h⟩ []] := by
  intro c hc
  rcases List.mem_singleton.mp hc with rfl
  refine vertexGood_of_parentFits id v s _ hfit ?_
  rw [hm]
  exact boundsExtends_mapSet_fresh hkeys hid bnd

/-- Containment of a container cell and its decorative icon, no body. -/
theorem cellsGood_container_icon {st : St} {id id2 : Nat} {pid : PId}
    {v s v2 s2 : String} {x y w h : Nat} {g2 : Geom} (bnd : ContainerBounds)
    (m : List (Nat × ContainerBounds))
    (hm : m = mapSet st.containerAbsBounds id bnd)
    (hkeys : boundsKeysLE st)
    (hid : st.idCounter < id)
    (hfit : parentFits st pid x y w h)
    (hiconx : g2.x + g2.width ≤ bnd.width)
    (hicony : g2.y + g2.height ≤ bnd.height) :
    cellsGood m
      [XCell.vertex id pid v s ⟨x, y, w, h⟩ [],
       XCell.vertex id2 (.gen id) v2 s2 g2 []] := by
  intro c hc
  rcases List.mem_cons.mp hc with rfl | hc
  · refine vertexGood_of_parentFits id v s _ hfit ?_
    rw [hm]
    exact boundsExtends_mapSet_fresh hkeys hid bnd
  rcases List.mem_singleton.mp hc with rfl
  refine ⟨bnd, ?_, hiconx, hicony⟩
  rw [hm]
  exact assocFind_mapSet_self _ _ _

/-! ## Claim C1 — per-builder containment lemmas -/

theorem buildAZGroups_good (azs : List AZGroup) (st : St) (subnetId : Nat)
    (nm : String) (azX : Nat) (pb : ContainerBounds)
    (hkeys : boundsKeysLE st)
    (hpb : assocFind st.containerAbsBounds subnetId = some pb)
    (hx : azX + azs.foldl (fun acc az =>
        acc + (max 150 (min az.resources.length 2 * 130 + 30) + 15)) 0 ≤ pb.width + 15)
    (hy : ∀ az ∈ azs, 45 + max 110 ((az.resources.length + 1) / 2 * 110 + 50) ≤ pb.height) :
    cellsGood (buildAZGroups st azs subnetId nm azX).1.containerAbsBounds
      (buildAZGroups st azs subnetId nm azX).2 := by
  induction azs generalizing st azX with
  | nil => exact cellsGood_nil _
  | cons az rest ih =>
    simp only [buildAZGroups, nextId, addContainer]
    rw [foldl_add_eq_sum, List.map_cons, List.sum_cons] at hx
    have hazw : azX + max 150 (min az.resources.length 2 * 130 + 30) ≤ pb.width := by
      omega
    have hazh := hy az (List.mem_cons_self _ _)
    refine cellsGood_shell2 _ _ _ rfl hkeys (Nat.lt_succ_self _) (Nat.le_refl _)
      ⟨pb, hpb, hazw, hazh⟩ (buildGrid_bout ..) (buildAZGroups_bout ..) ?_ ?_
    · intro hkeysPre
      rw [buildGrid_bounds]
      refine buildGrid_good _ _ _ _ _ _ _ _ _ _ (assocFind_mapSet_self _ _ _) ?_ ?_ ?_
      · rw [azMaxCols_eq_two]
        omega
      · intro j hj hjl
        rw [azMaxCols_eq_two] at hj
        show 15 + j * 130 + 64 ≤ max 150 (min az.resources.length 2 * 130 + 30)
        omega
      · simp only [azMaxCols_eq_two]
        show 40 + (0 + az.resources.length - 1) / 2 * 110 + 64 ≤
          max 110 ((az.resources.length + 1) / 2 * 110 + 50)
        omega
    · intro hkA
      refine ih _ _ hkA ?_ ?_ ?_
      · rw [buildGrid_bounds]
        exact boundsExtends_mapSet_fresh hkeys (Nat.lt_succ_self _) _ subnetId pb hpb
      · rw [foldl_add_eq_sum]
        omega
      · exact fun a ha => hy a (List.mem_cons_of_mem _ ha)

theorem subnetGrid_hx (subnet : Subnet) (res : List Resource)
    (hr : subnet.resources = some res) : ∀ j,
    j < max 2 ((calculateSubnetWidth subnet - 30) / 130) →
    j < 0 + res.length →
    15 + j * 130 + 64 ≤ calculateSubnetWidth subnet := by
  intro j hj hjl
  have h150 := calculateSubnetWidth_ge subnet
  rcases Nat.lt_or_ge j 2 with hj2 | hj2
  · interval_cases j
    · omega
    · have h290 := calculateSubnetWidth_ge_of_two subnet
        (by rw [hr]; simp only [Option.getD_some]; omega)
      omega
  · have hj' : j < (calculateSubnetWidth subnet - 30) / 130 := by omega
    have hmul : (j + 1) * 130 ≤ ((calculateSubnetWidth subnet - 30) / 130) * 130 :=
      Nat.mul_le_mul_right _ (by omega)
    have hdm := Nat.div_mul_le_self (calculateSubnetWidth subnet - 30) 130
    omega

theorem subnetGrid_hy_noaz (subnet : Subnet) (res : List Resource)
    (hr : subnet.resources = some res)
    (hna : subnet.availabilityZones = none ∨ subnet.availabilityZones = some []) :
    45 + (0 + res.length - 1) / max 2 ((calculateSubnetWidth subnet - 30) / 130) * 110 + 64 ≤
      calculateSubnetHeight subnet := by
  have hle : (res.length - 1) / max 2 ((calculateSubnetWidth subnet - 30) / 130) ≤
      (res.length - 1) / 2 :=
    Nat.div_le_div_left (Nat.le_max_left _ _) (by omega)
  rcases hna with ha | ha <;> simp [calculateSubnetHeight, ha, hr] <;> omega

theorem subnetGrid_hy_az (subnet : Subnet) (res : List Resource) (azs : List AZGroup)
    (hr : subnet.resources = some res)
    (ha : subnet.availabilityZones = some azs) (hlen : azs.length > 0)
    (hres : 0 < res.length) :
    calculateAZSectionHeight subnet + 55 +
      (0 + res.length - 1) / max 2 ((calculateSubnetWidth subnet - 30) / 130) * 110 + 64 ≤
      calculateSubnetHeight subnet := by
  have hle : (0 + res.length - 1) / max 2 ((calculateSubnetWidth subnet - 30) / 130) ≤
      (0 + res.length - 1) / 2 :=
    Nat.div_le_div_left (Nat.le_max_left _ _) (by omega)
  simp only [calculateSubnetHeight, calculateAZSectionHeight, ha, hr, Option.getD_some,
    if_pos hlen, if_pos hres]
  rw [if_neg (by omega : ¬ azs.length = 0)]
  omega

theorem buildSubnet_good (st : St) (subnet : Subnet) (vnetId : Nat) (pos : Position)
    (hkeys : boundsKeysLE st)
    (hfit : parentFits st (.gen vnetId) pos.x pos.y (calculateSubnetWidth subnet)
      (calculateSubnetHeight subnet)) :
    cellsGood (buildSubnet st subnet vnetId pos).1.containerAbsBounds
      (buildSubnet st subnet vnetId pos).2 := by
  rcases ha : subnet.availabilityZones with _ | azs
  · simp only [buildSubnet, nextId, addContainer, ha]
    rcases hr : subnet.resources with _ | res
    · simp only [hr]
      exact cellsGood_container1 _ _ rfl hkeys (Nat.lt_succ_self _) hfit
    · simp only [hr]
      refine cellsGood_shellB _ _ rfl hkeys (Nat.lt_succ_self _) (Nat.le_refl _) hfit
        (buildGrid_bout ..) ?_
      intro hkeysPre
      rw [buildGrid_bounds]
      refine buildGrid_good _ _ _ _ _ _ _ _ _ _ (assocFind_mapSet_self _ _ _)
        (by omega) ?_ ?_
      · intro j hj hjl
        show 15 + j * 130 + 64 ≤ calculateSubnetWidth subnet
        exact subnetGrid_hx subnet res hr j hj hjl
      · show 45 + (0 + res.length - 1) /
            max 2 ((calculateSubnetWidth subnet - 30) / 130) * 110 + 64 ≤
          calculateSubnetHeight subnet
        exact subnetGrid_hy_noaz subnet res hr (Or.inl ha)
  · by_cases hlen : azs.length > 0
    · simp only [buildSubnet, nextId, addContainer, ha, if_pos hlen]
      have hgAZ : ∀ stP : St,
          stP.containerAbsBounds =
            mapSet st.containerAbsBounds (st.idCounter + 1)
              ⟨pos.x + (match lookupBoundsP { st with idCounter := st.idCounter + 1 }
                  (.gen vnetId) with | some b => b.x | none => 0),
               pos.y + (match lookupBoundsP { st with idCounter := st.idCounter + 1 }
                  (.gen vnetId) with | some b => b.y | none => 0),
               calculateSubnetWidth subnet, calculateSubnetHeight subnet⟩ →
          boundsKeysLE stP →
          cellsGood (buildAZGroups stP azs (st.idCounter + 1) subnet.name 15).1.containerAbsBounds
            (buildAZGroups stP azs (st.idCounter + 1) subnet.name 15).2 := by
        intro stP hP hkP
        refine buildAZGroups_good _ _ _ _ _ _ hkP (by rw [hP]; exact assocFind_mapSet_self _ _ _)
          ?_ ?_
        · show 15 + _ ≤ calculateSubnetWidth subnet + 15
          simp only [calculateSubnetWidth, ha, if_pos hlen]
          simp only [foldl_add_eq_sum]
          omega
        · intro az hmem
          show 45 + max 110 ((az.resources.length + 1) / 2 * 110 + 50) ≤
            calculateSubnetHeight subnet
          simp only [calculateSubnetHeight, ha, if_pos hlen]
          have hm := mem_le_foldl_max
            (fun azGroup => max 110 ((azGroup.resources.length + 1) / 2 * 110 + 50)) hmem 0
          omega
      rcases hr : subnet.resources with _ | res
      · simp only [hr]
        refine cellsGood_shell1 _ _ rfl hkeys (Nat.lt_succ_self _) (Nat.le_refl _) hfit
          (buildAZGroups_bout ..) ?_
        exact hgAZ _ rfl
      · cases res with
        | nil =>
          simp only [hr]
          refine cellsGood_shell2 _ _ _ rfl hkeys (Nat.lt_succ_self _) (Nat.le_refl _) hfit
            (buildAZGroups_bout ..) (buildGrid_bout ..) (hgAZ _ rfl) ?_
          exact fun _ => cellsGood_nil _
        | cons r0 res' =>
          simp only [hr]
          refine cellsGood_shell2 _ _ _ rfl hkeys (Nat.lt_succ_self _) (Nat.le_refl _) hfit
            (buildAZGroups_bout ..) (buildGrid_bout ..) (hgAZ _ rfl) ?_
          intro hkA
          rw [buildGrid_bounds]
          refine buildGrid_good _ _ _ _ _ _ _ _ _ _
            (assocFind_after_bout (buildAZGroups_bout ..)
              (boundsKeysLE_pre rfl hkeys (Nat.lt_succ_self _) (Nat.le_refl _))
              (assocFind_mapSet_self _ _ _))
            (by omega) ?_ ?_
          · intro j hj hjl
            show 15 + j * 130 + 64 ≤ calculateSubnetWidth subnet
            exact subnetGrid_hx subnet (r0 :: res') hr j hj hjl
          · show calculateAZSectionHeight subnet + 55 + (0 + (r0 :: res' : List Resource).length - 1) /
                max 2 ((calculateSubnetWidth subnet - 30) / 130) * 110 + 64 ≤
              calculateSubnetHeight subnet
            exact subnetGrid_hy_az subnet (r0 :: res') azs hr ha hlen (by simp)
    · have haz0 : azs = [] := List.length_eq_zero.mp (by omega)
      subst haz0
      simp only [buildSubnet, nextId, addContainer, ha]
      rcases hr : subnet.resources with _ | res
      · simp only [hr]
        exact cellsGood_container1 _ _ rfl hkeys (Nat.lt_succ_self _) hfit
      · simp only [hr]
        refine cellsGood_shellB _ _ rfl hkeys (Nat.lt_succ_self _) (Nat.le_refl _) hfit
          (buildGrid_bout ..) ?_
        intro hkeysPre
        rw [buildGrid_bounds]
        refine buildGrid_good _ _ _ _ _ _ _ _ _ _ (assocFind_mapSet_self _ _ _)
          (by omega) ?_ ?_
        · intro j hj hjl
          show 15 + j * 130 + 64 ≤ calculateSubnetWidth subnet
          exact subnetGrid_hx subnet res hr j hj hjl
        · show 45 + (0 + res.length - 1) /
              max 2 ((calculateSubnetWidth subnet - 30) / 130) * 110 + 64 ≤
            calculateSubnetHeight subnet
          exact subnetGrid_hy_noaz subnet res hr (Or.inr ha)

/-- One iteration of a layout loop: the emitted cells stay good under the
later iterations' registry extensions. -/
theorem cellsGood_loopStep {stA : St} {TA TB : List String} (A B : St × List XCell)
    (hA : BOut stA A TA) (hB : BOut A.1 B TB)
    (hkeys : boundsKeysLE stA)
    (hgA : cellsGood A.1.containerAbsBounds A.2)
    (hgB : boundsKeysLE A.1 → cellsGood B.1.containerAbsBounds B.2) :
    cellsGood B.1.containerAbsBounds (A.2 ++ B.2) := by
  have hkA := (hA.2.2.2.2 hkeys).1
  have hextB := hB.2.2.2.2 hkA
  exact cellsGood_append (cellsGood_mono hextB.2 hgA) (hgB hkA)

theorem buildSubnetsLoopHub_good (subnets : List Subnet) (st : St) (vnetId : Nat)
    (sx sy : Nat) (pb : ContainerBounds)
    (hkeys : boundsKeysLE st)
    (hpb : assocFind st.containerAbsBounds vnetId = some pb)
    (hx : sx + subnets.foldl (fun t s => t + (calculateSubnetWidth s + 20)) 0 ≤
      pb.width + 20)
    (hy : ∀ s ∈ subnets, sy + calculateSubnetHeight s ≤ pb.height) :
    cellsGood (buildSubnetsLoop st subnets vnetId true sx sy).1.containerAbsBounds
      (buildSubnetsLoop st subnets vnetId true sx sy).2 := by
  induction subnets generalizing st sx with
  | nil => exact cellsGood_nil _
  | cons s rest ih =>
    simp only [buildSubnetsLoop]
    rw [foldl_add_eq_sum, List.map_cons, List.sum_cons] at hx
    refine cellsGood_loopStep _ _ (buildSubnet_bout ..) (buildSubnetsLoop_bout ..) hkeys
      (buildSubnet_good st s vnetId ⟨sx, sy⟩ hkeys
        ⟨pb, hpb, by show sx + calculateSubnetWidth s ≤ pb.width; omega,
         by show sy + calculateSubnetHeight s ≤ pb.height; exact hy s (List.mem_cons_self _ _)⟩) ?_
    intro hkA
    refine ih _ _ hkA (assocFind_after_bout (buildSubnet_bout ..) hkeys hpb) ?_ ?_
    · rw [foldl_add_eq_sum]
      omega
    · exact fun s' hs' => hy s' (List.mem_cons_of_mem _ hs')

theorem buildSubnetsLoopV_good (subnets : List Subnet) (st : St) (vnetId : Nat)
    (sx sy : Nat) (pb : ContainerBounds)
    (hkeys : boundsKeysLE st)
    (hpb : assocFind st.containerAbsBounds vnetId = some pb)
    (hx : ∀ s ∈ subnets, sx + calculateSubnetWidth s ≤ pb.width)
    (hy : sy + subnets.foldl (fun t s => t + (calculateSubnetHeight s + 20)) 0 ≤
      pb.height + 20) :
    cellsGood (buildSubnetsLoop st subnets vnetId false sx sy).1.containerAbsBounds
      (buildSubnetsLoop st subnets vnetId false sx sy).2 := by
  induction subnets generalizing st sy with
  | nil => exact cellsGood_nil _
  | cons s rest ih =>
    simp only [buildSubnetsLoop]
    rw [foldl_add_eq_sum, List.map_cons, List.sum_cons] at hy
    refine cellsGood_loopStep _ _ (buildSubnet_bout ..) (buildSubnetsLoop_bout ..) hkeys
      (buildSubnet_good st s vnetId ⟨sx, sy⟩ hkeys
        ⟨pb, hpb, by show sx + calculateSubnetWidth s ≤ pb.width; exact hx s (List.mem_cons_self _ _),
         by show sy + calculateSubnetHeight s ≤ pb.height; omega⟩) ?_
    intro hkA
    refine ih _ _ hkA (assocFind_after_bout (buildSubnet_bout ..) hkeys hpb) ?_ ?_
    · exact fun s' hs' => hx s' (List.mem_cons_of_mem _ hs')
    · rw [foldl_add_eq_sum]
      omega

theorem buildVNet_good (st : St) (v : RGResource) (rgId : Nat) (pos : Position)
    (hkeys : boundsKeysLE st)
    (hfit : parentFits st (.gen rgId) pos.x pos.y (calculateVNetWidth v)
      (calculateVNetHeight v)) :
    cellsGood (buildVNet st v rgId pos).1.containerAbsBounds
      (buildVNet st v rgId pos).2 := by
  have hw := calculateVNetWidth_ge v
  have hh := calculateVNetHeight_ge v
  have hiconx : calculateVNetWidth v - 80 + 67 ≤ calculateVNetWidth v := by omega
  have hicony : (5 : Nat) + 40 ≤ calculateVNetHeight v := by omega
  rcases hs : v.subnets with _ | subnets
  · simp only [buildVNet, nextId, addContainer, addIcon, hs]
    exact cellsGood_container_icon _ _ rfl hkeys (Nat.lt_succ_self _) hfit hiconx hicony
  · simp only [buildVNet, nextId, addContainer, addIcon, hs]
    refine cellsGood_shell_icon _ _ rfl hkeys (Nat.lt_succ_self _) (Nat.le_succ _) hfit
      hiconx hicony (buildSubnetsLoop_bout ..) ?_
    intro hkeysPre
    rcases hd : decide (v.type = "hubVnet") with _ | _
    · have hnh : ¬ v.type = "hubVnet" := of_decide_eq_false hd
      refine buildSubnetsLoopV_good _ _ _ _ _ _ hkeysPre
        (assocFind_mapSet_self _ _ _) ?_ ?_
      · intro s' hs'
        show 20 + calculateSubnetWidth s' ≤ calculateVNetWidth v
        simp only [calculateVNetWidth, hs, if_neg hnh]
        have := mem_le_foldl_max (fun s => calculateSubnetWidth s + 40) hs' 300
        omega
      · show 50 + _ ≤ calculateVNetHeight v + 20
        simp only [calculateVNetHeight, hs, if_neg hnh]
        simp only [foldl_add_eq_sum]
        omega
    · have hhub : v.type = "hubVnet" := of_decide_eq_true hd
      refine buildSubnetsLoopHub_good _ _ _ _ _ _ hkeysPre
        (assocFind_mapSet_self _ _ _) ?_ ?_
      · show 20 + _ ≤ calculateVNetWidth v + 20
        simp only [calculateVNetWidth, hs, if_pos hhub]
        simp only [foldl_add_eq_sum]
        omega
      · intro s' hs'
        show 50 + calculateSubnetHeight s' ≤ calculateVNetHeight v
        simp only [calculateVNetHeight, hs, if_pos hhub]
        have := mem_le_foldl_max (fun s => calculateSubnetHeight s) hs' 100
        omega

theorem buildVNetsLoop_good (vnets : List RGResource) (st : St) (rgId vnetY : Nat)
    (pb : ContainerBounds)
    (hkeys : boundsKeysLE st)
    (hpb : assocFind st.containerAbsBounds rgId = some pb)
    (hx : ∀ v ∈ vnets, 20 + calculateVNetWidth v ≤ pb.width)
    (hy : vnetY + vnets.foldl (fun t v => t + (calculateVNetHeight v + 30)) 0 ≤
      pb.height + 30) :
    cellsGood (buildVNetsLoop st vnets rgId vnetY).1.containerAbsBounds
      (buildVNetsLoop st vnets rgId vnetY).2 := by
  induction vnets generalizing st vnetY with
  | nil => exact cellsGood_nil _
  | cons v rest ih =>
    simp only [buildVNetsLoop]
    rw [foldl_add_eq_sum, List.map_cons, List.sum_cons] at hy
    refine cellsGood_loopStep _ _ (buildVNet_bout ..) (buildVNetsLoop_bout ..) hkeys
      (buildVNet_good st v rgId ⟨20, vnetY⟩ hkeys
        ⟨pb, hpb, by show 20 + calculateVNetWidth v ≤ pb.width
                     exact hx v (List.mem_cons_self _ _),
         by show vnetY + calculateVNetHeight v ≤ pb.height; omega⟩) ?_
    intro hkA
    refine ih _ _ hkA (assocFind_after_bout (buildVNet_bout ..) hkeys hpb) ?_ ?_
    · exact fun v' hv' => hx v' (List.mem_cons_of_mem _ hv')
    · rw [foldl_add_eq_sum]
      omega

theorem buildResourceGroup_good (st : St) (rg : ResourceGroup) (cid : PId) (pos : Position)
    (hkeys : boundsKeysLE st)
    (hfit : parentFits st cid pos.x pos.y (calculateRGWidth rg) (calculateRGHeight rg)) :
    cellsGood (buildResourceGroup st rg cid pos).1.containerAbsBounds
      (buildResourceGroup st rg cid pos).2 := by
  simp only [buildResourceGroup, nextId, addContainer]
  refine cellsGood_shell2 _ _ _ rfl hkeys (Nat.lt_succ_self _) (Nat.le_refl _) hfit
    (buildVNetsLoop_bout ..) (buildGrid_bout ..) ?_ ?_
  · intro hkeysPre
    refine buildVNetsLoop_good _ _ _ _ _ hkeysPre (assocFind_mapSet_self _ _ _) ?_ ?_
    · intro v hv
      show 20 + calculateVNetWidth v ≤ calculateRGWidth rg
      simp only [calculateRGWidth]
      have := mem_le_foldl_max (fun v => calculateVNetWidth v) hv 0
      omega
    · show 40 + _ ≤ calculateRGHeight rg + 30
      simp only [calculateRGHeight]
      simp only [foldl_add_eq_sum]
      omega
  · intro hkA
    rw [buildGrid_bounds]
    refine buildGrid_good _ _ _ _ _ _ _ _ _ _
      (assocFind_after_bout (buildVNetsLoop_bout ..)
        (boundsKeysLE_pre rfl hkeys (Nat.lt_succ_self _) (Nat.le_refl _))
        (assocFind_mapSet_self _ _ _))
      (by omega) ?_ ?_
    · intro j hj hjl
      rw [List.length_map] at hjl
      show (if (rgVnets rg).length > 0 then
          (rgVnets rg).foldl (fun m v => max m (calculateVNetWidth v)) 0 + 50 else 20) +
          j * 130 + 64 ≤ calculateRGWidth rg
      simp only [calculateRGWidth]
      split_ifs <;> omega
    · show 50 + (0 + (List.map RGResource.toResource (rgOthers rg)).length - 1) / 4 * 110 +
          64 ≤ calculateRGHeight rg
      rw [List.length_map]
      simp only [calculateRGHeight]
      omega

theorem cellsGood_loopStepT {stA : St} {TA TB : List String}
    (A : St × List XCell) (B : Nat × St × List XCell)
    (hA : BOut stA A TA) (hB : BOut A.1 B.2 TB)
    (hkeys : boundsKeysLE stA)
    (hgA : cellsGood A.1.containerAbsBounds A.2)
    (hgB : boundsKeysLE A.1 → cellsGood B.2.1.containerAbsBounds B.2.2) :
    cellsGood B.2.1.containerAbsBounds (A.2 ++ B.2.2) := by
  have hkA := (hA.2.2.2.2 hkeys).1
  have hextB := hB.2.2.2.2 hkA
  exact cellsGood_append (cellsGood_mono hextB.2 hgA) (hgB hkA)

theorem buildRGStack_good (rgs : List ResourceGroup) (st : St) (regionId rgX rgY : Nat)
    (pb : ContainerBounds)
    (hkeys : boundsKeysLE st)
    (hpb : assocFind st.containerAbsBounds regionId = some pb)
    (hx : ∀ rg ∈ rgs, rgX + calculateRGWidth rg ≤ pb.width)
    (hy : rgY + rgs.foldl (fun t rg => t + (calculateRGHeight rg + 40)) 0 ≤ pb.height + 40) :
    cellsGood (buildRGStack st rgs regionId rgX rgY).2.1.containerAbsBounds
      (buildRGStack st rgs regionId rgX rgY).2.2 := by
  induction rgs generalizing st rgY with
  | nil => exact cellsGood_nil _
  | cons rg rest ih =>
    simp only [buildRGStack]
    rw [foldl_add_eq_sum, List.map_cons, List.sum_cons] at hy
    refine cellsGood_loopStepT _ _ (buildResourceGroup_bout ..) (buildRGStack_bout ..) hkeys
      (buildResourceGroup_good st rg (.gen regionId) ⟨rgX, rgY⟩ hkeys
        ⟨pb, hpb, by show rgX + calculateRGWidth rg ≤ pb.width
                     exact hx rg (List.mem_cons_self _ _),
         by show rgY + calculateRGHeight rg ≤ pb.height; omega⟩) ?_
    intro hkA
    refine ih _ _ hkA (assocFind_after_bout (buildResourceGroup_bout ..) hkeys hpb) ?_ ?_
    · exact fun rg' hrg' => hx rg' (List.mem_cons_of_mem _ hrg')
    · rw [foldl_add_eq_sum]
      omega

theorem buildRegion_good (st : St) (region : Region) (pos : Position) (cid : PId)
    (hkeys : boundsKeysLE st)
    (hnores : region.resources.getD [] = [])
    (hfit : parentFits st cid pos.x pos.y (calculateRegionWidth region)
      (calculateRegionHeight region)) :
    cellsGood (buildRegion st region pos cid).1.containerAbsBounds
      (buildRegion st region pos cid).2 := by
  have hstack : ∀ rgs, region.resourceGroups = some rgs → ∀ stP : St,
      stP.containerAbsBounds =
        mapSet st.containerAbsBounds (st.idCounter + 1)
          ⟨pos.x + (match lookupBoundsP { st with idCounter := st.idCounter + 1 } cid with
              | some b => b.x | none => 0),
           pos.y + (match lookupBoundsP { st with idCounter := st.idCounter + 1 } cid with
              | some b => b.y | none => 0),
           calculateRegionWidth region, calculateRegionHeight region⟩ →
      boundsKeysLE stP →
      cellsGood (buildRGStack stP rgs (st.idCounter + 1) 30 50).2.1.containerAbsBounds
        (buildRGStack stP rgs (st.idCounter + 1) 30 50).2.2 := by
    intro rgs hrg stP hP hkP
    refine buildRGStack_good _ _ _ _ _ _ hkP
      (by rw [hP]; exact assocFind_mapSet_self _ _ _) ?_ ?_
    · intro rg' hrg'
      show 30 + calculateRGWidth rg' ≤ calculateRegionWidth region
      simp only [calculateRegionWidth, hrg]
      have := mem_le_foldl_max (fun rg => calculateRGWidth rg + 60) hrg' 400
      omega
    · show 50 + _ ≤ calculateRegionHeight region + 40
      simp only [calculateRegionHeight, hrg]
      simp only [foldl_add_eq_sum]
      omega
  rcases hrg : region.resourceGroups with _ | rgs
  · rcases hres : region.resources with _ | res
    · simp only [buildRegion, nextId, addContainer, hrg, hres]
      exact cellsGood_container1 _ _ rfl hkeys (Nat.lt_succ_self _) hfit
    · have hnil : res = [] := by rw [hres] at hnores; simpa using hnores
      subst hnil
      simp only [buildRegion, nextId, addContainer, hrg, hres]
      exact cellsGood_container1 _ _ rfl hkeys (Nat.lt_succ_self _) hfit
  · rcases hres : region.resources with _ | res
    · simp only [buildRegion, nextId, addContainer, hrg, hres]
      refine cellsGood_shell1R _ _ rfl hkeys (Nat.lt_succ_self _) (Nat.le_refl _) hfit
        (buildRGStack_bout ..) ?_
      exact hstack rgs hrg _ rfl
    · have hnil : res = [] := by rw [hres] at hnores; simpa using hnores
      subst hnil
      simp only [buildRegion, nextId, addContainer, hrg, hres]
      refine cellsGood_shell2R _ _ _ rfl hkeys (Nat.lt_succ_self _) (Nat.le_refl _) hfit
        (buildRGStack_bout ..) (buildResourceList_bout ..) (hstack rgs hrg _ rfl) ?_
      exact fun _ => cellsGood_nil _

theorem cellsGood_loopStep5 {stA : St} {TA TB : List String}
    (A : St × List XCell) (B : St × List XCell × Nat × Nat × Nat)
    (hA : BOut stA A TA) (hB : BOut A.1 (B.1, B.2.1) TB)
    (hkeys : boundsKeysLE stA)
    (hgA : cellsGood A.1.containerAbsBounds A.2)
    (hgB : boundsKeysLE A.1 → cellsGood B.1.containerAbsBounds B.2.1) :
    cellsGood B.1.containerAbsBounds (A.2 ++ B.2.1) := by
  have hkA := (hA.2.2.2.2 hkeys).1
  have hextB := hB.2.2.2.2 hkA
  exact cellsGood_append (cellsGood_mono hextB.2 hgA) (hgB hkA)

theorem buildRegionsTop_good (regions : List Region) (st : St) (cx cy mh tw : Nat)
    (hkeys : boundsKeysLE st)
    (hnores : ∀ r ∈ regions, r.resources.getD [] = []) :
    cellsGood (buildRegionsTop st regions cx cy mh tw).1.containerAbsBounds
      (buildRegionsTop st regions cx cy mh tw).2.1 := by
  induction regions generalizing st cx mh tw with
  | nil => exact cellsGood_nil _
  | cons r rest ih =>
    simp only [buildRegionsTop]
    refine cellsGood_loopStep5 _ _ (buildRegion_bout ..) (buildRegionsTop_bout ..) hkeys
      (buildRegion_good st r ⟨cx, cy⟩ .p1 hkeys (hnores r (List.mem_cons_self _ _))
        trivial) ?_
    intro hkA
    exact ih _ _ _ _ hkA (fun r' hr' => hnores r' (List.mem_cons_of_mem _ hr'))

theorem buildRegionsRow_good (regions : List Region) (st : St) (subId rx ry : Nat)
    (pb : ContainerBounds)
    (hkeys : boundsKeysLE st)
    (hpb : assocFind st.containerAbsBounds subId = some pb)
    (hnores : ∀ r ∈ regions, r.resources.getD [] = [])
    (hx : rx + regions.foldl (fun t r => t + (calculateRegionWidth r + 60)) 0 ≤
      pb.width + 30)
    (hy : ∀ r ∈ regions, ry + calculateRegionHeight r ≤ pb.height) :
    cellsGood (buildRegionsRow st regions subId rx ry).1.containerAbsBounds
      (buildRegionsRow st regions subId rx ry).2 := by
  induction regions generalizing st rx with
  | nil => exact cellsGood_nil _
  | cons r rest ih =>
    simp only [buildRegionsRow]
    rw [foldl_add_eq_sum, List.map_cons, List.sum_cons] at hx
    refine cellsGood_loopStep _ _ (buildRegion_bout ..) (buildRegionsRow_bout ..) hkeys
      (buildRegion_good st r ⟨rx, ry⟩ (.gen subId) hkeys (hnores r (List.mem_cons_self _ _))
        ⟨pb, hpb, by show rx + calculateRegionWidth r ≤ pb.width; omega,
         by show ry + calculateRegionHeight r ≤ pb.height
            exact hy r (List.mem_cons_self _ _)⟩) ?_
    intro hkA
    refine ih _ _ hkA (assocFind_after_bout (buildRegion_bout ..) hkeys hpb)
      (fun r' hr' => hnores r' (List.mem_cons_of_mem _ hr')) ?_
      (fun r' hr' => hy r' (List.mem_cons_of_mem _ hr'))
    rw [foldl_add_eq_sum]
    omega

theorem buildRGRow_good (rgs : List ResourceGroup) (st : St) (subId rx ry : Nat)
    (pb : ContainerBounds)
    (hkeys : boundsKeysLE st)
    (hpb : assocFind st.containerAbsBounds subId = some pb)
    (hx : rx + rgs.foldl (fun t rg => t + (calculateRGWidth rg + 40)) 0 ≤ pb.width + 30)
    (hy : ∀ rg ∈ rgs, ry + calculateRGHeight rg ≤ pb.height) :
    cellsGood (buildRGRow st rgs subId rx ry).1.containerAbsBounds
      (buildRGRow st rgs subId rx ry).2 := by
  induction rgs generalizing st rx with
  | nil => exact cellsGood_nil _
  | cons rg rest ih =>
    simp only [buildRGRow]
    rw [foldl_add_eq_sum, List.map_cons, List.sum_cons] at hx
    refine cellsGood_loopStep _ _ (buildResourceGroup_bout ..) (buildRGRow_bout ..) hkeys
      (buildResourceGroup_good st rg (.gen subId) ⟨rx, ry⟩ hkeys
        ⟨pb, hpb, by show rx + calculateRGWidth rg ≤ pb.width; omega,
         by show ry + calculateRGHeight rg ≤ pb.height
            exact hy rg (List.mem_cons_self _ _)⟩) ?_
    intro hkA
    refine ih _ _ hkA (assocFind_after_bout (buildResourceGroup_bout ..) hkeys hpb) ?_
      (fun rg' hrg' => hy rg' (List.mem_cons_of_mem _ hrg'))
    rw [foldl_add_eq_sum]
    omega

theorem buildSubscription_good (st : St) (sub : Subscription) (pos : Position)
    (hkeys : boundsKeysLE st)
    (hnores : ∀ r ∈ subRegions sub, r.resources.getD [] = []) :
    cellsGood (buildSubscription st sub pos).1.containerAbsBounds
      (buildSubscription st sub pos).2 := by
  have hw := calculateSubscriptionWidth_ge sub
  have hh := calculateSubscriptionHeight_ge sub
  have hiconx : (10 : Nat) + 44 ≤ calculateSubscriptionWidth sub := by omega
  have hicony : (30 : Nat) + 71 ≤ calculateSubscriptionHeight sub := by omega
  have hgRow : ∀ rgs, sub.resourceGroups = some rgs →
      (sub.regions = none ∨ sub.regions = some []) → ∀ stP : St,
      assocFind stP.containerAbsBounds (st.idCounter + 1) =
        some ⟨pos.x + (match lookupBoundsP { st with idCounter := st.idCounter + 1 }
            PId.p1 with | some b => b.x | none => 0),
          pos.y + (match lookupBoundsP { st with idCounter := st.idCounter + 1 }
            PId.p1 with | some b => b.y | none => 0),
          calculateSubscriptionWidth sub, calculateSubscriptionHeight sub⟩ →
      boundsKeysLE stP →
      cellsGood (buildRGRow stP rgs (st.idCounter + 1) 70 50).1.containerAbsBounds
        (buildRGRow stP rgs (st.idCounter + 1) 70 50).2 := by
    intro rgs hg hnoreg stP hP hkP
    refine buildRGRow_good _ _ _ _ _ _ hkP hP ?_ ?_
    · show 70 + _ ≤ calculateSubscriptionWidth sub + 30
      rcases hnoreg with hr' | hr' <;>
        simp [calculateSubscriptionWidth, hr', hg, foldl_add_eq_sum] <;> omega
    · intro rg' hrg'
      show 50 + calculateRGHeight rg' ≤ calculateSubscriptionHeight sub
      have hm := mem_le_foldl_max (fun rg => calculateRGHeight rg + 100) hrg' 200
      rcases hnoreg with hr' | hr' <;>
        simp only [calculateSubscriptionHeight, hr', hg, List.length_nil, gt_iff_lt,
          Nat.lt_irrefl, if_false] <;> omega
  rcases hr : sub.regions with _ | regions
  · rcases hg : sub.resourceGroups with _ | rgs
    · simp only [buildSubscription, nextId, addContainer, addIcon, hr, hg]
      exact cellsGood_container_icon _ _ rfl hkeys (Nat.lt_succ_self _) trivial hiconx hicony
    · simp only [buildSubscription, nextId, addContainer, addIcon, hr, hg]
      refine cellsGood_shell_icon _ _ rfl hkeys (Nat.lt_succ_self _) (Nat.le_succ _) trivial
        hiconx hicony (buildRGRow_bout ..) ?_
      intro hkeysPre
      exact hgRow rgs hg (Or.inl hr) _ (assocFind_mapSet_self _ _ _) hkeysPre
  · by_cases hlen : regions.length > 0
    · simp only [buildSubscription, nextId, addContainer, addIcon, hr, if_pos hlen]
      refine cellsGood_shell_icon _ _ rfl hkeys (Nat.lt_succ_self _) (Nat.le_succ _) trivial
        hiconx hicony (buildRegionsRow_bout ..) ?_
      intro hkeysPre
      have hnr : ∀ r ∈ regions, r.resources.getD [] = [] := by
        intro r hrr
        exact hnores r (by simp only [subRegions, hr, Option.getD_some]; exact hrr)
      refine buildRegionsRow_good _ _ _ _ _ _ hkeysPre (assocFind_mapSet_self _ _ _) hnr
        ?_ ?_
      · show 70 + _ ≤ calculateSubscriptionWidth sub + 30
        simp only [calculateSubscriptionWidth, hr, if_pos hlen]
        simp only [foldl_add_eq_sum]
        omega
      · intro r hrr
        show 50 + calculateRegionHeight r ≤ calculateSubscriptionHeight sub
        simp only [calculateSubscriptionHeight, hr, if_pos hlen]
        have hm := mem_le_foldl_max (fun r => calculateRegionHeight r + 100) hrr 200
        omega
    · rcases hg : sub.resourceGroups with _ | rgs
      · simp only [buildSubscription, nextId, addContainer, addIcon, hr, if_neg hlen, hg]
        exact cellsGood_container_icon _ _ rfl hkeys (Nat.lt_succ_self _) trivial hiconx
          hicony
      · simp only [buildSubscription, nextId, addContainer, addIcon, hr, if_neg hlen, hg]
        refine cellsGood_shell_icon _ _ rfl hkeys (Nat.lt_succ_self _) (Nat.le_succ _)
          trivial hiconx hicony (buildRGRow_bout ..) ?_
        intro hkeysPre
        have hreg0 : regions = [] := List.length_eq_zero.mp (by omega)
        exact hgRow rgs hg (Or.inr (by rw [hr, hreg0])) _ (assocFind_mapSet_self _ _ _)
          hkeysPre

theorem buildSubsTop_good (subs : List Subscription) (st : St) (cx cy mh tw : Nat)
    (hkeys : boundsKeysLE st)
    (hnores : ∀ s ∈ subs, ∀ r ∈ subRegions s, r.resources.getD [] = []) :
    cellsGood (buildSubsTop st subs cx cy mh tw).1.containerAbsBounds
      (buildSubsTop st subs cx cy mh tw).2.1 := by
  induction subs generalizing st cx mh tw with
  | nil => exact cellsGood_nil _
  | cons s rest ih =>
    simp only [buildSubsTop]
    refine cellsGood_loopStep5 _ _ (buildSubscription_bout ..) (buildSubsTop_bout ..) hkeys
      (buildSubscription_good st s ⟨cx, cy⟩ hkeys (hnores s (List.mem_cons_self _ _))) ?_
    intro hkA
    exact ih _ _ _ _ hkA (fun s' hs' => hnores s' (List.mem_cons_of_mem _ hs'))

theorem contentNoRegions_good (st : St) (arch : Architecture) (cx cy : Nat)
    (hkeys : boundsKeysLE st)
    (harch : archNoDirectRegionResources arch) :
    cellsGood (contentNoRegions st arch cx cy).1.containerAbsBounds
      (contentNoRegions st arch cx cy).2.1 := by
  rcases hs : arch.subscription with _ | sub
  · rcases hss : arch.subscriptions with _ | subs
    · simp only [contentNoRegions, hs, hss]
      exact cellsGood_nil _
    · simp only [contentNoRegions, hs, hss]
      refine buildSubsTop_good _ _ _ _ _ _ hkeys ?_
      intro s' hs' r hr
      refine harch r ?_
      rw [archRegionsOf]
      refine List.mem_append.mpr (Or.inr ?_)
      rw [List.mem_flatMap]
      refine ⟨s', ?_, hr⟩
      rw [hss]
      simpa using hs'
  · simp only [contentNoRegions, hs]
    refine buildSubscription_good _ _ _ hkeys ?_
    intro r hr
    refine harch r ?_
    rw [archRegionsOf]
    refine List.mem_append.mpr (Or.inl (List.mem_append.mpr (Or.inr ?_)))
    simp only [hs]
    exact hr

theorem pageContent_good (st : St) (arch : Architecture) (cx cy : Nat)
    (hkeys : boundsKeysLE st)
    (harch : archNoDirectRegionResources arch) :
    cellsGood (pageContent st arch cx cy).1.containerAbsBounds
      (pageContent st arch cx cy).2.1 := by
  rcases hr : arch.regions with _ | regions
  · simp only [pageContent, hr]
    exact contentNoRegions_good _ _ _ _ hkeys harch
  · by_cases hlen : regions.length > 0
    · simp only [pageContent, hr, if_pos hlen]
      refine buildRegionsTop_good _ _ _ _ _ _ hkeys ?_
      intro r hrr
      refine harch r ?_
      rw [archRegionsOf]
      refine List.mem_append.mpr (Or.inl (List.mem_append.mpr (Or.inl ?_)))
      simp only [hr, Option.getD_some]
      exact hrr
    · simp only [pageContent, hr, if_neg hlen]
      exact contentNoRegions_good _ _ _ _ hkeys harch

theorem buildOnPremResources_good (resources : List Resource) (st : St) (opId resY : Nat)
    (pb : ContainerBounds)
    (hkeys : boundsKeysLE st)
    (hpb : assocFind st.containerAbsBounds opId = some pb)
    (hw : 184 ≤ pb.width)
    (hy : resY + 85 * resources.length ≤ pb.height + 21) :
    cellsGood (buildOnPremResources st resources opId resY).1.containerAbsBounds
      (buildOnPremResources st resources opId resY).2 := by
  induction resources generalizing st resY with
  | nil => exact cellsGood_nil _
  | cons r rest ih =>
    simp only [buildOnPremResources]
    simp only [List.length_cons] at hy
    refine cellsGood_loopStep _ _ (buildResource_bout ..) (buildOnPremResources_bout ..)
      hkeys ?_ ?_
    · rw [buildResource_bounds]
      exact buildResource_good st r opId ⟨120, resY⟩ pb hpb
        (by show (120 : Nat) + 64 ≤ pb.width; omega)
        (by show resY + 64 ≤ pb.height; omega)
    · intro hkA
      refine ih _ _ hkA (assocFind_after_bout (buildResource_bout ..) hkeys hpb) ?_
      omega

theorem buildOnPremises_good (st : St) (op : OnPremises) (pos : Position)
    (hkeys : boundsKeysLE st) :
    cellsGood (buildOnPremises st op pos).1.containerAbsBounds
      (buildOnPremises st op pos).2 := by
  rcases hr : op.resources with _ | res
  · simp only [buildOnPremises, nextId, addContainer, addIcon, hr]
    exact cellsGood_container_icon _ _ rfl hkeys (Nat.lt_succ_self _) trivial
      (by omega : (20 : Nat) + 80 ≤ 350)
      (le_trans (by omega : (40 : Nat) + 138 ≤ 200) (Nat.le_max_left _ _))
  · simp only [buildOnPremises, nextId, addContainer, addIcon, hr, Option.getD_some]
    refine cellsGood_shell_icon _ _ rfl hkeys (Nat.lt_succ_self _) (Nat.le_succ _)
      trivial (by omega : (20 : Nat) + 80 ≤ 350)
      (le_trans (by omega : (40 : Nat) + 138 ≤ 200) (Nat.le_max_left _ _))
      (buildOnPremResources_bout ..) ?_
    intro hkeysPre
    refine buildOnPremResources_good _ _ _ _ _ hkeysPre (assocFind_mapSet_self _ _ _)
      (by omega : (184 : Nat) ≤ 350) ?_
    show 50 + 85 * res.length ≤ max 200 (res.length * 90 + 80) + 21
    omega

theorem buildOnPremRow_good (ops : List OnPremises) (st : St) (ox oy : Nat)
    (hkeys : boundsKeysLE st) :
    cellsGood (buildOnPremRow st ops ox oy).1.containerAbsBounds
      (buildOnPremRow st ops ox oy).2 := by
  induction ops generalizing st ox with
  | nil => exact cellsGood_nil _
  | cons o rest ih =>
    simp only [buildOnPremRow]
    refine cellsGood_loopStep _ _ (buildOnPremises_bout ..) (buildOnPremRow_bout ..) hkeys
      (buildOnPremises_good st o ⟨ox, oy⟩ hkeys) ?_
    intro hkA
    exact ih _ _ hkA

theorem buildResource_p1_good (st : St) (r : Resource) (pos : Position)
    (m : List (Nat × ContainerBounds)) :
    cellsGood m (buildResource st r .p1 pos).2 := by
  rcases hd : assocFind RESOURCES r.type with _ | rdef <;>
    intro c hc <;> simp only [buildResource, hd, nextId] at hc
  · cases hc
  · rcases List.mem_singleton.mp hc with rfl
    trivial

theorem buildGlobalResources_good (resources : List Resource) (st : St) (pos : Position)
    (m : List (Nat × ContainerBounds)) :
    cellsGood m (buildGlobalResources st resources pos).2 := by
  induction resources generalizing st pos with
  | nil => exact cellsGood_nil _
  | cons r rest ih =>
    simp only [buildGlobalResources]
    exact cellsGood_append (buildResource_p1_good st r _ m) (ih _ _)

theorem buildConnection_good (st : St) (conn : Connection)
    (m : List (Nat × ContainerBounds)) :
    cellsGood m (buildConnection st conn).2 := by
  rcases hf : findCell st.cellMap conn.«from» with _ | f
  · simp only [buildConnection, hf]
    exact cellsGood_nil _
  · rcases ht : findCell st.cellMap conn.«to» with _ | t
    · simp only [buildConnection, hf, ht]
      exact cellsGood_nil _
    · rcases hstyle : conn.style with _ | s
      · intro c hc
        simp only [buildConnection, hf, ht, hstyle, nextId] at hc
        split at hc <;> rcases List.mem_singleton.mp hc with rfl <;> trivial
      · by_cases hs : s = ""
        · intro c hc
          simp only [buildConnection, hf, ht, hstyle, if_pos hs, nextId] at hc
          split at hc <;> rcases List.mem_singleton.mp hc with rfl <;> trivial
        · intro c hc
          simp only [buildConnection, hf, ht, hstyle, if_neg hs, nextId] at hc
          split at hc <;> rcases List.mem_singleton.mp hc with rfl <;> trivial

theorem buildConnections_good (conns : List Connection) (st : St)
    (m : List (Nat × ContainerBounds)) :
    cellsGood m (buildConnections st conns).2 := by
  induction conns generalizing st with
  | nil => exact cellsGood_nil _
  | cons c rest ih =>
    simp only [buildConnections]
    exact cellsGood_append (buildConnection_good st c m) (ih _)

theorem titleCellOf_good (arch : Architecture) (st : St)
    (m : List (Nat × ContainerBounds)) :
    cellsGood m (titleCellOf arch st).2.1 := by
  simp only [titleCellOf, nextId]
  split
  · intro c hc
    rcases List.mem_singleton.mp hc with rfl
    trivial
  · exact cellsGood_nil _

theorem legendEntryCells_bounds (items : List (String × ResourceDefinition)) (st : St)
    (legendId entryY : Nat) :
    (legendEntryCells st items legendId entryY).1.containerAbsBounds
      = st.containerAbsBounds := by
  induction items generalizing st entryY with
  | nil => rfl
  | cons item rest ih =>
    simp only [legendEntryCells, nextId]
    exact ih _ _

theorem legendConnCells_bounds (cstyles : List (String × String × Bool)) (st : St)
    (legendId entryY : Nat) :
    (legendConnCells st cstyles legendId entryY).1.containerAbsBounds
      = st.containerAbsBounds := by
  induction cstyles generalizing st entryY with
  | nil => rfl
  | cons c rest ih =>
    simp only [legendConnCells, nextId]
    exact ih _ _

theorem legendEntryCells_endY (items : List (String × ResourceDefinition)) (st : St)
    (legendId entryY : Nat) :
    (legendEntryCells st items legendId entryY).2.2 = entryY + 28 * items.length := by
  induction items generalizing st entryY with
  | nil => simp [legendEntryCells]
  | cons item rest ih =>
    simp only [legendEntryCells, nextId, List.length_cons]
    rw [ih]
    omega

theorem legendEntryCells_good (items : List (String × ResourceDefinition)) (st : St)
    (legendId entryY : Nat) (pb : ContainerBounds)
    (hpb : assocFind st.containerAbsBounds legendId = some pb)
    (hw : 204 ≤ pb.width)
    (hy : entryY + 28 * items.length ≤ pb.height + 8) :
    cellsGood (legendEntryCells st items legendId entryY).1.containerAbsBounds
      (legendEntryCells st items legendId entryY).2.1 := by
  induction items generalizing st entryY with
  | nil => exact cellsGood_nil _
  | cons item rest ih =>
    simp only [List.length_cons] at hy
    simp only [legendEntryCells, nextId]
    intro c hc
    rcases List.mem_cons.mp hc with rfl | hc
    · refine ⟨pb, ?_, by show (8 : Nat) + 20 ≤ pb.width; omega,
        by show entryY + 20 ≤ pb.height; omega⟩
      rw [legendEntryCells_bounds]
      exact hpb
    rcases List.mem_cons.mp hc with rfl | hc
    · refine ⟨pb, ?_, by show (34 : Nat) + 170 ≤ pb.width; omega,
        by show entryY + 20 ≤ pb.height; omega⟩
      rw [legendEntryCells_bounds]
      exact hpb
    · refine ih _ _ ?_ ?_ c hc
      · exact hpb
      · omega

theorem legendConnCells_good (cstyles : List (String × String × Bool)) (st : St)
    (legendId entryY : Nat) (pb : ContainerBounds)
    (hpb : assocFind st.containerAbsBounds legendId = some pb)
    (hw : 204 ≤ pb.width)
    (hy : entryY + 28 * cstyles.length ≤ pb.height + 8) :
    cellsGood (legendConnCells st cstyles legendId entryY).1.containerAbsBounds
      (legendConnCells st cstyles legendId entryY).2 := by
  induction cstyles generalizing st entryY with
  | nil => exact cellsGood_nil _
  | cons cs rest ih =>
    simp only [List.length_cons] at hy
    simp only [legendConnCells, nextId]
    intro c hc
    rcases List.mem_cons.mp hc with rfl | hc
    · trivial
    rcases List.mem_cons.mp hc with rfl | hc
    · refine ⟨pb, ?_, by show (34 : Nat) + 170 ≤ pb.width; omega,
        by show entryY + 20 ≤ pb.height; omega⟩
      rw [legendConnCells_bounds]
      exact hpb
    · refine ih _ _ ?_ ?_ c hc
      · exact hpb
      · omega

theorem buildLegend_good (st : St) (x y : Nat) :
    cellsGood (buildLegend st x y).1.containerAbsBounds (buildLegend st x y).2 := by
  by_cases h0 : (legendItems st.usedResourceTypes).length = 0
  · simp only [buildLegend, if_pos h0]
    exact cellsGood_nil _
  · by_cases hcs : (legendConnStyles st.usedConnectionStyles).length > 0
    · simp only [buildLegend, if_neg h0, if_pos hcs, nextId, addContainer, lookupBoundsP,
        Nat.add_zero]
      refine List.forall_mem_cons.mpr ⟨True.intro,
        cellsGood_append ?ent (List.forall_mem_cons.mpr ⟨?hdr, ?conn⟩)⟩
      case ent =>
        rw [legendConnCells_bounds]
        refine legendEntryCells_good _ _ _ _
          ⟨x, y, 210, 30 + (legendItems st.usedResourceTypes).length * 28 + 10 +
            (20 + (legendConnStyles st.usedConnectionStyles).length * 28)⟩
          (assocFind_mapSet_self _ _ _) ?_ ?_
        · show (204 : Nat) ≤ 210
          omega
        · show 30 + 28 * (legendItems st.usedResourceTypes).length ≤
            30 + (legendItems st.usedResourceTypes).length * 28 + 10 +
              (20 + (legendConnStyles st.usedConnectionStyles).length * 28) + 8
          omega
      case hdr =>
        refine ⟨⟨x, y, 210, 30 + (legendItems st.usedResourceTypes).length * 28 + 10 +
            (20 + (legendConnStyles st.usedConnectionStyles).length * 28)⟩, ?_, ?_, ?_⟩
        · rw [legendConnCells_bounds, legendEntryCells_bounds]
          exact assocFind_mapSet_self _ _ _
        · show (8 : Nat) + 190 ≤ 210
          omega
        · simp only [legendEntryCells_endY]
          show 30 + 28 * (legendItems st.usedResourceTypes).length + 5 + 15 ≤
            30 + (legendItems st.usedResourceTypes).length * 28 + 10 +
              (20 + (legendConnStyles st.usedConnectionStyles).length * 28)
          omega
      case conn =>
        refine legendConnCells_good _ _ _ _
          ⟨x, y, 210, 30 + (legendItems st.usedResourceTypes).length * 28 + 10 +
            (20 + (legendConnStyles st.usedConnectionStyles).length * 28)⟩ ?_ ?_ ?_
        · rw [legendEntryCells_bounds]
          exact assocFind_mapSet_self _ _ _
        · show (204 : Nat) ≤ 210
          omega
        · simp only [legendEntryCells_endY]
          show 30 + 28 * (legendItems st.usedResourceTypes).length + 5 + 18 +
              28 * (legendConnStyles st.usedConnectionStyles).length ≤
            30 + (legendItems st.usedResourceTypes).length * 28 + 10 +
              (20 + (legendConnStyles st.usedConnectionStyles).length * 28) + 8
          omega
    · simp only [buildLegend, if_neg h0, if_neg hcs, nextId, addContainer, lookupBoundsP,
        Nat.add_zero]
      refine List.forall_mem_cons.mpr ⟨True.intro, ?_⟩
      refine legendEntryCells_good _ _ _ _
        ⟨x, y, 210, 30 + (legendItems st.usedResourceTypes).length * 28 + 10⟩
        (assocFind_mapSet_self _ _ _) ?_ ?_
      · show (204 : Nat) ≤ 210
        omega
      · show 30 + 28 * (legendItems st.usedResourceTypes).length ≤
          30 + (legendItems st.usedResourceTypes).length * 28 + 10 + 8
        omega

theorem pageOnPrem_good (st : St) (arch : Architecture) (cy mh tw : Nat)
    (hkeys : boundsKeysLE st) :
    cellsGood (pageOnPrem st arch cy mh tw).1.containerAbsBounds
      (pageOnPrem st arch cy mh tw).2 := by
  rcases ho : arch.onPremises with _ | ops
  · simp only [pageOnPrem, ho]
    exact cellsGood_nil _
  · by_cases hlen : ops.length > 0
    · simp only [pageOnPrem, ho, if_pos hlen]
      exact buildOnPremRow_good _ _ _ _ hkeys
    · simp only [pageOnPrem, ho, if_neg hlen]
      exact cellsGood_nil _

theorem pageGlobals_good (st : St) (arch : Architecture) :
    cellsGood (pageGlobals st arch).1.containerAbsBounds (pageGlobals st arch).2 := by
  rcases hg : arch.globalResources with _ | gs
  · simp only [pageGlobals, hg]
    exact cellsGood_nil _
  · by_cases hlen : gs.length > 0
    · simp only [pageGlobals, hg, if_pos hlen]
      exact buildGlobalResources_good _ _ _ _
    · simp only [pageGlobals, hg, if_neg hlen]
      exact cellsGood_nil _

theorem pageConnections_good (st : St) (arch : Architecture) :
    cellsGood (pageConnections st arch).1.containerAbsBounds
      (pageConnections st arch).2 := by
  rcases hc : arch.connections with _ | conns
  · simp only [pageConnections, hc]
    exact cellsGood_nil _
  · simp only [pageConnections, hc]
    exact buildConnections_good _ _ _

theorem pageLegend_good (st : St) (arch : Architecture) (tw toff : Nat) :
    cellsGood (pageLegend st arch tw toff).1.containerAbsBounds
      (pageLegend st arch tw toff).2 := by
  simp only [pageLegend]
  split
  · exact buildLegend_good _ _ _
  · exact cellsGood_nil _

/-- Assembling the seven cell groups of a page: each group is good for its
own builder's bounds map, and the later builders only extend that map. -/
theorem cellsGood_assemble7
    {st0 : St} {LT LC LOP LGL LCN LLG : List String}
    (bc : List XCell)
    (T : St × List XCell × Nat) (C : St × List XCell × Nat × Nat × Nat)
    (Op Gl Cn Lg : St × List XCell)
    (hbT : BOut st0 (T.1, T.2.1) LT)
    (hbC : BOut T.1 (C.1, C.2.1) LC)
    (hbOP : BOut C.1 Op LOP)
    (hbGL : BOut Op.1 Gl LGL)
    (hbCN : BOut Gl.1 Cn LCN)
    (hbLG : BOut Cn.1 Lg LLG)
    (hk0 : boundsKeysLE st0)
    (hgbc : cellsGood Lg.1.containerAbsBounds bc)
    (hgT : cellsGood Lg.1.containerAbsBounds T.2.1)
    (hgC : boundsKeysLE T.1 → cellsGood C.1.containerAbsBounds C.2.1)
    (hgOP : boundsKeysLE C.1 → cellsGood Op.1.containerAbsBounds Op.2)
    (hgGL : boundsKeysLE Op.1 → cellsGood Gl.1.containerAbsBounds Gl.2)
    (hgCN : boundsKeysLE Gl.1 → cellsGood Cn.1.containerAbsBounds Cn.2)
    (hgLG : boundsKeysLE Cn.1 → cellsGood Lg.1.containerAbsBounds Lg.2) :
    cellsGood Lg.1.containerAbsBounds
      (bc ++ T.2.1 ++ C.2.1 ++ Op.2 ++ Gl.2 ++ Cn.2 ++ Lg.2) := by
  have hkT := (hbT.2.2.2.2 hk0).1
  have hC := hbC.2.2.2.2 hkT
  have hOP := hbOP.2.2.2.2 hC.1
  have hGL := hbGL.2.2.2.2 hOP.1
  have hCN := hbCN.2.2.2.2 hGL.1
  have hLG := hbLG.2.2.2.2 hCN.1
  refine cellsGood_append (cellsGood_append (cellsGood_append (cellsGood_append
    (cellsGood_append (cellsGood_append hgbc hgT) ?_) ?_) ?_) ?_) ?_
  · exact cellsGood_mono (boundsExtends_trans (boundsExtends_trans
      (boundsExtends_trans hOP.2 hGL.2) hCN.2) hLG.2) (hgC hkT)
  · exact cellsGood_mono (boundsExtends_trans (boundsExtends_trans hGL.2 hCN.2) hLG.2)
      (hgOP hC.1)
  · exact cellsGood_mono (boundsExtends_trans hCN.2 hLG.2) (hgGL hOP.1)
  · exact cellsGood_mono hLG.2 (hgCN hGL.1)
  · exact hgLG hCN.1

/-- Containment for a whole generated page, under the side condition that
no region carries direct (region-level) resources. -/
theorem generatePage_good (g : Nat) (nm : String) (arch : Architecture)
    (harch : archNoDirectRegionResources arch) :
    cellsGood (generatePage g nm arch).2.1.containerAbsBounds
      (generatePage g nm arch).2.2.cells := by
  simp only [generatePage, generateCellId]
  refine cellsGood_assemble7 _ _ _ _ _ _ _ (titleCellOf_bout ..) (pageContent_bout ..)
    (pageOnPrem_bout ..) (pageGlobals_bout ..) (pageConnections_bout ..)
    (pageLegend_bout ..)
    (fun kb hkb => absurd hkb (List.not_mem_nil kb)) ?_ (titleCellOf_good arch _ _)
    (fun hk => pageContent_good _ arch _ _ hk harch)
    (fun hk => pageOnPrem_good _ arch _ _ _ hk)
    (fun hk => pageGlobals_good _ arch)
    (fun hk => pageConnections_good _ arch)
    (fun hk => pageLegend_good _ arch _ _)
  intro c hc
  rcases List.mem_cons.mp hc with rfl | hc
  · trivial
  rcases List.mem_singleton.mp hc with rfl
  trivial

/-- C1: the containment claim is false as stated — a region carrying
direct (region-level) resources lays them out in a grid that the region
size calculators never account for, so a placed node overflows its
parent's absolute bounds. -/
theorem azC1_counterexample :
    ¬ ∀ c ∈ (generatePage 0 "p" archDirect).2.2.cells,
        absoluteBoundsWithinParent (generatePage 0 "p" archDirect).2.1 c := by
  intro hall
  have hfalse : pageContainedB (generatePage 0 "p" archDirect).2.1
      (generatePage 0 "p" archDirect).2.2.cells = false := by decide
  rw [pageContainedB, List.all_eq_false] at hfalse
  rcases hfalse with ⟨c, hc, hcb⟩
  exact vertexWithinB_false (Bool.eq_false_iff.mpr hcb) (hall c hc)

/-- C1 (amended): for every architecture whose regions carry no direct
region-level resources — the only shape the spec's data model admits —
every placed node's absolute bounds (its parent's cached absolute origin
plus its parent-relative position, extended by its width and height) lie
fully within its parent container's absolute bounds. -/
theorem azC1_containment (g : Nat) (nm : String) (arch : Architecture)
    (harch : archNoDirectRegionResources arch) :
    ∀ c ∈ (generatePage g nm arch).2.2.cells,
      absoluteBoundsWithinParent (generatePage g nm arch).2.1 c :=
  cellsGood_to_contained (generatePage_good g nm arch harch)

/-- C1 witness: the amended containment theorem applies to the concrete
nested architecture. -/
theorem azC1_containment_witness :
    archNoDirectRegionResources archNested ∧
      ∀ c ∈ (generatePage 0 "p" archNested).2.2.cells,
        absoluteBoundsWithinParent (generatePage 0 "p" archNested).2.1 c :=
  ⟨fun r hr => absurd hr (List.not_mem_nil r),
   azC1_containment 0 "p" archNested (fun r hr => absurd hr (List.not_mem_nil r))⟩

end AzArch
